import Mathlib

/-!
# MeghairV2: booking availability, conflict checking and booking lifecycle

A shallow embedding of the booking back-end of the salon site
(`server/routes/bookings.js`, `server/routes/payments.js`,
`server/models/Booking.js`, `server/models/Service.js`).

Conventions of the embedding.

* A JavaScript `Date` is its epoch value in milliseconds, an `Int`. Where a
  `Date` can be an Invalid Date, or a number can be `NaN`, the value is an
  `Option` and `none` stands for the invalid value; every comparison with it is
  false (`jsLt`, `jsLe`).
* The server's time zone is a parameter `tz`: its offset from UTC in minutes,
  positive east of Greenwich (the negation of `getTimezoneOffset()`), taken as
  fixed, without a daylight-saving change. A date-only string `YYYY-MM-DD` is a
  day index `day : Int` (days since 1970-01-01) and is read as UTC midnight,
  `new Date(date)`; a date-time string without a zone, `new Date(date + 'T' +
  time)`, is read as local time; `getDay`, `getHours`, `getMinutes`,
  `toTimeString` and `setHours` work in local time.
* A `time` field is the string itself. The validator and the schema accept it
  when it matches `timePattern`, which allows a one-digit hour (`"9:30"`); the
  `Date` constructor reads the time part only with a two-digit hour
  (`parseTime`), so `"9:30"` gives an Invalid Date.
* JavaScript numbers are exact: integers for milliseconds and minutes,
  rationals where the source divides. A dollar amount is kept as the exact
  quotient `cents / 100`; the binary double that the source stores for it is
  `toDouble` of that quotient.
* The database is an explicit `Db` value passed in and returned.
* Request strings are taken as already normalised: the schema setters
  (`trim`, `lowercase`) are the identity on them.
* E-mail delivery is best-effort in the source and has no effect on the state
  or the reply; it is left out.
* The payment provider is outside the program: each call to it is a parameter
  giving its answer, `none` when the call throws.
* A `save()` that the schema refuses throws, the route answers 500 and the
  document is not stored; what was saved earlier in the same request stays.
-/

namespace Meghair

/-! ## Dates and times -/

/-- Milliseconds in one minute (`60 * 1000`). -/
def msPerMinute : Int := 60 * 1000

/-- Milliseconds in one hour (`1000 * 60 * 60`). -/
def msPerHour : Int := 1000 * 60 * 60

/-- Milliseconds in one day. -/
def msPerDay : Int := 24 * 60 * 60 * 1000

/-- A time of day: hour and minute. -/
structure TimeOfDay where
  hour : Nat
  minute : Nat
deriving DecidableEq, Repr

/-- The method `String.prototype.padStart(targetLength, padChar)` for a one-character pad. -/
def padStart (s : String) (targetLength : Nat) (padChar : Char) : String :=
  String.mk (List.replicate (targetLength - s.length) padChar) ++ s

/-- The template string
`${hour.toString().padStart(2, '0')}:${minute.toString().padStart(2, '0')}`. -/
def timeString (hour minute : Nat) : String :=
  padStart (toString hour) 2 '0' ++ ":" ++ padStart (toString minute) 2 '0'

/-- The `"HH:MM"` rendering of a time of day. -/
def TimeOfDay.render (t : TimeOfDay) : String := timeString t.hour t.minute

/-- Minutes since midnight of a time of day. -/
def TimeOfDay.minutes (t : TimeOfDay) : Int := 60 * (t.hour : Int) + (t.minute : Int)

/-- The pattern `/^([01]?[0-9]|2[0-3]):[0-5][0-9]$/` of the request validator
(`body('time').matches(...)`) and of the schema field `time`: an hour of one
digit, or of two digits from 00 to 23, a colon, and a minute from 00 to 59. -/
def timePattern (time : String) : Bool :=
  match time.toList with
  | [h, ':', m1, m2] => h.isDigit && (decide ('0' ≤ m1) && decide (m1 ≤ '5')) && m2.isDigit
  | [h1, h2, ':', m1, m2] =>
    (((h1 == '0' || h1 == '1') && h2.isDigit) ||
        (h1 == '2' && (decide ('0' ≤ h2) && decide (h2 ≤ '3')))) &&
      (decide ('0' ≤ m1) && decide (m1 ≤ '5')) && m2.isDigit
  | _ => false

/-- The value of a decimal digit character. -/
def digitValue (c : Char) : Nat := c.toNat - '0'.toNat

/-- The time part of the date-time string `YYYY-MM-DDTHH:mm` as the `Date`
constructor reads it, for a string that matches `timePattern`: the format needs
two digits for the hour, so a one-digit hour is not read and the `Date` is
invalid (`none`). -/
def parseTime (time : String) : Option TimeOfDay :=
  if timePattern time then
    match time.toList with
    | [h1, h2, ':', m1, m2] =>
      some ⟨10 * digitValue h1 + digitValue h2, 10 * digitValue m1 + digitValue m2⟩
    | _ => none
  else none

/-- The comparison `a < b` of two JavaScript numbers or dates, `none` standing
for `NaN` or an Invalid Date: false when either side is invalid. -/
def jsLt {α : Type} [LinearOrder α] (a b : Option α) : Bool :=
  match a, b with
  | some x, some y => decide (x < y)
  | _, _ => false

/-- The comparison `a <= b` of two JavaScript numbers or dates, `none` standing
for `NaN` or an Invalid Date: false when either side is invalid. -/
def jsLe {α : Type} [LinearOrder α] (a b : Option α) : Bool :=
  match a, b with
  | some x, some y => decide (x ≤ y)
  | _, _ => false

/-- The value `new Date(date)` for a date-only string: UTC midnight of that day. -/
def dateOnly (day : Int) : Int := day * msPerDay

/-- The instant at which the clock of the server's zone shows the given day and
time of day. -/
def localDateTime (tz day : Int) (t : TimeOfDay) : Int :=
  day * msPerDay + t.minutes * msPerMinute - tz * msPerMinute

/-- The value `new Date(date + 'T' + time)`: the string has no zone and is read
as local time; `none` is the Invalid Date of a time part that is not read. -/
def dateTime (tz day : Int) (time : String) : Option Int :=
  (parseTime time).map (localDateTime tz day)

/-- The expression `d.toISOString().split('T')[0]`: the UTC day of an instant. -/
def isoDay (d : Int) : Int := d / msPerDay

/-- The method `Date.prototype.getDay`, in local time: 0 is Sunday; 1970-01-01
was a Thursday. -/
def getDay (tz d : Int) : Int := ((d + tz * msPerMinute) / msPerDay + 4) % 7

/-- The method `Date.prototype.getHours`, in local time. -/
def getHours (tz d : Int) : Int := (d + tz * msPerMinute) % msPerDay / msPerHour

/-- The method `Date.prototype.getMinutes`, in local time. -/
def getMinutes (tz d : Int) : Int := (d + tz * msPerMinute) % msPerHour / msPerMinute

/-- The call `d.setHours(0, 0, 0, 0)`: local midnight of the day of `d`. -/
def setHoursZero (tz d : Int) : Int :=
  (d + tz * msPerMinute) / msPerDay * msPerDay - tz * msPerMinute

/-- The expression `d.toTimeString().slice(0, 5)`: the `"HH:MM"` prefix of the
local time string, and `"Inval"`, the prefix of `"Invalid Date"`, for an Invalid
Date. -/
def toTimeString5 (tz : Int) (d : Option Int) : String :=
  match d with
  | none => "Inval"
  | some t => timeString (getHours tz t).toNat (getMinutes tz t).toNat

/-! ## Documents -/

/-- A document of the `Service` collection (`models/Service.js`). -/
structure Service where
  id : Nat
  name : String := ""
  price : ℚ := 0
  duration : Int := 60
  isActive : Bool := true
deriving DecidableEq

/-- An entry of `remindersSent`. -/
structure Reminder where
  type : String
  sentAt : Int := 0
  method : String := "email"
deriving DecidableEq

/-- A document of the `Booking` collection (`models/Booking.js`), with its
`service` reference populated. Statuses and the time are the strings of the
schema. -/
structure Booking where
  id : Nat
  firstName : String := ""
  lastName : String := ""
  email : String := ""
  phone : String := ""
  service : Service
  date : Int
  time : String
  duration : Int := 60
  notes : String := ""
  totalAmount : ℚ := 0
  status : String := "pending"
  paymentStatus : String := "pending"
  payment : Option Nat := none
  cancellationReason : Option String := none
  cancelledAt : Option Int := none
  remindersSent : List Reminder := []
  isFirstTime : Bool := true
  updatedAt : Int := 0
deriving DecidableEq

/-- The persisted state: the `Service` and `Booking` collections. -/
structure Db where
  services : List Service := []
  bookings : List Booking := []
deriving DecidableEq

/-- The query `Service.findById`. -/
def Db.findService (db : Db) (serviceId : Nat) : Option Service :=
  db.services.find? (fun s => s.id == serviceId)

/-- The query `Booking.findById`. -/
def Db.findBooking (db : Db) (bookingId : Nat) : Option Booking :=
  db.bookings.find? (fun b => b.id == bookingId)

/-- Saving a stored document (`booking.save()`): the document with that id is
replaced. -/
def Db.saveBooking (db : Db) (b : Booking) : Db :=
  { db with bookings := db.bookings.map (fun x => if x.id == b.id then b else x) }

/-- The query clause `status: { $in: ['pending', 'confirmed'] }`. -/
def isActiveStatus (status : String) : Bool :=
  status == "pending" || status == "confirmed"

/-- The query clause
`date: { $gte: new Date(date + 'T00:00:00'), $lt: new Date(date + 'T23:59:59') }`;
both bounds are read as local time. -/
def onDate (tz day : Int) (b : Booking) : Bool :=
  decide (localDateTime tz day ⟨0, 0⟩ ≤ b.date) &&
    decide (b.date < localDateTime tz day ⟨23, 59⟩ + 59 * 1000)

/-! ## Availability: `GET /bookings/availability/:date` -/

/-- The test `slotEnd <= 18` of the slot loop, where
`slotEnd = hour + (minute + serviceDuration) / 60`. -/
def slotFits (hour minute : Nat) (serviceDuration : Int) : Bool :=
  decide ((hour : ℚ) + ((minute : ℚ) + (serviceDuration : ℚ)) / 60 ≤ 18)

/-- The values of `minute` in `for (minute = 0; minute < 60; minute += 30)`. -/
def minuteSteps : List Nat := (List.range 60).filter (fun minute => minute % 30 == 0)

/-- The `timeSlots` loop: hours 9 to 17, minutes 0 and 30, keeping a slot when
the service ends by 18:00. Each element stands for the pushed `timeString`. -/
def timeSlots (serviceDuration : Int) : List TimeOfDay :=
  (List.range' 9 9).flatMap (fun hour =>
    (minuteSteps.filter (fun minute => slotFits hour minute serviceDuration)).map
      (fun minute => TimeOfDay.mk hour minute))

/-- The 15-minute buffer, `15 * 60 * 1000`. -/
def buffer : Int := 15 * 60 * 1000

/-- The overlap test of the availability filter on the four dates:
`(slotTime >= bookingTime - buffer && slotTime < bookingEnd + buffer) ||
 (slotEnd > bookingTime - buffer && slotEnd <= bookingEnd + buffer)`. -/
def overlapsWithBuffer (slotTime slotEnd bookingTime bookingEnd : Option Int) : Bool :=
  (jsLe (bookingTime.map (fun t => t - buffer)) slotTime &&
      jsLt slotTime (bookingEnd.map (fun t => t + buffer))) ||
  (jsLt (bookingTime.map (fun t => t - buffer)) slotEnd &&
      jsLe slotEnd (bookingEnd.map (fun t => t + buffer)))

/-- The callback of `existingBookings.some(...)`: does `booking` block the
slot starting at `slot` on `day` for a service of `serviceDuration` minutes. -/
def slotBlockedBy (tz day : Int) (serviceDuration : Int) (slot : TimeOfDay)
    (booking : Booking) : Bool :=
  let slotTime := dateTime tz day slot.render
  let bookingTime := dateTime tz day booking.time
  let bookingEnd := bookingTime.map (fun t => t + booking.service.duration * 60 * 1000)
  let slotEnd := slotTime.map (fun t => t + serviceDuration * 60 * 1000)
  overlapsWithBuffer slotTime slotEnd bookingTime bookingEnd

/-- The query for `existingBookings`: bookings of the day that are pending or
confirmed. -/
def existingBookings (tz : Int) (db : Db) (day : Int) : List Booking :=
  db.bookings.filter (fun b => onDate tz day b && isActiveStatus b.status)

/-- The value `availableSlots = timeSlots.filter(...)`: the slots blocked by no
existing booking. -/
def availableSlots (tz day : Int) (serviceDuration : Int) (existing : List Booking)
    (slots : List TimeOfDay) : List TimeOfDay :=
  slots.filter (fun slot => !existing.any (fun b => slotBlockedBy tz day serviceDuration slot b))

/-- The service duration used by the availability route: 60 unless a service
id is given and found. -/
def availabilityDuration (db : Db) (serviceId : Option Nat) : Int :=
  match serviceId with
  | none => 60
  | some sid =>
    match db.findService sid with
    | some service => service.duration
    | none => 60

/-- The replies of the availability route. -/
inductive AvailabilityReply where
  | error (code : Nat) (message : String)
  | closed (availableSlots : List String) (message : String)
  | ok (availableSlots : List String)
deriving DecidableEq

/-- The route `GET /availability/:date`. `date` is `none` when the parameter does
not parse as a date, and the day index of a date-only string otherwise. -/
def getAvailability (tz : Int) (db : Db) (now : Int) (date : Option Int)
    (serviceId : Option Nat) : AvailabilityReply :=
  match date with
  | none => .error 400 "Invalid date format"
  | some day =>
    let requestedDate := dateOnly day
    let today := setHoursZero tz now
    if requestedDate < today then
      .error 400 "Cannot check availability for past dates"
    else
      let dayOfWeek := getDay tz requestedDate
      if dayOfWeek = 0 ∨ dayOfWeek = 1 then
        .closed [] "Closed on Sundays and Mondays"
      else
        let serviceDuration := availabilityDuration db serviceId
        let slots := timeSlots serviceDuration
        let existing := existingBookings tz db day
        .ok ((availableSlots tz day serviceDuration existing slots).map TimeOfDay.render)

/-! ## Booking creation: `POST /bookings` -/

/-- A status code and message, the part of a JSON reply the claims are about. -/
structure Reply where
  code : Nat
  message : String := ""
deriving DecidableEq

/-- The body of `POST /bookings`. `validationErrors` is the result of the
express-validator chain `createBookingValidation` on the fields other than
`time`, whose pattern is checked by `timePattern`; `date` is the day index of
the date-only string. -/
structure CreateBookingRequest where
  validationErrors : List String := []
  firstName : String := ""
  lastName : String := ""
  email : String := ""
  phone : String := ""
  serviceId : Nat
  date : Int
  time : String
  notes : String := ""

/-- The query of the creation route for `conflictingBooking`: an active booking
of the day whose time string lies in
`[startTime.toTimeString().slice(0, 5), endTime.toTimeString().slice(0, 5))`,
compared as strings. -/
def conflictingBooking (tz : Int) (db : Db) (day : Int) (startTime endTime : Option Int) :
    Option Booking :=
  db.bookings.find? (fun b =>
    onDate tz day b &&
    (decide (b.time ≥ toTimeString5 tz startTime) &&
      decide (b.time < toTimeString5 tz endTime)) &&
    isActiveStatus b.status)

/-- Schema validation run by `save()` on a new booking: `notes` has at most 500
characters, `totalAmount` is at least 0 and `time` matches the time pattern. -/
def bookingValid (b : Booking) : Bool :=
  decide (b.notes.length ≤ 500) && decide (0 ≤ b.totalAmount) && timePattern b.time

/-- The hook `bookingSchema.pre('save')` for a new document: the duration is taken
from the service only when the document has none (a falsy `duration`), and
`isFirstTime` records whether another booking has the same email. -/
def preSave (db : Db) (b : Booking) : Booking :=
  let b1 : Booking :=
    if b.duration = 0 then
      { b with duration := if b.service.duration = 0 then 60 else b.service.duration }
    else b
  let existing := db.bookings.filter (fun x => x.email == b1.email && x.id != b1.id)
  { b1 with isFirstTime := existing.isEmpty }

/-- The route `POST /bookings`. `newId` is the identifier generated for the new
document. An Invalid Date fails every comparison of the checks, and the bounds
of the conflict query are then both `"Inval"`. -/
def createBooking (tz : Int) (db : Db) (now : Int) (newId : Nat)
    (req : CreateBookingRequest) : Reply × Db :=
  if ¬ req.validationErrors.isEmpty ∨ timePattern req.time = false then (⟨400, ""⟩, db)
  else
    match db.findService req.serviceId with
    | none => (⟨404, "Service not found"⟩, db)
    | some service =>
      let bookingDateTime := dateTime tz req.date req.time
      if jsLe bookingDateTime (some now) then
        (⟨400, "Booking must be in the future"⟩, db)
      else
        let dayOfWeek := bookingDateTime.map (getDay tz)
        let hour := bookingDateTime.map (getHours tz)
        if dayOfWeek = some 0 ∨ dayOfWeek = some 1 then
          (⟨400, "Bookings are only available Tuesday through Saturday"⟩, db)
        else if jsLt hour (some 9) ∨ jsLe (some 18) hour then
          (⟨400, "Bookings are only available between 9 AM and 6 PM"⟩, db)
        else
          let bufferTime : Int := 15 * 60 * 1000
          let startTime := bookingDateTime.map (fun t => t - bufferTime)
          let endTime :=
            bookingDateTime.map (fun t => t + service.duration * 60 * 1000 + bufferTime)
          match conflictingBooking tz db req.date startTime endTime with
          | some _ =>
            (⟨409, "This time slot is not available. Please choose another time."⟩, db)
          | none =>
            let booking : Booking :=
              { id := newId
                firstName := req.firstName
                lastName := req.lastName
                email := req.email
                phone := req.phone
                service := service
                date := dateOnly req.date
                time := req.time
                notes := req.notes
                totalAmount := service.price
                status := "pending"
                paymentStatus := "pending"
                updatedAt := now }
            if bookingValid booking then
              (⟨201, ""⟩, { db with bookings := db.bookings ++ [preSave db booking] })
            else
              (⟨500, "Failed to create booking"⟩, db)

/-! ## Cancellation: `POST /bookings/:id/cancel` -/

/-- The quotient `(dateTime - now) / (1000 * 60 * 60)`, the hours from `now` until
an instant, used by the cancel route and by the instance methods. -/
def hoursUntil (appointmentDateTime now : Int) : ℚ :=
  ((appointmentDateTime - now : Int) : ℚ) / (1000 * 60 * 60)

/-- The route `POST /:id/cancel`. `reason` is `none` when the body has none. For
an Invalid Date `hoursUntilBooking` is `NaN` and the test `< 24` is false. -/
def cancelBooking (tz : Int) (db : Db) (now : Int) (bookingId : Nat)
    (reason : Option String) : Reply × Db :=
  match db.findBooking bookingId with
  | none => (⟨404, "Booking not found"⟩, db)
  | some booking =>
    if booking.status = "cancelled" then
      (⟨400, "Booking is already cancelled"⟩, db)
    else
      let bookingDateTime := dateTime tz (isoDay booking.date) booking.time
      let hoursUntilBooking := bookingDateTime.map (fun t => hoursUntil t now)
      if jsLt hoursUntilBooking (some 24) then
        (⟨400, "Cancellations must be made at least 24 hours in advance"⟩, db)
      else
        let cancelled : Booking :=
          { booking with
            status := "cancelled"
            cancellationReason := some (reason.getD "Customer cancellation")
            cancelledAt := some now
            updatedAt := now }
        (⟨200, "Booking cancelled successfully"⟩, db.saveBooking cancelled)

/-! ## Instance methods of `Booking` -/

/-- The virtual `appointmentDateTime`: `null` (the outer `none`) when the time
string is empty, and otherwise the `Date` of the stored day and time, which is
an Invalid Date (the inner `none`) when the time part is not read. -/
def Booking.appointmentDateTime (b : Booking) (tz : Int) : Option (Option Int) :=
  if b.time = "" then none else some (dateTime tz (isoDay b.date) b.time)

/-- The method `canBeCancelled`. An Invalid Date is an object and passes the
test `!appointmentDateTime`; `hoursUntilAppointment` is then `NaN`. -/
def Booking.canBeCancelled (b : Booking) (tz now : Int) : Bool :=
  if b.status = "cancelled" ∨ b.status = "completed" then false
  else
    match b.appointmentDateTime tz with
    | none => false
    | some appointmentDateTime =>
      let hoursUntilAppointment := appointmentDateTime.map (fun t => hoursUntil t now)
      jsLe (some 24) hoursUntilAppointment

/-- The method `needsReminder(type)`. -/
def Booking.needsReminder (b : Booking) (type : String) (tz now : Int) : Bool :=
  match b.appointmentDateTime tz with
  | none => false
  | some appointmentDateTime =>
    if b.status ≠ "confirmed" then false
    else
      let hoursUntilAppointment := appointmentDateTime.map (fun t => hoursUntil t now)
      let reminderSent := b.remindersSent.any (fun reminder => reminder.type == type)
      if reminderSent then false
      else if type = "24h" ∧ jsLe hoursUntilAppointment (some 24) ∧
          jsLt (some 23) hoursUntilAppointment then true
      else if type = "2h" ∧ jsLe hoursUntilAppointment (some 2) ∧
          jsLt (some (3 / 2)) hoursUntilAppointment then true
      else false

/-- The method `markReminderSent(type, method)` up to its `save()`: the document
with the new entry pushed onto `remindersSent`. -/
def Booking.markReminderSent (b : Booking) (type : String) (method : String) (now : Int) :
    Booking :=
  { b with remindersSent := b.remindersSent ++ [{ type := type, method := method, sentAt := now }] }

/-- Schema validation of an entry of `remindersSent`: the enums of `type` and
`method`. -/
def reminderValid (r : Reminder) : Bool :=
  ["24h", "2h", "confirmation"].contains r.type && ["email", "sms"].contains r.method

/-- The whole method `markReminderSent(type, method)` on a loaded document: push
the entry and `save()`; a document whose entries fail validation is not stored. -/
def Db.markReminderSent (db : Db) (b : Booking) (type : String) (method : String)
    (now : Int) : Db :=
  let marked := b.markReminderSent type method now
  if marked.remindersSent.all reminderValid then
    db.saveBooking { marked with updatedAt := now }
  else db
/-! ## Status update: `PATCH /bookings/:id/status` -/

/-- The authenticated user attached to the request by the `auth` middleware. -/
structure User where
  id : Nat
  email : String := ""
  role : String := "customer"
deriving DecidableEq

/-- The list `validStatuses` of the status route. -/
def validStatuses : List String := ["pending", "confirmed", "completed", "cancelled", "no-show"]

/-- The route `PATCH /:id/status`, after the `auth` middleware has let the request
through. -/
def updateStatus (db : Db) (now : Int) (user : User) (bookingId : Nat) (status : String) :
    Reply × Db :=
  if user.role ≠ "admin" ∧ user.role ≠ "stylist" then (⟨403, "Access denied"⟩, db)
  else if ¬ validStatuses.contains status then (⟨400, "Invalid status"⟩, db)
  else
    match db.findBooking bookingId with
    | none => (⟨404, "Booking not found"⟩, db)
    | some booking =>
      (⟨200, ""⟩, db.saveBooking { booking with status := status, updatedAt := now })

/-! ## Payments: `routes/payments.js` -/

/-- Modelled from the spec: an entry of a payment's `refunds` sequence
(`models/Payment.js` is not among the sources); the fields are those the refund
route pushes. -/
structure RefundRecord where
  stripeRefundId : String
  amount : ℚ
  reason : Option String := none
  refundedAt : Int := 0
  refundedBy : Nat := 0
deriving DecidableEq

/-- Modelled from the spec: the `Payment` document (`models/Payment.js` is not
among the sources): identity, reference to the booking, provider transaction id,
amount in dollars, currency, a status that mirrors the provider's, and the
ordered refund records; the field names are those the routes use. Saving a
payment is taken to succeed with every status string. -/
structure Payment where
  id : Nat
  stripePaymentIntentId : String
  booking : Nat
  amount : ℚ
  currency : String := "usd"
  status : String := "pending"
  customerEmail : String := ""
  customerName : Option String := none
  paidAt : Option Int := none
  stripeChargeId : Option String := none
  refunds : List RefundRecord := []
deriving DecidableEq

/-- The persisted state with payments: the booking store and the `Payment`
collection. -/
structure Store where
  db : Db
  payments : List Payment := []
deriving DecidableEq

/-- The query `Payment.findOne({ stripePaymentIntentId })`. -/
def Store.findPaymentByIntent (s : Store) (paymentIntentId : String) : Option Payment :=
  s.payments.find? (fun p => p.stripePaymentIntentId == paymentIntentId)

/-- The query `Payment.findById`. -/
def Store.findPayment (s : Store) (paymentId : Nat) : Option Payment :=
  s.payments.find? (fun p => p.id == paymentId)

/-- Saving a stored payment (`payment.save()`): the document with that id is
replaced. -/
def Store.savePayment (s : Store) (p : Payment) : Store :=
  { s with payments := s.payments.map (fun x => if x.id == p.id then p else x) }

/-- The enum of `status` in the booking schema. -/
def statusEnum : List String :=
  ["pending", "confirmed", "in-progress", "completed", "cancelled", "no-show"]

/-- The enum of `paymentStatus` in the booking schema. -/
def paymentStatusEnum : List String :=
  ["pending", "paid", "failed", "refunded", "partially-refunded"]

/-- Schema validation run by `booking.save()` on the two status fields that the
payment routes write: each must be a member of its enum. -/
def bookingEnumsValid (b : Booking) : Bool :=
  statusEnum.contains b.status && paymentStatusEnum.contains b.paymentStatus

/-- The function `Math.round`: the nearest integer, halves rounded up. -/
def mathRound (x : ℚ) : Int := ⌊x + 1 / 2⌋

/-- The provider's payment intent, as far as the routes read it. -/
structure PaymentIntent where
  id : String
  status : String := "requires_payment_method"
  latest_charge : Option String := none
  client_secret : String := ""
deriving DecidableEq

/-- The body of `POST /create-payment-intent`; `validationErrors` is the result of
the chain `createPaymentValidation`, `currency` is `none` when absent. -/
structure CreatePaymentRequest where
  validationErrors : List String := []
  amount : ℚ
  currency : Option String := none
  bookingId : Nat
  customerEmail : String := ""
  customerName : Option String := none

/-- The route `POST /create-payment-intent`. `created` is the answer of
`stripe.paymentIntents.create`, `none` when the call throws; `newId` is the
identifier of the new payment document. -/
def createPaymentIntent (s : Store) (now : Int) (newId : Nat) (req : CreatePaymentRequest)
    (created : Option PaymentIntent) : Reply × Store :=
  if ¬ req.validationErrors.isEmpty then (⟨400, ""⟩, s)
  else
    let currency := req.currency.getD "usd"
    match s.db.findBooking req.bookingId with
    | none => (⟨404, "Booking not found"⟩, s)
    | some booking =>
      if booking.paymentStatus = "paid" then (⟨400, "Booking is already paid"⟩, s)
      else
        let expectedAmount := mathRound (booking.totalAmount * 100)
        if req.amount ≠ (expectedAmount : ℚ) then
          (⟨400, "Payment amount does not match booking total"⟩, s)
        else
          match created with
          | none => (⟨500, "Failed to create payment intent"⟩, s)
          | some paymentIntent =>
            let payment : Payment :=
              { id := newId
                stripePaymentIntentId := paymentIntent.id
                booking := req.bookingId
                amount := req.amount / 100
                currency := currency
                status := "pending"
                customerEmail := req.customerEmail
                customerName := req.customerName }
            let s1 : Store := { s with payments := s.payments ++ [payment] }
            let booking1 : Booking :=
              { booking with payment := some payment.id, paymentStatus := "pending",
                             updatedAt := now }
            (⟨200, ""⟩, { s1 with db := s1.db.saveBooking booking1 })

/-- The route `POST /confirm-payment`. `paymentIntentId` is `none` when the body
has none; `retrieved` is the answer of `stripe.paymentIntents.retrieve`, `none`
when the call throws. The linked booking is the populated `payment.booking`. -/
def confirmPayment (s : Store) (now : Int) (paymentIntentId : Option String)
    (retrieved : Option PaymentIntent) : Reply × Store :=
  match paymentIntentId with
  | none => (⟨400, "Payment intent ID required"⟩, s)
  | some intentId =>
    if intentId = "" then (⟨400, "Payment intent ID required"⟩, s)
    else
      match retrieved with
      | none => (⟨500, "Failed to confirm payment"⟩, s)
      | some paymentIntent =>
        match s.findPaymentByIntent intentId with
        | none => (⟨404, "Payment record not found"⟩, s)
        | some payment =>
          let payment1 : Payment := { payment with status := paymentIntent.status }
          let payment2 : Payment :=
            if paymentIntent.status = "succeeded" then
              { payment1 with paidAt := some now, stripeChargeId := paymentIntent.latest_charge }
            else payment1
          let s1 := s.savePayment payment2
          match s.db.findBooking payment.booking with
          | none => (⟨500, "Failed to confirm payment"⟩, s1)
          | some booking =>
            if paymentIntent.status = "succeeded" then
              let booking1 : Booking :=
                { booking with paymentStatus := "paid", status := "confirmed", updatedAt := now }
              if bookingEnumsValid booking1 then
                (⟨200, ""⟩, { s1 with db := s1.db.saveBooking booking1 })
              else (⟨500, "Failed to confirm payment"⟩, s1)
            else (⟨200, ""⟩, s1)

/-- The body of `POST /refund`: `amount` in dollars and `reason`, `none` when
absent. -/
structure RefundBody where
  paymentId : Nat
  amount : Option ℚ := none
  reason : Option String := none

/-- The argument of `stripe.refunds.create`; `amount` is in cents, `none` for
`undefined`. -/
structure RefundParams where
  payment_intent : String
  amount : Option Int
  reason : String
  bookingId : Nat
  refundedBy : String
deriving DecidableEq

/-- The provider's refund object, as far as the route reads it; `amount` is in
cents. -/
structure ProviderRefund where
  id : String
  amount : Int
  status : String := "succeeded"
deriving DecidableEq

/-- The result of the refund route: the reply, the state, and the requests sent
to `stripe.refunds.create`. -/
structure RefundOutcome where
  reply : Reply
  store : Store
  requested : List RefundParams := []

/-- The expression `amount ? Math.round(amount * 100) : undefined`. -/
def refundCents (amount : Option ℚ) : Option Int :=
  match amount with
  | none => none
  | some a => if a = 0 then none else some (mathRound (a * 100))

/-- The expression `reason || 'requested_by_customer'`. -/
def refundReason (reason : Option String) : String :=
  match reason with
  | none => "requested_by_customer"
  | some r => if r = "" then "requested_by_customer" else r

/-- The route `POST /refund`, after the `auth` middleware has let the request
through. `refundsCreate` is the provider's `stripe.refunds.create`, answering
`none` when the call throws. -/
def refund (s : Store) (now : Int) (user : User) (body : RefundBody)
    (refundsCreate : RefundParams → Option ProviderRefund) : RefundOutcome :=
  if user.role ≠ "admin" ∧ user.role ≠ "stylist" then ⟨⟨403, "Access denied"⟩, s, []⟩
  else
    match s.findPayment body.paymentId with
    | none => ⟨⟨404, "Payment not found"⟩, s, []⟩
    | some payment =>
      if payment.status ≠ "succeeded" then
        ⟨⟨400, "Cannot refund unsuccessful payment"⟩, s, []⟩
      else
        match s.db.findBooking payment.booking with
        | none => ⟨⟨500, "Failed to process refund"⟩, s, []⟩
        | some booking =>
          let params : RefundParams :=
            { payment_intent := payment.stripePaymentIntentId
              amount := refundCents body.amount
              reason := refundReason body.reason
              bookingId := booking.id
              refundedBy := user.email }
          match refundsCreate params with
          | none => ⟨⟨500, "Failed to process refund"⟩, s, [params]⟩
          | some providerRefund =>
            let payment1 : Payment :=
              { payment with
                refunds := payment.refunds ++
                  [{ stripeRefundId := providerRefund.id
                     amount := (providerRefund.amount : ℚ) / 100
                     reason := body.reason
                     refundedAt := now
                     refundedBy := user.id }] }
            let payment2 : Payment :=
              if (providerRefund.amount : ℚ) = payment.amount * 100 then
                { payment1 with status := "refunded" }
              else payment1
            let s1 := s.savePayment payment2
            let booking1 : Booking :=
              { booking with status := "cancelled", paymentStatus := payment2.status,
                             updatedAt := now }
            if bookingEnumsValid booking1 then
              ⟨⟨200, ""⟩, { s1 with db := s1.db.saveBooking booking1 }, [params]⟩
            else ⟨⟨500, "Failed to process refund"⟩, s1, [params]⟩

/-! ## Operations on the state -/

/-- The operations that store a booking: the routes of `bookings.js` and
`payments.js` that call `booking.save()`, each with its request and, for the
provider calls, the provider's answer. -/
inductive Op where
  | create (newId : Nat) (req : CreateBookingRequest)
  | patchStatus (user : User) (bookingId : Nat) (status : String)
  | cancel (bookingId : Nat) (reason : Option String)
  | createIntent (newId : Nat) (req : CreatePaymentRequest) (created : Option PaymentIntent)
  | confirm (paymentIntentId : Option String) (retrieved : Option PaymentIntent)
  | refund (user : User) (body : RefundBody)
      (refundsCreate : RefundParams → Option ProviderRefund)

/-- The state after one operation at instant `now` on a server in zone `tz`. -/
def step (tz : Int) (s : Store) (now : Int) : Op → Store
  | .create newId req => { s with db := (createBooking tz s.db now newId req).2 }
  | .patchStatus user bookingId status =>
    { s with db := (updateStatus s.db now user bookingId status).2 }
  | .cancel bookingId reason => { s with db := (cancelBooking tz s.db now bookingId reason).2 }
  | .createIntent newId req created => (createPaymentIntent s now newId req created).2
  | .confirm paymentIntentId retrieved => (confirmPayment s now paymentIntentId retrieved).2
  | .refund user body refundsCreate => (refund s now user body refundsCreate).store

/-- The status fields of a state: for every stored booking its id, status and
payment status, and for every stored payment its id and status. -/
def statusView (s : Store) : List (Nat × String × String) × List (Nat × String) :=
  (s.db.bookings.map (fun b => (b.id, b.status, b.paymentStatus)),
   s.payments.map (fun p => (p.id, p.status)))

/-- The transitions that the specification lists as legal: pending to confirmed,
confirmed to completed, pending or confirmed to cancelled, pending or confirmed
to no-show. -/
def legalTransition (before after : String) : Bool :=
  (before == "pending" && after == "confirmed") ||
  (before == "confirmed" && after == "completed") ||
  ((before == "pending" || before == "confirmed") && after == "cancelled") ||
  ((before == "pending" || before == "confirmed") && after == "no-show")

/-- The `availableSlots` field of an availability reply; an error reply has
none. -/
def AvailabilityReply.slots : AvailabilityReply → List String
  | .error _ _ => []
  | .closed availableSlots _ => availableSlots
  | .ok availableSlots => availableSlots

/-! ## Stored amounts and the provider's books -/

/-- Rounding to the nearest integer with ties to the even one, the rounding of
the significand of a binary double. -/
def roundHalfEven (x : ℚ) : Int :=
  let f := ⌊x⌋
  if x - f < 1 / 2 then f
  else if 1 / 2 < x - f then f + 1
  else if f % 2 = 0 then f
  else f + 1

/-- The binary double nearest to a rational, as an exact rational: the value
rounded to 53 significant bits, ties to even (IEEE 754 binary64, round to
nearest). The exponent range is not modelled; amounts of money lie well inside
it. -/
def toDouble (x : ℚ) : ℚ :=
  if x = 0 then 0
  else
    let e := Int.log 2 |x|
    let ulp : ℚ := 2 ^ (e - 52)
    (roundHalfEven (x / ulp) : ℚ) * ulp

/-- The sum of the amounts of a payment's refund records as they are stored:
each record holds the double of `refund.amount / 100`. -/
def refundedTotal (p : Payment) : ℚ := (p.refunds.map (fun r => toDouble r.amount)).sum

/-- The sum of a list of doubles as JavaScript adds them from the left
(`reduce((a, b) => a + b, 0)`), every partial sum rounded to a double. -/
def sumDoubles (xs : List ℚ) : ℚ := xs.foldl (fun acc x => toDouble (acc + x)) 0

/-- A stored dollar amount counted in cents, converted the way the routes convert
dollars to cents, `Math.round(amount * 100)`, on the stored double. -/
def toCents (amount : ℚ) : Int := mathRound (toDouble (toDouble amount * 100))

/-- The refund records of a payment counted in cents. -/
def refundedCents (p : Payment) : Int := (p.refunds.map (fun r => toCents r.amount)).sum

/-- One refund request of a sequence: the instant, the user, the body and the
provider's behaviour at that request. -/
structure RefundCall where
  now : Int
  user : User
  body : RefundBody
  refundsCreate : RefundParams → Option ProviderRefund

/-- The state after a sequence of refund requests, each handled by the refund
route. -/
def refundAll (s : Store) : List RefundCall → Store
  | [] => s
  | c :: rest => refundAll (refund s c.now c.user c.body c.refundsCreate).store rest

/-- The provider's books after one request: `ledger i` is the number of cents
refunded so far on the payment intent `i`; each request that the route sent and
that the provider answered with a refund adds the refund's cents to the intent
it names. -/
def ledgerAfter (ledger : String → Int) (refundsCreate : RefundParams → Option ProviderRefund)
    (requested : List RefundParams) : String → Int :=
  requested.foldl (fun l q =>
    match refundsCreate q with
    | none => l
    | some r => fun i => if i = q.payment_intent then l i + r.amount else l i) ledger

/-- A provider that keeps its books along a sequence of refund requests, `charged
i` being the number of cents charged on the payment intent `i`: whatever request
it is sent, the provider refunds a number of cents that is not negative and not
more than what is left of the charge on the intent that the request names, and it
refuses every other request (the call throws). -/
def providerKeepsBooks (charged : String → Int) :
    Store → (String → Int) → List RefundCall → Prop
  | _, _, [] => True
  | s, ledger, c :: rest =>
    (∀ q r, c.refundsCreate q = some r →
        0 ≤ r.amount ∧ ledger q.payment_intent + r.amount ≤ charged q.payment_intent) ∧
    providerKeepsBooks charged (refund s c.now c.user c.body c.refundsCreate).store
      (ledgerAfter ledger c.refundsCreate
        (refund s c.now c.user c.body c.refundsCreate).requested) rest

/-- A state in which no refund is recorded yet and every payment holds the
dollars of its charge, `amount = charged / 100`, as the payment-intent route
stores them. -/
def freshPayments (charged : String → Int) (s : Store) : Prop :=
  ∀ p ∈ s.payments, p.refunds = [] ∧
    p.amount = (charged p.stripePaymentIntentId : ℚ) / 100 ∧
    0 ≤ charged p.stripePaymentIntentId ∧ charged p.stripePaymentIntentId < 2 ^ 50

/-- The stored payments agree with the provider's books: every payment holds the
dollars of its charge, its refund records are whole numbers of cents, none
negative, that sum to at most what the provider has refunded on its intent, and
the provider has refunded at most the charge. -/
def booksAgree (charged ledger : String → Int) (s : Store) : Prop :=
  ∀ p ∈ s.payments,
    p.amount = (charged p.stripePaymentIntentId : ℚ) / 100 ∧
    0 ≤ charged p.stripePaymentIntentId ∧ charged p.stripePaymentIntentId < 2 ^ 50 ∧
    ledger p.stripePaymentIntentId ≤ charged p.stripePaymentIntentId ∧
    ∃ cents : List Int,
      p.refunds.map (fun r => r.amount) = cents.map (fun c : Int => (c : ℚ) / 100) ∧
      (∀ c ∈ cents, 0 ≤ c) ∧ cents.sum ≤ ledger p.stripePaymentIntentId

/-! ## Reference data -/

/-- The 30-minute grid from 09:00 to 17:30 that the specification describes. -/
def slotGrid : List TimeOfDay :=
  [⟨9, 0⟩, ⟨9, 30⟩, ⟨10, 0⟩, ⟨10, 30⟩, ⟨11, 0⟩, ⟨11, 30⟩, ⟨12, 0⟩, ⟨12, 30⟩, ⟨13, 0⟩,
   ⟨13, 30⟩, ⟨14, 0⟩, ⟨14, 30⟩, ⟨15, 0⟩, ⟨15, 30⟩, ⟨16, 0⟩, ⟨16, 30⟩, ⟨17, 0⟩, ⟨17, 30⟩]

/-- The default service "Color Services" (`getDefaultServices`): 120 minutes. -/
def colorServices : Service :=
  { id := 2, name := "Color Services", price := 120, duration := 120 }

/-- The default service "Style Consultation" (`getDefaultServices`): 30 minutes. -/
def styleConsultation : Service :=
  { id := 5, name := "Style Consultation", price := 35, duration := 30 }

/-- The default service "Precision Cut" (`getDefaultServices`): 60 minutes. -/
def precisionCut : Service :=
  { id := 1, name := "Precision Cut", price := 85, duration := 60 }

/-- The catalogue used in the examples. -/
def sampleServices : List Service := [precisionCut, colorServices, styleConsultation]

/-- The zone of a server that runs on UTC. -/
def utc : Int := 0

/-- The zone of a server in New York in winter: five hours west of UTC. -/
def newYork : Int := -300

/-- Day index of Sunday 2026-11-08. -/
def sunday : Int := 20765

/-- Day index of Monday 2026-11-09. -/
def monday : Int := 20766

/-- Day index of Tuesday 2026-11-10. -/
def tuesday : Int := 20767

/-- An instant before the sample day: Friday 2026-11-06, 12:00 UTC. -/
def sampleNow : Int := localDateTime utc 20763 ⟨12, 0⟩

/-- A store with one confirmed 30-minute consultation on the sample Tuesday at
10:00. -/
def dbShortBooking : Db :=
  { services := sampleServices
    bookings := [{ id := 1, service := styleConsultation, date := dateOnly tuesday,
                   time := "10:00", totalAmount := 35, status := "confirmed" }] }

/-- A store with one confirmed 120-minute colour appointment on the sample
Tuesday at 10:00, lasting until 12:00. -/
def dbLongBooking : Db :=
  { services := sampleServices
    bookings := [{ id := 1, service := colorServices, date := dateOnly tuesday,
                   time := "10:00", totalAmount := 120, status := "confirmed" }] }

/-- A request for a 30-minute consultation on the sample Tuesday at 11:00. -/
def requestAtEleven : CreateBookingRequest :=
  { firstName := "Ada", lastName := "Byron", email := "ada@example.com",
    phone := "+15550100", serviceId := 5, date := tuesday, time := "11:00" }

/-- A pending 60-minute booking on the sample Tuesday at 10:00. -/
def pendingCut : Booking :=
  { id := 1, service := precisionCut, date := dateOnly tuesday, time := "10:00",
    totalAmount := 85, status := "pending" }

/-- A store holding only `pendingCut`. -/
def dbPendingCut : Db := { services := sampleServices, bookings := [pendingCut] }

/-- A booking on the sample Tuesday at 10:00 whose status was set to completed
(the status route accepts any listed status at any time). -/
def completedCut : Booking :=
  { id := 1, service := precisionCut, date := dateOnly tuesday, time := "10:00",
    totalAmount := 85, status := "completed" }

/-- A store holding only `completedCut`. -/
def dbCompletedCut : Db := { services := sampleServices, bookings := [completedCut] }

/-- A confirmed 60-minute booking on the sample Tuesday whose time is stored
with a one-digit hour, `"9:30"`, as the validator and the schema accept it. -/
def earlyCut : Booking :=
  { id := 1, firstName := "Ada", lastName := "Byron", email := "ada@example.com",
    phone := "+15550100", service := precisionCut, date := dateOnly tuesday, time := "9:30",
    totalAmount := 85, status := "confirmed", paymentStatus := "paid" }

/-- A store holding only `earlyCut`. -/
def dbEarlyCut : Db := { services := sampleServices, bookings := [earlyCut] }

/-- The booking `earlyCut` with its hour written with two digits, `"09:30"`. -/
def earlyCutPadded : Booking := { earlyCut with time := "09:30" }

/-- A store holding only `earlyCutPadded`. -/
def dbEarlyCutPadded : Db := { services := sampleServices, bookings := [earlyCutPadded] }

/-- A request for the 60-minute cut on Monday 2026-11-09 with the time written
`"9:30"`. -/
def requestMondayEarly : CreateBookingRequest :=
  { firstName := "Ada", lastName := "Byron", email := "ada@example.com",
    phone := "+15550100", serviceId := 1, date := monday, time := "9:30" }

/-- A request for the 60-minute cut on the sample Tuesday at 10:00. -/
def requestTuesdayCut : CreateBookingRequest :=
  { firstName := "Ada", lastName := "Byron", email := "ada@example.com",
    phone := "+15550100", serviceId := 1, date := tuesday, time := "10:00" }

/-- An administrator, as attached to a request by the `auth` middleware. -/
def adminUser : User := { id := 100, email := "admin@example.com", role := "admin" }

/-- A pending payment of 85 dollars for `pendingCut` with provider reference
`pi_1`. -/
def pendingPayment : Payment :=
  { id := 10, stripePaymentIntentId := "pi_1", booking := 1, amount := 85,
    customerEmail := "ada@example.com" }

/-- A state with the pending booking and its pending payment. -/
def storePending : Store := { db := dbPendingCut, payments := [pendingPayment] }

/-- The provider's intent `pi_1` reported as succeeded. -/
def succeededIntent : PaymentIntent :=
  { id := "pi_1", status := "succeeded", latest_charge := some "ch_1" }

/-- The provider's intent `pi_1` reported as failed. -/
def failedIntent : PaymentIntent := { id := "pi_1", status := "failed" }

/-- The booking `pendingCut` after its payment was confirmed. -/
def confirmedCut : Booking :=
  { pendingCut with status := "confirmed", paymentStatus := "paid", payment := some 10 }

/-- The payment `pendingPayment` after it was confirmed. -/
def succeededPayment : Payment :=
  { pendingPayment with status := "succeeded", paidAt := some sampleNow,
                        stripeChargeId := some "ch_1" }

/-- A state with a confirmed, paid booking and its succeeded payment of 85
dollars. -/
def storePaid : Store :=
  { db := { services := sampleServices, bookings := [confirmedCut] },
    payments := [succeededPayment] }

/-- A provider that refunds the requested number of cents, or 8500 cents when no
amount is given. -/
def sampleProvider (params : RefundParams) : Option ProviderRefund :=
  some { id := "re_1", amount := params.amount.getD 8500 }

/-- A refund request of 40 dollars on the sample payment. -/
def refundForty : RefundBody := { paymentId := 10, amount := some 40 }

/-- A refund request of 45 dollars on the sample payment. -/
def refundFortyFive : RefundBody := { paymentId := 10, amount := some 45 }

/-- A store with the sample catalogue and no booking. -/
def dbNoBookings : Db := { services := sampleServices, bookings := [] }

/-- A request for the 120-minute colour service on the sample Tuesday at 13:00. -/
def requestColor : CreateBookingRequest :=
  { firstName := "Ada", lastName := "Byron", email := "ada@example.com",
    phone := "+15550100", serviceId := 2, date := tuesday, time := "13:00" }

/-- A request for the 60-minute cut on the sample Tuesday at 17:30, which would
end at 18:30. -/
def requestLateCut : CreateBookingRequest :=
  { firstName := "Ada", lastName := "Byron", email := "ada@example.com",
    phone := "+15550100", serviceId := 1, date := tuesday, time := "17:30" }

/-- A service document whose duration is 0, which the schema's minimum of 15
does not admit. -/
def zeroDurationService : Service := { id := 9, name := "Zero", price := 10, duration := 0 }

/-- A store whose only service has duration 0, with no booking. -/
def dbZeroDuration : Db := { services := [zeroDurationService], bookings := [] }

/-- A payment-intent request of 8500 cents for booking 1. -/
def intentRequest : CreatePaymentRequest :=
  { amount := 8500, bookingId := 1, customerEmail := "ada@example.com" }

/-- A state with the pending booking and no payment. -/
def storeUnpaid : Store := { db := dbPendingCut, payments := [] }

/-- A provider that keeps books for one charge of which `left` cents are left: it
refunds the requested cents, or all that is left when no amount is given, and
refuses a request for a negative amount or for more than is left. -/
def bookkeepingProvider (left : Int) (params : RefundParams) : Option ProviderRefund :=
  match params.amount with
  | none => if 0 ≤ left then some { id := "re_1", amount := left } else none
  | some cents => if 0 ≤ cents ∧ cents ≤ left then some { id := "re_1", amount := cents } else none

/-- The books of a provider that charged 8500 cents on every intent. -/
def chargedEightyFive (_ : String) : Int := 8500

/-- Books in which nothing is refunded yet. -/
def emptyLedger (_ : String) : Int := 0

/-- The body of a refund request on the sample payment for a number of cents,
written in dollars. -/
def refundBody (cents : Int) : RefundBody := { paymentId := 10, amount := some ((cents : ℚ) / 100) }

/-- The request that the refund route sends to the provider for `refundBody`. -/
def refundRequest (cents : Int) : RefundParams :=
  { payment_intent := "pi_1", amount := some cents, reason := "requested_by_customer",
    bookingId := 1, refundedBy := "admin@example.com" }

/-- The record that the refund route appends for a refund of a number of cents
made by the administrator. -/
def refundRecord (cents now : Int) : RefundRecord :=
  { stripeRefundId := "re_1", amount := (cents : ℚ) / 100, reason := none, refundedAt := now,
    refundedBy := 100 }

/-- The state `storePaid` with refund records on its payment. -/
def paidWithRefunds (records : List RefundRecord) : Store :=
  { db := storePaid.db, payments := [{ succeededPayment with refunds := records }] }

/-- Three refund requests by the administrator on the sample payment of 85
dollars, of 16.10, 48.20 and 20.70 dollars, which together are 85 dollars, each
answered by a provider that keeps its books. -/
def roundingCalls : List RefundCall :=
  [⟨sampleNow, adminUser, refundBody 1610, bookkeepingProvider 8500⟩,
   ⟨sampleNow + 60000, adminUser, refundBody 4820, bookkeepingProvider 6890⟩,
   ⟨sampleNow + 120000, adminUser, refundBody 2070, bookkeepingProvider 2070⟩]

/-! # Theorems -/

/-! ## Arithmetic helpers -/

theorem slotFits_eq (hour minute : Nat) (d : Int) :
    slotFits hour minute d = decide (60 * (hour : Int) + (minute : Int) + d ≤ 18 * 60) := by
  unfold slotFits
  rw [decide_eq_decide]
  have h : (60 * (hour : Int) + (minute : Int) + d ≤ 18 * 60) ↔
      ((60 * (hour : ℚ) + (minute : ℚ) + (d : ℚ)) ≤ 18 * 60) := by
    rw [← Int.cast_le (R := ℚ)]
    push_cast
    norm_num
  rw [h]
  constructor <;> intro h <;> linarith

theorem timeSlots_eq_filter (d : Int) :
    timeSlots d = slotGrid.filter (fun t => decide (t.minutes + d ≤ 18 * 60)) := by
  have hg : slotGrid =
      (List.range' 9 9).flatMap
        (fun hour => minuteSteps.map (fun minute => TimeOfDay.mk hour minute)) := by
    decide
  rw [hg, List.filter_flatMap]
  simp only [timeSlots, slotFits_eq, List.filter_map]
  rfl

theorem overlapsWithBuffer_eq_true_iff (c c' s e : Int) :
    overlapsWithBuffer (some c) (some c') (some s) (some e) = true ↔
      (s - 900000 ≤ c ∧ c < e + 900000) ∨ (s - 900000 < c' ∧ c' ≤ e + 900000) := by
  simp [overlapsWithBuffer, buffer, jsLe, jsLt]

theorem overlapsWithBuffer_invalid_booking (slotTime slotEnd : Option Int) :
    overlapsWithBuffer slotTime slotEnd none none = false := by
  cases slotTime <;> cases slotEnd <;> simp [overlapsWithBuffer, jsLe, jsLt]

set_option maxRecDepth 100000 in
theorem parseTime_timeString :
    ∀ hour < 24, ∀ minute < 60, parseTime (timeString hour minute) = some ⟨hour, minute⟩ := by
  decide

theorem parseTime_render (t : TimeOfDay) (hh : t.hour < 24) (hm : t.minute < 60) :
    parseTime t.render = some t :=
  parseTime_timeString t.hour hh t.minute hm

theorem dateTime_render (tz day : Int) (t : TimeOfDay) (hh : t.hour < 24) (hm : t.minute < 60) :
    dateTime tz day t.render = some (localDateTime tz day t) := by
  simp [dateTime, parseTime_render t hh hm]

theorem slotBlockedBy_eq_true_iff (tz day d : Int) (slot t : TimeOfDay) (b : Booking)
    (hh : slot.hour < 24) (hm : slot.minute < 60) (ht : parseTime b.time = some t) :
    slotBlockedBy tz day d slot b = true ↔
      (t.minutes - 15 ≤ slot.minutes ∧
        slot.minutes < t.minutes + b.service.duration + 15) ∨
      (t.minutes - 15 < slot.minutes + d ∧
        slot.minutes + d ≤ t.minutes + b.service.duration + 15) := by
  have hb : dateTime tz day b.time = some (localDateTime tz day t) := by simp [dateTime, ht]
  simp only [slotBlockedBy, dateTime_render tz day slot hh hm, hb, Option.map_some',
    overlapsWithBuffer_eq_true_iff, localDateTime, msPerDay, msPerMinute]
  constructor <;> intro h <;> omega

theorem slotBlockedBy_invalid_time (tz day d : Int) (slot : TimeOfDay) (b : Booking)
    (ht : parseTime b.time = none) : slotBlockedBy tz day d slot b = false := by
  simp only [slotBlockedBy, dateTime, ht, Option.map_none']
  exact overlapsWithBuffer_invalid_booking _ _

/-! ## Slot generation -/

/-- C3: for every service duration the candidate slots are exactly the times of
the 30-minute grid from 09:00 to 17:30, in ascending order and rendered as
zero-padded `HH:MM`, whose start plus the duration is at most 18:00; every
generated slot ends at or before closing; for a duration of 60 the last slot is
17:00 and 17:30 is not generated. -/
theorem timeSlots_spec (d : Int) :
    timeSlots d = slotGrid.filter (fun t => decide (t.minutes + d ≤ 18 * 60)) ∧
    slotGrid.map TimeOfDay.render =
      ["09:00", "09:30", "10:00", "10:30", "11:00", "11:30", "12:00", "12:30", "13:00",
       "13:30", "14:00", "14:30", "15:00", "15:30", "16:00", "16:30", "17:00", "17:30"] ∧
    slotGrid.map TimeOfDay.minutes = (List.range 18).map (fun k => 9 * 60 + 30 * (k : Int)) ∧
    (timeSlots d).Pairwise (fun a b => a.minutes < b.minutes) ∧
    (∀ t ∈ timeSlots d, t.minutes + d ≤ 18 * 60) ∧
    (timeSlots 60).map TimeOfDay.render =
      ["09:00", "09:30", "10:00", "10:30", "11:00", "11:30", "12:00", "12:30", "13:00",
       "13:30", "14:00", "14:30", "15:00", "15:30", "16:00", "16:30", "17:00"] ∧
    (timeSlots 60).getLast? = some ⟨17, 0⟩ ∧
    "17:30" ∉ (timeSlots 60).map TimeOfDay.render := by
  refine ⟨timeSlots_eq_filter d, by decide, by decide, ?_, ?_, ?_, ?_, ?_⟩
  · rw [timeSlots_eq_filter]
    exact List.Pairwise.filter _ (by decide)
  · intro t ht
    rw [timeSlots_eq_filter] at ht
    simpa using (List.mem_filter.1 ht).2
  · rw [timeSlots_eq_filter]; decide
  · rw [timeSlots_eq_filter]; decide
  · rw [timeSlots_eq_filter]; decide

/-! ## The availability filter -/

/-- For a stored booking whose time string is read by the `Date` constructor
(a two-digit hour), from `s` to `e`: it blocks every candidate whose start lies
in `[s - 15min, e + 15min)`, whatever the candidate's duration, and such a
candidate is removed by the filter; in particular a booking from 10:00 to 11:00
blocks every start from 09:45 up to but excluding 11:15, and does not block a
candidate of positive duration starting at exactly 11:15. -/
theorem booking_blocks_buffered_window :
    (∀ (tz day d : Int) (slot t : TimeOfDay) (b : Booking) (existing : List Booking)
        (slots : List TimeOfDay),
      slot.hour < 24 → slot.minute < 60 → parseTime b.time = some t →
      b ∈ existing →
      t.minutes - 15 ≤ slot.minutes →
      slot.minutes < t.minutes + b.service.duration + 15 →
      slotBlockedBy tz day d slot b = true ∧ slot ∉ availableSlots tz day d existing slots) ∧
    (∀ (tz day d : Int) (slot : TimeOfDay) (b : Booking),
      slot.hour < 24 → slot.minute < 60 →
      b.time = "10:00" → b.service.duration = 60 →
      9 * 60 + 45 ≤ slot.minutes → slot.minutes < 11 * 60 + 15 →
      slotBlockedBy tz day d slot b = true) ∧
    (∀ (tz day d : Int) (b : Booking),
      b.time = "10:00" → b.service.duration = 60 → 0 < d →
      slotBlockedBy tz day d ⟨11, 15⟩ b = false) := by
  have hten : parseTime "10:00" = some ⟨10, 0⟩ := by decide
  refine ⟨?_, ?_, ?_⟩
  · intro tz day d slot t b existing slots hh hm ht hb h1 h2
    have hblk : slotBlockedBy tz day d slot b = true :=
      (slotBlockedBy_eq_true_iff tz day d slot t b hh hm ht).2 (Or.inl ⟨h1, h2⟩)
    refine ⟨hblk, ?_⟩
    intro hmem
    have h := (List.mem_filter.1 hmem).2
    have hany : existing.any (fun b => slotBlockedBy tz day d slot b) = true :=
      List.any_eq_true.2 ⟨b, hb, hblk⟩
    simp [hany] at h
  · intro tz day d slot b hh hm ht hs h1 h2
    apply (slotBlockedBy_eq_true_iff tz day d slot ⟨10, 0⟩ b hh hm (by rw [ht]; exact hten)).2
    left
    rw [hs]
    simp only [TimeOfDay.minutes] at *
    omega
  · intro tz day d b ht hs hd
    rw [Bool.eq_false_iff]
    intro h
    have h' := (slotBlockedBy_eq_true_iff tz day d ⟨11, 15⟩ ⟨10, 0⟩ b (by decide) (by decide)
      (by rw [ht]; exact hten)).1 h
    rw [hs] at h'
    simp only [TimeOfDay.minutes] at h'
    omega

/-- C4 (defect): a confirmed 60-minute booking stored with the time `"9:30"`, a
string that the time pattern of the validator and of the schema accepts, blocks
no candidate at all: the `Date` built from the string is invalid and every
comparison of the overlap test is false. The availability route offers all
seventeen slots of the 60-minute service, the booking's own start 09:30
included; with the same booking stored as `"09:30"` the slots from 09:00 to
10:30 are withheld. -/
theorem one_digit_hour_booking_blocks_nothing :
    timePattern "9:30" = true ∧ bookingValid earlyCut = true ∧
    dateTime utc tuesday earlyCut.time = none ∧
    (∀ (tz day d : Int) (slot : TimeOfDay), slotBlockedBy tz day d slot earlyCut = false) ∧
    getAvailability utc dbEarlyCut sampleNow (some tuesday) (some 1) =
      .ok ["09:00", "09:30", "10:00", "10:30", "11:00", "11:30", "12:00", "12:30", "13:00",
           "13:30", "14:00", "14:30", "15:00", "15:30", "16:00", "16:30", "17:00"] ∧
    getAvailability utc dbEarlyCutPadded sampleNow (some tuesday) (some 1) =
      .ok ["11:00", "11:30", "12:00", "12:30", "13:00", "13:30", "14:00", "14:30", "15:00",
           "15:30", "16:00", "16:30", "17:00"] := by
  refine ⟨by decide, by decide, by decide, ?_, ?_, ?_⟩
  · intro tz day d slot
    exact slotBlockedBy_invalid_time tz day d slot earlyCut (by decide)
  · simp only [getAvailability, timeSlots_eq_filter]
    decide
  · simp only [getAvailability, timeSlots_eq_filter]
    decide


/-- C5: a candidate `[c, c+d)` of positive duration whose gap to an existing
booking `[s, e)` is at least the 15-minute buffer, on either side and including
a gap exactly equal to it, is not excluded by that booking, both for the
overlap test on instants and for the filter callback on a slot and a booking
that denote these intervals, in every zone. -/
theorem gap_at_least_buffer_not_blocked (c d s e : Int) (hd : 0 < d)
    (hgap : c + d ≤ s - buffer ∨ e + buffer ≤ c) :
    overlapsWithBuffer (some c) (some (c + d)) (some s) (some e) = false ∧
    ∀ (tz day dur : Int) (slot : TimeOfDay) (b : Booking),
      dateTime tz day slot.render = some c → dur * 60 * 1000 = d →
      dateTime tz day b.time = some s →
      s + b.service.duration * 60 * 1000 = e → slotBlockedBy tz day dur slot b = false := by
  have h : overlapsWithBuffer (some c) (some (c + d)) (some s) (some e) = false := by
    rw [Bool.eq_false_iff]
    intro h
    have h' := (overlapsWithBuffer_eq_true_iff c (c + d) s e).1 h
    simp only [buffer] at hgap
    omega
  refine ⟨h, ?_⟩
  intro tz day dur slot b hc hdur hs he
  simp only [slotBlockedBy, hc, hs, Option.map_some']
  rw [hdur, he]
  exact h

/-- Witness for C5: against a booking from 10:00 to 11:00, a 30-minute candidate
starting at 11:15, and one from 09:15 ending at 09:45, keep a gap of exactly 15
minutes and are not blocked. -/
theorem gap_at_least_buffer_not_blocked_witness :
    (overlapsWithBuffer (some (localDateTime utc tuesday ⟨11, 15⟩))
        (some (localDateTime utc tuesday ⟨11, 15⟩ + 30 * 60 * 1000))
        (some (localDateTime utc tuesday ⟨10, 0⟩))
        (some (localDateTime utc tuesday ⟨10, 0⟩ + 60 * 60 * 1000)) = false ∧
      slotBlockedBy utc tuesday 30 ⟨11, 15⟩
        { id := 1, service := precisionCut, date := dateOnly tuesday, time := "10:00" } = false) ∧
    overlapsWithBuffer (some (localDateTime utc tuesday ⟨9, 15⟩))
        (some (localDateTime utc tuesday ⟨9, 15⟩ + 30 * 60 * 1000))
        (some (localDateTime utc tuesday ⟨10, 0⟩))
        (some (localDateTime utc tuesday ⟨10, 0⟩ + 60 * 60 * 1000)) = false :=
  have h := gap_at_least_buffer_not_blocked (localDateTime utc tuesday ⟨11, 15⟩) (30 * 60 * 1000)
    (localDateTime utc tuesday ⟨10, 0⟩) (localDateTime utc tuesday ⟨10, 0⟩ + 60 * 60 * 1000)
    (by decide) (Or.inr (by decide))
  ⟨⟨h.1, h.2 utc tuesday 30 ⟨11, 15⟩ _ (by decide) rfl (by decide) rfl⟩,
    (gap_at_least_buffer_not_blocked (localDateTime utc tuesday ⟨9, 15⟩) (30 * 60 * 1000)
      (localDateTime utc tuesday ⟨10, 0⟩) (localDateTime utc tuesday ⟨10, 0⟩ + 60 * 60 * 1000)
      (by decide) (Or.inl (by decide))).1⟩

/-- C1 (defect): with a confirmed booking from 10:00 to 10:30, the availability
route for a 120-minute service reports 09:00 and 09:30 as available, although the
candidate from 09:30 to 11:30 covers the whole booking and its buffer: the
overlap test only looks at where the candidate's two endpoints fall. -/
theorem availability_keeps_enclosing_slot :
    getAvailability utc dbShortBooking sampleNow (some tuesday) (some 2) =
      .ok ["09:00", "09:30", "11:00", "11:30", "12:00", "12:30", "13:00", "13:30",
           "14:00", "14:30", "15:00", "15:30", "16:00"] ∧
    (localDateTime utc tuesday ⟨9, 30⟩ <
        localDateTime utc tuesday ⟨10, 0⟩ + 30 * 60 * 1000 + buffer ∧
      localDateTime utc tuesday ⟨10, 0⟩ - buffer <
        localDateTime utc tuesday ⟨9, 30⟩ + 120 * 60 * 1000) := by
  refine ⟨?_, by decide⟩
  simp only [getAvailability, timeSlots_eq_filter]
  decide

/-! ## Arithmetic of the cancellation and reminder windows -/

theorem hoursUntil_lt_iff (a n k : Int) :
    hoursUntil a n < (k : ℚ) ↔ a - n < k * msPerHour := by
  unfold hoursUntil msPerHour
  rw [div_lt_iff₀ (by norm_num : (0 : ℚ) < 1000 * 60 * 60)]
  rw [← Int.cast_lt (R := ℚ)]
  push_cast
  norm_num

theorem hoursUntil_le_iff (a n k : Int) :
    hoursUntil a n ≤ (k : ℚ) ↔ a - n ≤ k * msPerHour := by
  unfold hoursUntil msPerHour
  rw [div_le_iff₀ (by norm_num : (0 : ℚ) < 1000 * 60 * 60)]
  rw [← Int.cast_le (R := ℚ)]
  push_cast
  norm_num

theorem hoursUntil_ge_24 (a n : Int) : hoursUntil a n ≥ 24 ↔ 24 * msPerHour ≤ a - n := by
  have h := hoursUntil_lt_iff a n 24
  rw [ge_iff_le, ← not_lt, ← not_lt]
  exact not_congr (by simpa using h)

theorem hoursUntil_lt_24 (a n : Int) : hoursUntil a n < 24 ↔ a - n < 24 * msPerHour := by
  simpa using hoursUntil_lt_iff a n 24

theorem hoursUntil_le_24 (a n : Int) : hoursUntil a n ≤ 24 ↔ a - n ≤ 24 * msPerHour := by
  simpa using hoursUntil_le_iff a n 24

theorem hoursUntil_gt_23 (a n : Int) : hoursUntil a n > 23 ↔ 23 * msPerHour < a - n := by
  have h := hoursUntil_le_iff a n 23
  rw [gt_iff_lt, ← not_le, ← not_le]
  exact not_congr (by simpa using h)

theorem hoursUntil_le_2 (a n : Int) : hoursUntil a n ≤ 2 ↔ a - n ≤ 2 * msPerHour := by
  simpa using hoursUntil_le_iff a n 2

theorem hoursUntil_gt_half (a n : Int) :
    hoursUntil a n > 3 / 2 ↔ 90 * msPerMinute < a - n := by
  unfold hoursUntil msPerMinute
  rw [gt_iff_lt, lt_div_iff₀ (by norm_num : (0 : ℚ) < 1000 * 60 * 60)]
  rw [← Int.cast_lt (R := ℚ)]
  push_cast
  norm_num

theorem jsLt_some {α : Type} [LinearOrder α] (x y : α) :
    jsLt (some x) (some y) = true ↔ x < y := by
  simp [jsLt]

theorem jsLe_some {α : Type} [LinearOrder α] (x y : α) :
    jsLe (some x) (some y) = true ↔ x ≤ y := by
  simp [jsLe]

theorem jsLt_none_left {α : Type} [LinearOrder α] (y : Option α) : jsLt none y = false := by
  cases y <;> rfl

theorem jsLt_none_right {α : Type} [LinearOrder α] (x : Option α) : jsLt x none = false := by
  cases x <;> rfl

theorem jsLe_none_left {α : Type} [LinearOrder α] (y : Option α) : jsLe none y = false := by
  cases y <;> rfl

theorem jsLe_none_right {α : Type} [LinearOrder α] (x : Option α) : jsLe x none = false := by
  cases x <;> rfl

theorem dateTime_ne_empty {tz day : Int} {time : String} {t : Int}
    (h : dateTime tz day time = some t) : time ≠ "" := by
  intro he
  rw [he] at h
  simp [dateTime, show parseTime "" = none by decide] at h

/-! ## Store lemmas -/

theorem find?_id_eq {l : List Booking} {bookingId : Nat} {b : Booking}
    (h : l.find? (fun x => x.id == bookingId) = some b) : b.id = bookingId := by
  have := List.find?_some h
  simpa using this

theorem find?_map_replace (l : List Booking) (bookingId : Nat) (b c : Booking)
    (hfind : l.find? (fun x => x.id == bookingId) = some b) (hc : c.id = bookingId) :
    (l.map (fun x => if x.id == c.id then c else x)).find? (fun x => x.id == bookingId) =
      some c := by
  induction l with
  | nil => simp at hfind
  | cons x xs ih =>
    by_cases hx : x.id = bookingId
    · simp [List.find?_cons, hx, hc]
    · have hfind' : xs.find? (fun x => x.id == bookingId) = some b := by
        simpa [List.find?_cons, hx] using hfind
      simp [List.find?_cons, hx, hc]
      simpa [hc] using ih hfind'

theorem findBooking_saveBooking (db : Db) (bookingId : Nat) (b c : Booking)
    (hfind : db.findBooking bookingId = some b) (hc : c.id = bookingId) :
    (db.saveBooking c).findBooking bookingId = some c := by
  unfold Db.findBooking Db.saveBooking
  exact find?_map_replace db.bookings bookingId b c hfind hc

/-! ## Cancellation policy -/

/-- For a booking whose stored time is read by the `Date` constructor, the
appointment being at the instant `t`: `canBeCancelled` is false whenever the
status is completed or cancelled, and for every other status it is true exactly
when at least 24 hours remain from now until `t`. -/
theorem canBeCancelled_spec (b : Booking) (tz now t : Int)
    (ht : dateTime tz (isoDay b.date) b.time = some t) :
    ((b.status = "completed" ∨ b.status = "cancelled") → b.canBeCancelled tz now = false) ∧
    (b.status ≠ "completed" → b.status ≠ "cancelled" →
      (b.canBeCancelled tz now = true ↔ 24 * msPerHour ≤ t - now)) := by
  constructor
  · intro h
    have h' : b.status = "cancelled" ∨ b.status = "completed" := h.symm
    simp [Booking.canBeCancelled, h']
  · intro h1 h2
    have hne := dateTime_ne_empty ht
    simp [Booking.canBeCancelled, Booking.appointmentDateTime, h1, h2, hne, ht, jsLe_some,
      ← hoursUntil_ge_24]

theorem canBeCancelled_invalid_time (b : Booking) (tz now : Int)
    (ht : dateTime tz (isoDay b.date) b.time = none) : b.canBeCancelled tz now = false := by
  unfold Booking.canBeCancelled Booking.appointmentDateTime
  split_ifs <;> simp [ht, jsLe]

/-- C7 (defect): for the confirmed booking stored with the time `"9:30"`, which
the schema accepts, `canBeCancelled` is false more than three days before the
appointment, and at every instant: the virtual `appointmentDateTime` is an
Invalid Date, the remaining hours are `NaN` and the test `>= 24` is false. With
the hour written `"09:30"` the same booking can be cancelled at that instant. -/
theorem one_digit_hour_booking_cannot_be_cancelled :
    bookingValid earlyCut = true ∧
    earlyCut.status = "confirmed" ∧
    earlyCut.appointmentDateTime utc = some none ∧
    72 * msPerHour ≤ localDateTime utc tuesday ⟨9, 30⟩ - sampleNow ∧
    earlyCut.canBeCancelled utc sampleNow = false ∧
    (∀ tz now : Int, earlyCut.canBeCancelled tz now = false) ∧
    earlyCutPadded.canBeCancelled utc sampleNow = true := by
  refine ⟨by decide, rfl, by decide, by decide, ?_, ?_, ?_⟩
  · exact canBeCancelled_invalid_time earlyCut utc sampleNow (by decide)
  · intro tz now
    exact canBeCancelled_invalid_time earlyCut tz now (by simp [dateTime, show parseTime earlyCut.time = none by decide])
  · exact ((canBeCancelled_spec earlyCutPadded utc sampleNow (localDateTime utc tuesday ⟨9, 30⟩)
      (by decide)).2 (by decide) (by decide)).2 (by decide)

/-- For a stored booking that is not already cancelled and whose stored time is
read by the `Date` constructor, the appointment being at the instant `t`: the
cancel route answers with the 24-hour policy error and leaves the store
unchanged when less than 24 hours remain until `t`, and otherwise accepts and
stores the booking with status cancelled. -/
theorem cancel_respects_24h_window (tz : Int) (db : Db) (now : Int) (bookingId : Nat)
    (reason : Option String) (b : Booking) (t : Int)
    (hfind : db.findBooking bookingId = some b) (hst : b.status ≠ "cancelled")
    (ht : dateTime tz (isoDay b.date) b.time = some t) :
    (t - now < 24 * msPerHour →
      cancelBooking tz db now bookingId reason =
        (⟨400, "Cancellations must be made at least 24 hours in advance"⟩, db)) ∧
    (24 * msPerHour ≤ t - now →
      (cancelBooking tz db now bookingId reason).1 = ⟨200, "Booking cancelled successfully"⟩ ∧
      (cancelBooking tz db now bookingId reason).2.findBooking bookingId =
        some { b with
          status := "cancelled"
          cancellationReason := some (reason.getD "Customer cancellation")
          cancelledAt := some now
          updatedAt := now }) := by
  constructor
  · intro h
    simp [cancelBooking, hfind, hst, ht, jsLt_some, hoursUntil_lt_24, h]
  · intro h
    have h' : ¬ (t - now < 24 * msPerHour) := not_lt.2 h
    simp only [cancelBooking, hfind, hst, ht, Option.map_some', jsLt_some, hoursUntil_lt_24, h',
      if_false]
    refine ⟨trivial, ?_⟩
    exact findBooking_saveBooking db bookingId b _ hfind (find?_id_eq (b := b) hfind)

/-- C8 (defect): the confirmed booking stored with the time `"9:30"` is cancelled
by the cancel route one hour before the appointment: the `Date` built from the
stored strings is invalid, the remaining hours are `NaN` and the test `< 24` of
the policy is false. With the hour written `"09:30"` the same request is refused
with the 24-hour policy error. -/
theorem cancel_accepts_one_digit_hour_late :
    bookingValid earlyCut = true ∧
    localDateTime utc tuesday ⟨9, 30⟩ - localDateTime utc tuesday ⟨8, 30⟩ = 1 * msPerHour ∧
    (cancelBooking utc dbEarlyCut (localDateTime utc tuesday ⟨8, 30⟩) 1 none).1 =
      ⟨200, "Booking cancelled successfully"⟩ ∧
    ((cancelBooking utc dbEarlyCut (localDateTime utc tuesday ⟨8, 30⟩) 1 none).2.findBooking 1).map
        (fun b => b.status) = some "cancelled" ∧
    cancelBooking utc dbEarlyCutPadded (localDateTime utc tuesday ⟨8, 30⟩) 1 none =
      (⟨400, "Cancellations must be made at least 24 hours in advance"⟩, dbEarlyCutPadded) := by
  have hinv : dateTime utc (isoDay earlyCut.date) earlyCut.time = none := by decide
  have hfind : dbEarlyCut.findBooking 1 = some earlyCut := rfl
  have hst : ¬ earlyCut.status = "cancelled" := by decide
  have hrun : cancelBooking utc dbEarlyCut (localDateTime utc tuesday ⟨8, 30⟩) 1 none =
      (⟨200, "Booking cancelled successfully"⟩,
        dbEarlyCut.saveBooking { earlyCut with status := "cancelled", cancellationReason := some "Customer cancellation", cancelledAt := some (localDateTime utc tuesday ⟨8, 30⟩), updatedAt := localDateTime utc tuesday ⟨8, 30⟩ }) := by
    simp only [cancelBooking, hfind, hst, hinv, Option.map_none', jsLt_none_left, if_false]
    rfl
  refine ⟨by decide, by decide, ?_, ?_, ?_⟩
  · rw [hrun]
  · rw [hrun]
    decide
  · exact (cancel_respects_24h_window utc dbEarlyCutPadded (localDateTime utc tuesday ⟨8, 30⟩) 1
      none earlyCutPadded (localDateTime utc tuesday ⟨9, 30⟩) rfl (by decide) (by decide)).1
      (by decide)

/-- For a booking whose stored time is read by the `Date` constructor, the
appointment being at the instant `t`: `needsReminder(kind)` is true exactly when
the status is confirmed, the reminder log has no entry of that kind, and either
the kind is 24h and the remaining time is more than 23 hours and at most 24
hours, or the kind is 2h and the remaining time is more than 90 minutes and at
most 2 hours. -/
theorem needsReminder_spec (b : Booking) (kind : String) (tz now t : Int)
    (ht : dateTime tz (isoDay b.date) b.time = some t) :
    b.needsReminder kind tz now = true ↔
      b.status = "confirmed" ∧
      (∀ r ∈ b.remindersSent, r.type ≠ kind) ∧
      ((kind = "24h" ∧ 23 * msPerHour < t - now ∧ t - now ≤ 24 * msPerHour) ∨
       (kind = "2h" ∧ 90 * msPerMinute < t - now ∧ t - now ≤ 2 * msPerHour)) := by
  have hne := dateTime_ne_empty ht
  unfold Booking.needsReminder
  simp only [Booking.appointmentDateTime, hne, if_false, ht, Option.map_some', jsLe_some,
    jsLt_some]
  by_cases hs : b.status = "confirmed"
  · by_cases hr : b.remindersSent.any (fun reminder => reminder.type == kind) = true
    · have hr' : ¬ ∀ r ∈ b.remindersSent, r.type ≠ kind := by
        intro hall
        obtain ⟨r, hmem, heq⟩ := List.any_eq_true.1 hr
        exact hall r hmem (by simpa using heq)
      simp [hs, hr, hr']
    · have hr' : ∀ r ∈ b.remindersSent, r.type ≠ kind := by
        intro r hmem heq
        exact hr (List.any_eq_true.2 ⟨r, hmem, by simpa using heq⟩)
      have h23 : (23 : ℚ) < hoursUntil t now ↔ 23 * msPerHour < t - now := hoursUntil_gt_23 t now
      have h32 : (3 / 2 : ℚ) < hoursUntil t now ↔ 90 * msPerMinute < t - now :=
        hoursUntil_gt_half t now
      simp only [hs, hr, hr', hoursUntil_le_24, h23, hoursUntil_le_2, h32]
      by_cases h24 : kind = "24h"
      · subst h24
        simp
        tauto
      · by_cases h2 : kind = "2h"
        · subst h2
          simp
          tauto
        · simp [h24, h2]
  · simp [hs]

theorem needsReminder_invalid_time (b : Booking) (kind : String) (tz now : Int)
    (ht : dateTime tz (isoDay b.date) b.time = none) : b.needsReminder kind tz now = false := by
  unfold Booking.needsReminder Booking.appointmentDateTime
  by_cases h1 : b.time = ""
  · simp [h1]
  · simp only [h1, if_false, ht, Option.map_none', jsLe_none_left, jsLt_none_right]
    split_ifs <;> simp_all

/-- C10 (defect): the confirmed booking stored with the time `"9:30"` never needs
a reminder: 23 and a half hours before the appointment, with an empty reminder
log, `needsReminder('24h')` is false, and so it is for every kind at every
instant, because the remaining hours are `NaN`. With the hour written `"09:30"`
the 24h reminder is due at that instant. -/
theorem one_digit_hour_booking_needs_no_reminder :
    bookingValid earlyCut = true ∧
    earlyCut.status = "confirmed" ∧ earlyCut.remindersSent = [] ∧
    (23 * msPerHour < localDateTime utc tuesday ⟨9, 30⟩ - localDateTime utc monday ⟨10, 0⟩ ∧
      localDateTime utc tuesday ⟨9, 30⟩ - localDateTime utc monday ⟨10, 0⟩ ≤ 24 * msPerHour) ∧
    earlyCut.needsReminder "24h" utc (localDateTime utc monday ⟨10, 0⟩) = false ∧
    (∀ (kind : String) (tz now : Int), earlyCut.needsReminder kind tz now = false) ∧
    earlyCutPadded.needsReminder "24h" utc (localDateTime utc monday ⟨10, 0⟩) = true := by
  have hinv : ∀ tz : Int, dateTime tz (isoDay earlyCut.date) earlyCut.time = none := by
    intro tz
    simp [dateTime, show parseTime earlyCut.time = none by decide]
  refine ⟨by decide, rfl, rfl, by decide, ?_, ?_, ?_⟩
  · exact needsReminder_invalid_time earlyCut "24h" utc _ (hinv utc)
  · intro kind tz now
    exact needsReminder_invalid_time earlyCut kind tz now (hinv tz)
  · refine (needsReminder_spec earlyCutPadded "24h" utc (localDateTime utc monday ⟨10, 0⟩)
      (localDateTime utc tuesday ⟨9, 30⟩) (by decide)).2 ⟨rfl, ?_, Or.inl ⟨rfl, by decide, by decide⟩⟩
    intro r hr
    simp [earlyCutPadded, earlyCut] at hr

/-- C9 (defect): the cancel route accepts the cancellation of a completed booking
whose appointment is more than 24 hours away and stores it as cancelled, although
`canBeCancelled` is false for it: the route tests only for the status cancelled. -/
theorem cancel_accepts_completed_booking :
    (cancelBooking utc dbCompletedCut sampleNow 1 none).1 =
      ⟨200, "Booking cancelled successfully"⟩ ∧
    ((cancelBooking utc dbCompletedCut sampleNow 1 none).2.findBooking 1).map
        (fun b => b.status) = some "cancelled" ∧
    (dbCompletedCut.findBooking 1).map (fun b => b.status) = some "completed" ∧
    completedCut.canBeCancelled utc sampleNow = false := by
  have hrun := (cancel_respects_24h_window utc dbCompletedCut sampleNow 1 none completedCut
    (localDateTime utc tuesday ⟨10, 0⟩) rfl (by decide) (by decide)).2 (by decide)
  refine ⟨hrun.1, ?_, by decide, ?_⟩
  · rw [hrun.2]
    rfl
  · exact (canBeCancelled_spec completedCut utc sampleNow (localDateTime utc tuesday ⟨10, 0⟩)
      (by decide)).1 (Or.inl rfl)


/-! ## Booking creation -/

/-- C2 (defect): with a confirmed booking from 10:00 to 12:00 stored, the creation
route accepts a 30-minute booking at 11:00 on the same day and stores it, although
the two intervals intersect; the availability route on the same store does not
offer 11:00. The creation query compares only the stored start time with the
window around the request and never uses the stored booking's duration. -/
theorem create_accepts_overlapping_booking :
    (createBooking utc dbLongBooking sampleNow 2 requestAtEleven).1 = ⟨201, ""⟩ ∧
    (createBooking utc dbLongBooking sampleNow 2 requestAtEleven).2.bookings.map
        (fun b => (b.id, b.time, b.service.duration, b.status)) =
      [(1, "10:00", 120, "confirmed"), (2, "11:00", 30, "pending")] ∧
    (localDateTime utc tuesday ⟨10, 0⟩ < localDateTime utc tuesday ⟨11, 0⟩ + 30 * 60 * 1000 ∧
      localDateTime utc tuesday ⟨11, 0⟩ <
        localDateTime utc tuesday ⟨10, 0⟩ + 120 * 60 * 1000) ∧
    getAvailability utc dbLongBooking sampleNow (some tuesday) (some 5) =
      .ok ["09:00", "12:30", "13:00", "13:30", "14:00", "14:30", "15:00", "15:30",
           "16:00", "16:30", "17:00", "17:30"] := by
  refine ⟨?_, ?_, by decide, ?_⟩
  · simp only [createBooking, conflictingBooking, ge_iff_le, String.le_iff_toList_le,
      String.lt_iff_toList_lt]
    decide
  · simp only [createBooking, conflictingBooking, ge_iff_le, String.le_iff_toList_le,
      String.lt_iff_toList_lt]
    decide
  · simp only [getAvailability, timeSlots_eq_filter]
    decide

/-! ## Inactive bookings -/

theorem isActiveStatus_inactive {status : String}
    (h : status = "cancelled" ∨ status = "no-show" ∨ status = "completed") :
    isActiveStatus status = false := by
  rcases h with h | h | h <;> subst h <;> decide

theorem existingBookings_skip (tz : Int) (services : List Service) (pre post : List Booking)
    (b : Booking) (day : Int) (hb : isActiveStatus b.status = false) :
    existingBookings tz ⟨services, pre ++ b :: post⟩ day =
      existingBookings tz ⟨services, pre ++ post⟩ day := by
  simp [existingBookings, List.filter_append, List.filter_cons, hb]

theorem conflictingBooking_skip (tz : Int) (services : List Service) (pre post : List Booking)
    (b : Booking) (day : Int) (startTime endTime : Option Int)
    (hb : isActiveStatus b.status = false) :
    conflictingBooking tz ⟨services, pre ++ b :: post⟩ day startTime endTime =
      conflictingBooking tz ⟨services, pre ++ post⟩ day startTime endTime := by
  simp [conflictingBooking, List.find?_append, List.find?_cons, hb]

/-- C6: a stored booking whose status is cancelled, no-show or completed is not
consulted: the reply of the availability route and the reply of the creation
route (accept or reject, with its code and message) are the same as for the
store without that booking, in every zone. -/
theorem inactive_booking_is_ignored (tz : Int) (services : List Service)
    (pre post : List Booking)
    (b : Booking) (now : Int) (date : Option Int) (serviceId : Option Nat) (newId : Nat)
    (req : CreateBookingRequest)
    (h : b.status = "cancelled" ∨ b.status = "no-show" ∨ b.status = "completed") :
    getAvailability tz ⟨services, pre ++ b :: post⟩ now date serviceId =
      getAvailability tz ⟨services, pre ++ post⟩ now date serviceId ∧
    (createBooking tz ⟨services, pre ++ b :: post⟩ now newId req).1 =
      (createBooking tz ⟨services, pre ++ post⟩ now newId req).1 := by
  have hb := isActiveStatus_inactive h
  constructor
  · cases date with
    | none => rfl
    | some day =>
      simp only [getAvailability, existingBookings_skip tz services pre post b day hb]
      rfl
  · simp only [createBooking, Db.findService,
      conflictingBooking_skip tz services pre post b _ _ _ hb]
    by_cases hv : (¬ req.validationErrors.isEmpty = true ∨ timePattern req.time = false)
    · simp only [hv, if_true]
    · simp only [hv, if_false]
      cases hsv : List.find? (fun s => s.id == req.serviceId) services with
      | none => rfl
      | some service =>
        simp only []
        split_ifs <;> first | rfl | skip
        all_goals (split <;> rfl)

/-- Witness for C6: adding a cancelled 10:00 booking to the store that holds the
confirmed colour appointment changes neither the availability reply nor the
reply to the 11:00 request. -/
theorem inactive_booking_is_ignored_witness :
    getAvailability utc
        ⟨sampleServices, [] ++ { pendingCut with id := 7, status := "cancelled" } ::
          dbLongBooking.bookings⟩ sampleNow (some tuesday) (some 1) =
      getAvailability utc ⟨sampleServices, [] ++ dbLongBooking.bookings⟩ sampleNow
        (some tuesday) (some 1) ∧
    (createBooking utc
        ⟨sampleServices, [] ++ { pendingCut with id := 7, status := "cancelled" } ::
          dbLongBooking.bookings⟩ sampleNow 2 requestAtEleven).1 =
      (createBooking utc ⟨sampleServices, [] ++ dbLongBooking.bookings⟩ sampleNow 2
        requestAtEleven).1 :=
  inactive_booking_is_ignored utc sampleServices [] dbLongBooking.bookings
    { pendingCut with id := 7, status := "cancelled" } sampleNow (some tuesday) (some 1) 2
    requestAtEleven (Or.inl rfl)

/-! ## Lookup after a save -/

theorem find?_map_replace_eq (l : List Booking) (c : Booking) (bookingId : Nat) :
    (l.map (fun x => if x.id == c.id then c else x)).find? (fun x => x.id == bookingId) =
      if c.id = bookingId then (l.find? (fun x => x.id == bookingId)).map (fun _ => c)
      else l.find? (fun x => x.id == bookingId) := by
  induction l with
  | nil => simp
  | cons x xs ih =>
    by_cases hc : c.id = bookingId
    · simp only [hc, if_true] at ih ⊢
      by_cases hx : x.id = bookingId
      · simp [List.find?_cons, hx, hc]
      · simp [List.find?_cons, hx, hc]
        simpa [hc] using ih
    · simp only [hc, if_false] at ih ⊢
      by_cases hx : x.id = c.id
      · have hx' : ¬ x.id = bookingId := fun h => hc (hx ▸ h)
        simp [List.find?_cons, hx, hc, hx']
        simpa using ih
      · by_cases hx' : x.id = bookingId
        · have hc' : ¬ bookingId = c.id := fun h => hc h.symm
          simp [List.find?_cons, hx', hc']
        · simp [List.find?_cons, hx, hx']
          simpa using ih

theorem findBooking_saveBooking_eq (db : Db) (c : Booking) (bookingId : Nat) :
    (db.saveBooking c).findBooking bookingId =
      if c.id = bookingId then (db.findBooking bookingId).map (fun _ => c)
      else db.findBooking bookingId := by
  unfold Db.findBooking Db.saveBooking
  exact find?_map_replace_eq db.bookings c bookingId

theorem findBooking_id {db : Db} {bookingId : Nat} {b : Booking}
    (h : db.findBooking bookingId = some b) : b.id = bookingId :=
  find?_id_eq h

/-! ## Reminders -/

theorem needsReminder_of_logged (b : Booking) (kind : String) (tz now : Int)
    (h : ∃ r ∈ b.remindersSent, r.type = kind) : b.needsReminder kind tz now = false := by
  obtain ⟨r, hr, hk⟩ := h
  have hany : b.remindersSent.any (fun reminder => reminder.type == kind) = true :=
    List.any_eq_true.2 ⟨r, hr, by simpa using hk⟩
  unfold Booking.needsReminder
  cases b.appointmentDateTime tz with
  | none => rfl
  | some appointmentDateTime =>
    simp only [hany]
    split_ifs <;> rfl

/-- C11: a reminder of a kind is due at most once. After `markReminderSent(k)` has
pushed its entry, `needsReminder(k)` is false at every instant, in every zone, in
every status and however the log grows afterwards, and the stored document has
the same property when the save passes validation; for every other kind the
entry does not change the result of `needsReminder`. -/
theorem reminder_due_at_most_once (b : Booking) (k method : String) (t : Int) :
    (∀ (status : String) (later : List Reminder) (tz now : Int),
      Booking.needsReminder
        { b.markReminderSent k method t with
          status := status
          remindersSent := (b.markReminderSent k method t).remindersSent ++ later } k tz now
        = false) ∧
    (∀ (db : Db) (tz now : Int), db.findBooking b.id = some b →
      (b.markReminderSent k method t).remindersSent.all reminderValid = true →
      ∃ c, (db.markReminderSent b k method t).findBooking b.id = some c ∧
        c.remindersSent = b.remindersSent ++ [{ type := k, method := method, sentAt := t }] ∧
        c.needsReminder k tz now = false) ∧
    (∀ (k' : String) (tz now : Int), k' ≠ k →
      (b.markReminderSent k method t).needsReminder k' tz now = b.needsReminder k' tz now) := by
  refine ⟨?_, ?_, ?_⟩
  · intro status later tz now
    apply needsReminder_of_logged
    exact ⟨{ type := k, method := method, sentAt := t }, by simp [Booking.markReminderSent], rfl⟩
  · intro db tz now hfind hvalid
    refine ⟨{ b.markReminderSent k method t with updatedAt := t }, ?_, rfl, ?_⟩
    · simp only [Db.markReminderSent, hvalid, if_true]
      rw [findBooking_saveBooking_eq]
      simp [Booking.markReminderSent, hfind]
    · apply needsReminder_of_logged
      exact ⟨{ type := k, method := method, sentAt := t }, by simp [Booking.markReminderSent], rfl⟩
  · intro k' tz now hk
    have hne : ¬ k = k' := fun h => hk h.symm
    simp [Booking.needsReminder, Booking.markReminderSent, Booking.appointmentDateTime,
      List.any_append, hne]

/-- Witness for C11: a confirmed booking 23.5 hours before its appointment needs
the 24h reminder; once it is marked as sent the stored booking no longer needs
it, and the 2h reminder is unaffected. -/
theorem reminder_due_at_most_once_witness :
    (∃ c, (Db.markReminderSent ⟨sampleServices, [{ pendingCut with status := "confirmed" }]⟩
          { pendingCut with status := "confirmed" } "24h" "email"
          (localDateTime utc (tuesday - 1) ⟨10, 30⟩)).findBooking
          (Booking.id { pendingCut with status := "confirmed" }) = some c ∧
        c.remindersSent = (Booking.remindersSent { pendingCut with status := "confirmed" }) ++
          [{ type := "24h", method := "email",
             sentAt := localDateTime utc (tuesday - 1) ⟨10, 30⟩ }] ∧
        c.needsReminder "24h" utc (localDateTime utc (tuesday - 1) ⟨10, 31⟩) = false) ∧
    (Booking.markReminderSent { pendingCut with status := "confirmed" } "24h" "email"
        (localDateTime utc (tuesday - 1) ⟨10, 30⟩)).needsReminder "2h" utc
          (localDateTime utc tuesday ⟨8, 15⟩) =
      Booking.needsReminder { pendingCut with status := "confirmed" } "2h" utc
        (localDateTime utc tuesday ⟨8, 15⟩) :=
  ⟨(reminder_due_at_most_once { pendingCut with status := "confirmed" } "24h" "email"
      (localDateTime utc (tuesday - 1) ⟨10, 30⟩)).2.1
      ⟨sampleServices, [{ pendingCut with status := "confirmed" }]⟩ utc
      (localDateTime utc (tuesday - 1) ⟨10, 31⟩) rfl (by decide),
    (reminder_due_at_most_once { pendingCut with status := "confirmed" } "24h" "email"
      (localDateTime utc (tuesday - 1) ⟨10, 30⟩)).2.2 "2h" utc
      (localDateTime utc tuesday ⟨8, 15⟩) (by decide)⟩


/-! ## Lookup of payments after a save -/

theorem find?_intent_map_replace (l : List Payment) (intentId : String) (p c : Payment)
    (hfind : l.find? (fun x => x.stripePaymentIntentId == intentId) = some p)
    (hid : c.id = p.id) (hintent : c.stripePaymentIntentId = intentId) :
    (l.map (fun x => if x.id == c.id then c else x)).find?
        (fun x => x.stripePaymentIntentId == intentId) = some c := by
  induction l with
  | nil => simp at hfind
  | cons x xs ih =>
    by_cases hx : x.id = c.id
    · simp [List.find?_cons, hx, hintent]
    · by_cases hxi : x.stripePaymentIntentId = intentId
      · have hxp : x = p := by simpa [List.find?_cons, hxi] using hfind
        exact absurd (hxp ▸ hid.symm) hx
      · have hfind' : xs.find? (fun x => x.stripePaymentIntentId == intentId) = some p := by
          simpa [List.find?_cons, hxi] using hfind
        have hxb : ¬ (x.id == c.id) = true := by simpa using hx
        have hxf : (x.stripePaymentIntentId == intentId) = false := by simpa using hxi
        rw [List.map_cons, if_neg hxb, List.find?_cons, hxf]
        exact ih hfind'

theorem findPaymentByIntent_savePayment (s : Store) (intentId : String) (p c : Payment)
    (hfind : s.findPaymentByIntent intentId = some p)
    (hid : c.id = p.id) (hintent : c.stripePaymentIntentId = intentId) :
    (s.savePayment c).findPaymentByIntent intentId = some c := by
  unfold Store.findPaymentByIntent Store.savePayment
  exact find?_intent_map_replace s.payments intentId p c hfind hid hintent

theorem findPaymentByIntent_intent {s : Store} {intentId : String} {p : Payment}
    (h : s.findPaymentByIntent intentId = some p) : p.stripePaymentIntentId = intentId := by
  have := List.find?_some h
  simpa using this

theorem find?_payment_map_replace (l : List Payment) (paymentId : Nat) (p c : Payment)
    (hfind : l.find? (fun x => x.id == paymentId) = some p) (hc : c.id = paymentId) :
    (l.map (fun x => if x.id == c.id then c else x)).find? (fun x => x.id == paymentId) =
      some c := by
  induction l with
  | nil => simp at hfind
  | cons x xs ih =>
    by_cases hx : x.id = paymentId
    · simp [List.find?_cons, hx, hc]
    · have hfind' : xs.find? (fun x => x.id == paymentId) = some p := by
        simpa [List.find?_cons, hx] using hfind
      simp [List.find?_cons, hx, hc]
      simpa [hc] using ih hfind'

theorem findPayment_savePayment (s : Store) (paymentId : Nat) (p c : Payment)
    (hfind : s.findPayment paymentId = some p) (hc : c.id = paymentId) :
    (s.savePayment c).findPayment paymentId = some c := by
  unfold Store.findPayment Store.savePayment
  exact find?_payment_map_replace s.payments paymentId p c hfind hc

theorem findPayment_id {s : Store} {paymentId : Nat} {p : Payment}
    (h : s.findPayment paymentId = some p) : p.id = paymentId := by
  have := List.find?_some h
  simpa using this

/-! ## Payment confirmation -/

/-- C14: when the confirm route finds the payment record and the provider reports
the status succeeded, the stored payment has status succeeded with `paidAt` set,
and the linked booking is stored with status confirmed and payment status
paid. -/
theorem confirm_succeeded_marks_paid (s : Store) (now : Int) (intentId : String)
    (intent : PaymentIntent) (p : Payment) (b : Booking)
    (hid : intentId ≠ "") (hs : intent.status = "succeeded")
    (hp : s.findPaymentByIntent intentId = some p)
    (hb : s.db.findBooking p.booking = some b) :
    (confirmPayment s now (some intentId) (some intent)).1 = ⟨200, ""⟩ ∧
    (confirmPayment s now (some intentId) (some intent)).2.findPaymentByIntent intentId =
      some { p with status := "succeeded", paidAt := some now,
                    stripeChargeId := intent.latest_charge } ∧
    (confirmPayment s now (some intentId) (some intent)).2.db.findBooking p.booking =
      some { b with paymentStatus := "paid", status := "confirmed", updatedAt := now } := by
  have hvalid : bookingEnumsValid
      { b with paymentStatus := "paid", status := "confirmed", updatedAt := now } = true := by
    simp [bookingEnumsValid, statusEnum, paymentStatusEnum]
  simp only [confirmPayment, hid, hs, hp, hb, hvalid, if_true, if_false]
  refine ⟨trivial, ?_, ?_⟩
  · exact findPaymentByIntent_savePayment s intentId p _ hp rfl
      (findPaymentByIntent_intent (p := p) hp)
  · show (Db.saveBooking s.db _).findBooking p.booking = _
    exact findBooking_saveBooking s.db p.booking b _ hb (findBooking_id (b := b) hb)

/-- C16: when the confirm route receives a provider status other than succeeded,
the stored payment takes that status and nothing else of it changes, and the
booking store is left as it was, so a pending booking remains pending. -/
theorem confirm_not_succeeded_keeps_booking (s : Store) (now : Int) (intentId : String)
    (intent : PaymentIntent) (p : Payment)
    (hid : intentId ≠ "") (hs : intent.status ≠ "succeeded")
    (hp : s.findPaymentByIntent intentId = some p) :
    (confirmPayment s now (some intentId) (some intent)).2.findPaymentByIntent intentId =
      some { p with status := intent.status } ∧
    (confirmPayment s now (some intentId) (some intent)).2.db = s.db := by
  have hsave : (s.savePayment { p with status := intent.status }).findPaymentByIntent intentId =
      some { p with status := intent.status } :=
    findPaymentByIntent_savePayment s intentId p _ hp rfl
      (findPaymentByIntent_intent (p := p) hp)
  simp only [confirmPayment, hid, hs, hp, if_false]
  cases hb : s.db.findBooking p.booking with
  | none => exact ⟨hsave, rfl⟩
  | some b => exact ⟨hsave, rfl⟩

/-! ## Refunds -/

/-- C17: for an admin or stylist and an existing payment, the refund route answers
`Cannot refund unsuccessful payment` exactly when the payment's status is not
succeeded, and in that case it sends no request to the provider and leaves the
whole state, payments and bookings, as it was. -/
theorem refund_requires_succeeded (s : Store) (now : Int) (user : User) (body : RefundBody)
    (refundsCreate : RefundParams → Option ProviderRefund) (p : Payment)
    (hrole : user.role = "admin" ∨ user.role = "stylist")
    (hp : s.findPayment body.paymentId = some p) :
    ((refund s now user body refundsCreate).reply =
        ⟨400, "Cannot refund unsuccessful payment"⟩ ↔ p.status ≠ "succeeded") ∧
    (p.status ≠ "succeeded" →
      (refund s now user body refundsCreate).store = s ∧
      (refund s now user body refundsCreate).requested = []) := by
  have hrole' : ¬ (user.role ≠ "admin" ∧ user.role ≠ "stylist") := by
    rcases hrole with h | h <;> simp [h]
  constructor
  · constructor
    · intro h hst
      simp only [refund, hrole', hp, hst, if_false, ne_eq, not_true_eq_false] at h
      revert h
      cases s.db.findBooking p.booking with
      | none => simp
      | some b =>
        simp only []
        cases refundsCreate _ with
        | none => simp
        | some r =>
          simp only []
          split_ifs <;> simp
    · intro hst
      simp [refund, hrole', hp, hst]
  · intro hst
    simp [refund, hrole', hp, hst]

/-- Witness for C14: confirming the succeeded intent `pi_1` on the state with the
pending booking stores the payment as succeeded and the booking as confirmed and
paid. -/
theorem confirm_succeeded_marks_paid_witness :
    (confirmPayment storePending sampleNow (some "pi_1") (some succeededIntent)).1 = ⟨200, ""⟩ ∧
    (confirmPayment storePending sampleNow (some "pi_1")
        (some succeededIntent)).2.findPaymentByIntent "pi_1" =
      some { pendingPayment with status := "succeeded", paidAt := some sampleNow,
                                 stripeChargeId := succeededIntent.latest_charge } ∧
    (confirmPayment storePending sampleNow (some "pi_1")
        (some succeededIntent)).2.db.findBooking pendingPayment.booking =
      some { pendingCut with paymentStatus := "paid", status := "confirmed",
                             updatedAt := sampleNow } :=
  confirm_succeeded_marks_paid storePending sampleNow "pi_1" succeededIntent pendingPayment
    pendingCut (by decide) rfl rfl rfl

/-- Witness for C16: confirming the failed intent `pi_1` stores the payment as
failed and leaves the pending booking as it was. -/
theorem confirm_not_succeeded_keeps_booking_witness :
    (confirmPayment storePending sampleNow (some "pi_1")
        (some failedIntent)).2.findPaymentByIntent "pi_1" =
      some { pendingPayment with status := failedIntent.status } ∧
    (confirmPayment storePending sampleNow (some "pi_1") (some failedIntent)).2.db =
      storePending.db :=
  confirm_not_succeeded_keeps_booking storePending sampleNow "pi_1" failedIntent pendingPayment
    (by decide) (by decide) rfl

/-- Witness for C17: a refund of the pending payment is refused with the message,
and a refund of the succeeded payment is not. -/
theorem refund_requires_succeeded_witness :
    ((refund storePending sampleNow adminUser { paymentId := 10 } sampleProvider).store =
        storePending ∧
      (refund storePending sampleNow adminUser { paymentId := 10 } sampleProvider).requested =
        []) ∧
    ((refund storePaid sampleNow adminUser { paymentId := 10 } sampleProvider).reply =
        ⟨400, "Cannot refund unsuccessful payment"⟩ ↔ succeededPayment.status ≠ "succeeded") :=
  ⟨(refund_requires_succeeded storePending sampleNow adminUser { paymentId := 10 }
      sampleProvider pendingPayment (Or.inl rfl) rfl).2 (by decide),
    (refund_requires_succeeded storePaid sampleNow adminUser { paymentId := 10 }
      sampleProvider succeededPayment (Or.inl rfl) rfl).1⟩

/-! ## Idempotence of payment confirmation -/

theorem map_replace_replace_view {α β : Type} (key : α → Nat) (view : α → β) (l : List α)
    (c d : α) (hkey : key d = key c) (hview : view d = view c) :
    ((l.map (fun x => if key x == key c then c else x)).map
        (fun x => if key x == key d then d else x)).map view =
      (l.map (fun x => if key x == key c then c else x)).map view := by
  rw [List.map_map, List.map_map, List.map_map]
  apply List.map_congr_left
  intro x _
  by_cases hx : key x = key c
  · simp [hx, hkey, hview]
  · simp [hx, hkey]

/-- C15: payment confirmation is idempotent on the status fields. Confirming the
same payment intent a second time, the provider again reporting succeeded, leaves
the status and payment status of every booking and the status of every payment
as they were after the first confirmation. -/
theorem confirm_idempotent (s : Store) (now later : Int) (paymentIntentId : Option String)
    (intent : PaymentIntent) (hs : intent.status = "succeeded") :
    statusView (confirmPayment (confirmPayment s now paymentIntentId (some intent)).2 later
        paymentIntentId (some intent)).2 =
      statusView (confirmPayment s now paymentIntentId (some intent)).2 := by
  cases paymentIntentId with
  | none => rfl
  | some intentId =>
    by_cases hid : intentId = ""
    · simp [confirmPayment, hid]
    · cases hp : s.findPaymentByIntent intentId with
      | none => simp [confirmPayment, hid, hp]
      | some p =>
        have hp1 : (s.savePayment { p with status := "succeeded", paidAt := some now, stripeChargeId := intent.latest_charge }).findPaymentByIntent intentId =
            some { p with status := "succeeded", paidAt := some now, stripeChargeId := intent.latest_charge } :=
          findPaymentByIntent_savePayment s intentId p _ hp rfl
            (findPaymentByIntent_intent (p := p) hp)
        cases hb : s.db.findBooking p.booking with
        | none =>
          have h1 : (confirmPayment s now (some intentId) (some intent)).2 =
              s.savePayment { p with status := "succeeded", paidAt := some now, stripeChargeId := intent.latest_charge } := by
            simp [confirmPayment, hid, hp, hs, hb]
          rw [h1]
          have hb1 : (s.savePayment { p with status := "succeeded", paidAt := some now, stripeChargeId := intent.latest_charge }).db.findBooking p.booking = none := hb
          simp only [confirmPayment, hid, hp1, hs, hb1, if_true, if_false]
          simp only [statusView, Store.savePayment]
          congr 1
          exact map_replace_replace_view Payment.id (fun p => (p.id, p.status)) s.payments
            { p with status := "succeeded", paidAt := some now, stripeChargeId := intent.latest_charge }
            { p with status := "succeeded", paidAt := some later, stripeChargeId := intent.latest_charge } rfl rfl
        | some b =>
          have hvalid : ∀ (c : Booking) (t : Int), bookingEnumsValid
              { c with paymentStatus := "paid", status := "confirmed", updatedAt := t } = true := by
            intro c t
            simp [bookingEnumsValid, statusEnum, paymentStatusEnum]
          have h1 : (confirmPayment s now (some intentId) (some intent)).2 =
              { s.savePayment { p with status := "succeeded", paidAt := some now, stripeChargeId := intent.latest_charge } with db := s.db.saveBooking { b with paymentStatus := "paid", status := "confirmed", updatedAt := now } } := by
            simp [confirmPayment, hid, hp, hs, hb, hvalid, Store.savePayment]
          rw [h1]
          have hp2 : Store.findPaymentByIntent
              { s.savePayment { p with status := "succeeded", paidAt := some now, stripeChargeId := intent.latest_charge } with db := s.db.saveBooking { b with paymentStatus := "paid", status := "confirmed", updatedAt := now } }
              intentId =
              some { p with status := "succeeded", paidAt := some now, stripeChargeId := intent.latest_charge } := hp1
          have hb2 : (s.db.saveBooking
              { b with paymentStatus := "paid", status := "confirmed", updatedAt := now }).findBooking
                p.booking =
              some { b with paymentStatus := "paid", status := "confirmed", updatedAt := now } :=
            findBooking_saveBooking s.db p.booking b _ hb (findBooking_id (b := b) hb)
          simp only [confirmPayment, hid, hp2, hs, hb2, hvalid, if_true, if_false]
          simp only [statusView, Store.savePayment, Db.saveBooking]
          congr 1
          · exact map_replace_replace_view Booking.id (fun b => (b.id, b.status, b.paymentStatus))
              s.db.bookings
              { b with paymentStatus := "paid", status := "confirmed", updatedAt := now }
              { b with paymentStatus := "paid", status := "confirmed", updatedAt := later } rfl rfl
          · exact map_replace_replace_view Payment.id (fun p => (p.id, p.status)) s.payments
              { p with status := "succeeded", paidAt := some now, stripeChargeId := intent.latest_charge }
              { p with status := "succeeded", paidAt := some later, stripeChargeId := intent.latest_charge } rfl rfl

/-- Witness for C15: confirming the succeeded intent `pi_1` twice on the state
with the pending booking gives the same status fields as confirming it once. -/
theorem confirm_idempotent_witness :
    statusView (confirmPayment (confirmPayment storePending sampleNow (some "pi_1")
        (some succeededIntent)).2 (sampleNow + 60000) (some "pi_1") (some succeededIntent)).2 =
      statusView (confirmPayment storePending sampleNow (some "pi_1")
        (some succeededIntent)).2 ∧
    statusView (confirmPayment storePending sampleNow (some "pi_1") (some succeededIntent)).2 =
      ([(1, "confirmed", "paid")], [(10, "succeeded")]) :=
  ⟨confirm_idempotent storePending sampleNow (sampleNow + 60000) (some "pi_1") succeededIntent
      rfl, by decide⟩

/-! ## Outcome of a refund that the provider carries out -/

theorem mathRound_intCast (n : Int) : mathRound (n : ℚ) = n := by
  unfold mathRound
  rw [Int.floor_eq_iff]
  constructor
  · linarith
  · linarith

theorem refund_partial (s : Store) (now : Int) (user : User) (body : RefundBody)
    (refundsCreate : RefundParams → Option ProviderRefund) (p : Payment) (b : Booking)
    (r : ProviderRefund)
    (hrole : user.role = "admin" ∨ user.role = "stylist")
    (hp : s.findPayment body.paymentId = some p) (hst : p.status = "succeeded")
    (hb : s.db.findBooking p.booking = some b)
    (hr : refundsCreate
      { payment_intent := p.stripePaymentIntentId, amount := refundCents body.amount,
        reason := refundReason body.reason, bookingId := b.id, refundedBy := user.email } =
      some r)
    (hne : (r.amount : ℚ) ≠ p.amount * 100) :
    (refund s now user body refundsCreate).reply = ⟨500, "Failed to process refund"⟩ ∧
    (refund s now user body refundsCreate).store =
      s.savePayment { p with refunds := p.refunds ++ [{ stripeRefundId := r.id, amount := (r.amount : ℚ) / 100, reason := body.reason, refundedAt := now, refundedBy := user.id }] } ∧
    (refund s now user body refundsCreate).requested =
      [{ payment_intent := p.stripePaymentIntentId, amount := refundCents body.amount,
         reason := refundReason body.reason, bookingId := b.id, refundedBy := user.email }] := by
  have hrole' : ¬ (user.role ≠ "admin" ∧ user.role ≠ "stylist") := by
    rcases hrole with h | h <;> simp [h]
  simp [refund, hrole', hp, hst, hb, hr, hne, bookingEnumsValid, statusEnum, paymentStatusEnum]

theorem refund_full (s : Store) (now : Int) (user : User) (body : RefundBody)
    (refundsCreate : RefundParams → Option ProviderRefund) (p : Payment) (b : Booking)
    (r : ProviderRefund)
    (hrole : user.role = "admin" ∨ user.role = "stylist")
    (hp : s.findPayment body.paymentId = some p) (hst : p.status = "succeeded")
    (hb : s.db.findBooking p.booking = some b)
    (hr : refundsCreate
      { payment_intent := p.stripePaymentIntentId, amount := refundCents body.amount,
        reason := refundReason body.reason, bookingId := b.id, refundedBy := user.email } =
      some r)
    (heq : (r.amount : ℚ) = p.amount * 100) :
    (refund s now user body refundsCreate).reply = ⟨200, ""⟩ ∧
    (refund s now user body refundsCreate).store =
      { s.savePayment { p with status := "refunded", refunds := p.refunds ++ [{ stripeRefundId := r.id, amount := (r.amount : ℚ) / 100, reason := body.reason, refundedAt := now, refundedBy := user.id }] } with
        db := s.db.saveBooking { b with status := "cancelled", paymentStatus := "refunded", updatedAt := now } } ∧
    (refund s now user body refundsCreate).requested =
      [{ payment_intent := p.stripePaymentIntentId, amount := refundCents body.amount,
         reason := refundReason body.reason, bookingId := b.id, refundedBy := user.email }] := by
  have hrole' : ¬ (user.role ≠ "admin" ∧ user.role ≠ "stylist") := by
    rcases hrole with h | h <;> simp [h]
  simp [refund, hrole', hp, hst, hb, hr, heq, bookingEnumsValid, statusEnum, paymentStatusEnum,
    Store.savePayment]

theorem refundCents_dollars (n : Int) (hn : n ≠ 0) :
    refundCents (some (n : ℚ)) = some (100 * n) := by
  have h0 : ¬ ((n : ℚ) = 0) := by exact_mod_cast hn
  have h : (n : ℚ) * 100 = ((100 * n : Int) : ℚ) := by push_cast; ring
  simp only [refundCents, h0, if_false, h, mathRound_intCast]

theorem sampleProvider_dollars (n : Int) (hn : n ≠ 0) (intent reason email : String)
    (bookingId : Nat) :
    sampleProvider
      { payment_intent := intent, amount := refundCents (some (n : ℚ)), reason := reason,
        bookingId := bookingId, refundedBy := email } =
      some { id := "re_1", amount := 100 * n } := by
  simp [sampleProvider, refundCents_dollars n hn]

/-- C20: a partial refund that the provider carries out (the refunded amount is
strictly less than the payment's amount) leaves the stored payment's status
succeeded, with the refund recorded, and leaves the booking store, and so the
booking's status, unchanged: the booking's save is refused by the schema because
the copied payment status is not a member of the `paymentStatus` enum, and the
route answers 500. -/
theorem partial_refund_keeps_statuses (s : Store) (now : Int) (user : User)
    (body : RefundBody) (refundsCreate : RefundParams → Option ProviderRefund)
    (p : Payment) (b : Booking) (r : ProviderRefund)
    (hrole : user.role = "admin" ∨ user.role = "stylist")
    (hp : s.findPayment body.paymentId = some p) (hst : p.status = "succeeded")
    (hb : s.db.findBooking p.booking = some b)
    (hr : refundsCreate
      { payment_intent := p.stripePaymentIntentId, amount := refundCents body.amount,
        reason := refundReason body.reason, bookingId := b.id, refundedBy := user.email } =
      some r)
    (hbelow : (r.amount : ℚ) / 100 < p.amount) :
    ((refund s now user body refundsCreate).store.findPayment body.paymentId).map
        (fun q => (q.status, q.refunds)) =
      some ("succeeded", p.refunds ++ [{ stripeRefundId := r.id, amount := (r.amount : ℚ) / 100, reason := body.reason, refundedAt := now, refundedBy := user.id }]) ∧
    (refund s now user body refundsCreate).store.db = s.db ∧
    (refund s now user body refundsCreate).store.db.findBooking p.booking = some b ∧
    (refund s now user body refundsCreate).reply = ⟨500, "Failed to process refund"⟩ := by
  have hne : (r.amount : ℚ) ≠ p.amount * 100 := by
    intro h
    rw [h] at hbelow
    simp at hbelow
  obtain ⟨hreply, hstore, _⟩ :=
    refund_partial s now user body refundsCreate p b r hrole hp hst hb hr hne
  rw [hstore, hreply]
  refine ⟨?_, rfl, hb, rfl⟩
  have hfind := findPayment_savePayment s body.paymentId p
    { p with refunds := p.refunds ++ [{ stripeRefundId := r.id, amount := (r.amount : ℚ) / 100, reason := body.reason, refundedAt := now, refundedBy := user.id }] }
    hp (findPayment_id (p := p) hp)
  rw [hfind]
  simp [hst]

/-- Witness for C20: a refund of 40 dollars on the succeeded payment of 85 dollars
leaves the payment succeeded and the confirmed booking as it was. -/
theorem partial_refund_keeps_statuses_witness :
    ((refund storePaid sampleNow adminUser { paymentId := 10, amount := some ((40 : Int) : ℚ) }
        sampleProvider).store.findPayment 10).map (fun q => (q.status, q.refunds)) =
      some ("succeeded", succeededPayment.refunds ++ [{ stripeRefundId := "re_1", amount := ((100 * 40 : Int) : ℚ) / 100, reason := none, refundedAt := sampleNow, refundedBy := 100 }]) ∧
    (refund storePaid sampleNow adminUser { paymentId := 10, amount := some ((40 : Int) : ℚ) }
        sampleProvider).store.db = storePaid.db ∧
    (refund storePaid sampleNow adminUser { paymentId := 10, amount := some ((40 : Int) : ℚ) }
        sampleProvider).store.db.findBooking succeededPayment.booking = some confirmedCut ∧
    (refund storePaid sampleNow adminUser { paymentId := 10, amount := some ((40 : Int) : ℚ) }
        sampleProvider).reply = ⟨500, "Failed to process refund"⟩ :=
  partial_refund_keeps_statuses storePaid sampleNow adminUser
    { paymentId := 10, amount := some ((40 : Int) : ℚ) } sampleProvider succeededPayment
    confirmedCut { id := "re_1", amount := 100 * 40 } (Or.inl rfl) rfl rfl rfl
    (sampleProvider_dollars 40 (by decide) _ _ _ _)
    (by norm_num [succeededPayment, pendingPayment])

theorem refundCents_forty : refundCents refundForty.amount = some 4000 := by
  have h : (some 40 : Option ℚ) = some ((40 : Int) : ℚ) := by norm_num
  rw [refundForty, h, refundCents_dollars 40 (by decide)]
  rfl

theorem refundCents_fortyFive : refundCents refundFortyFive.amount = some 4500 := by
  have h : (some 45 : Option ℚ) = some ((45 : Int) : ℚ) := by norm_num
  rw [refundFortyFive, h, refundCents_dollars 45 (by decide)]
  rfl

/-- C19 (defect): a refund of 40 dollars on the succeeded payment of 85 dollars is
requested from the provider, carried out and appended as one refund record of 40
dollars, but the linked booking is not stored as cancelled: it stays confirmed
and paid, and the route answers 500, because the booking's save with the copied
payment status `succeeded` is refused by the schema. -/
theorem partial_refund_does_not_cancel :
    (refund storePaid sampleNow adminUser refundForty sampleProvider).requested.map
        (fun q => q.amount) = [some 4000] ∧
    ((refund storePaid sampleNow adminUser refundForty sampleProvider).store.findPayment 10).map
        (fun q => (q.status, q.refunds.map (fun x => x.amount))) = some ("succeeded", [40]) ∧
    ((refund storePaid sampleNow adminUser refundForty sampleProvider).store.db.findBooking 1).map
        (fun b => (b.status, b.paymentStatus)) = some ("confirmed", "paid") ∧
    (refund storePaid sampleNow adminUser refundForty sampleProvider).reply =
      ⟨500, "Failed to process refund"⟩ := by
  have hr : sampleProvider
      { payment_intent := succeededPayment.stripePaymentIntentId,
        amount := refundCents refundForty.amount, reason := refundReason refundForty.reason,
        bookingId := confirmedCut.id, refundedBy := adminUser.email } =
      some { id := "re_1", amount := 4000 } := by
    rw [refundCents_forty]
    rfl
  obtain ⟨hreply, hstore, hreq⟩ :=
    refund_partial storePaid sampleNow adminUser refundForty sampleProvider succeededPayment
      confirmedCut { id := "re_1", amount := 4000 } (Or.inl rfl) rfl rfl rfl hr
      (by norm_num [succeededPayment, pendingPayment])
  rw [hreply, hstore, hreq, refundCents_forty]
  refine ⟨rfl, ?_, by decide, rfl⟩
  have hfind : (storePaid.savePayment { succeededPayment with refunds := succeededPayment.refunds ++ [{ stripeRefundId := "re_1", amount := ((4000 : Int) : ℚ) / 100, reason := refundForty.reason, refundedAt := sampleNow, refundedBy := adminUser.id }] }).findPayment 10 =
      some { succeededPayment with refunds := succeededPayment.refunds ++ [{ stripeRefundId := "re_1", amount := ((4000 : Int) : ℚ) / 100, reason := refundForty.reason, refundedAt := sampleNow, refundedBy := adminUser.id }] } := rfl
  rw [hfind]
  norm_num [succeededPayment, pendingPayment]

/-- C18 (defect): refunds of 40 and then 45 dollars on the succeeded payment of 85
dollars are both carried out and recorded, and together they equal the payment's
amount, yet the stored payment still has status succeeded and the booking is
still confirmed: the route compares each single refund with the full amount,
never the sum of the records, and the booking's save is refused both times. -/
theorem two_partial_refunds_stay_succeeded :
    ((refund (refund storePaid sampleNow adminUser refundForty sampleProvider).store
        (sampleNow + 60000) adminUser refundFortyFive sampleProvider).store.findPayment 10).map
        (fun q => (q.status, q.amount, q.refunds.map (fun x => x.amount))) =
      some ("succeeded", 85, [40, 45]) ∧
    ((40 : ℚ) + 45 = 85) ∧
    ((refund (refund storePaid sampleNow adminUser refundForty sampleProvider).store
        (sampleNow + 60000) adminUser refundFortyFive sampleProvider).store.db.findBooking 1).map
        (fun b => b.status) = some "confirmed" ∧
    (refund (refund storePaid sampleNow adminUser refundForty sampleProvider).store
        (sampleNow + 60000) adminUser refundFortyFive sampleProvider).reply =
      ⟨500, "Failed to process refund"⟩ := by
  have hr1 : sampleProvider
      { payment_intent := succeededPayment.stripePaymentIntentId,
        amount := refundCents refundForty.amount, reason := refundReason refundForty.reason,
        bookingId := confirmedCut.id, refundedBy := adminUser.email } =
      some { id := "re_1", amount := 4000 } := by
    rw [refundCents_forty]
    rfl
  obtain ⟨_, hstore1, _⟩ :=
    refund_partial storePaid sampleNow adminUser refundForty sampleProvider succeededPayment
      confirmedCut { id := "re_1", amount := 4000 } (Or.inl rfl) rfl rfl rfl hr1
      (by norm_num [succeededPayment, pendingPayment])
  rw [hstore1]
  have hr2 : sampleProvider
      { payment_intent := succeededPayment.stripePaymentIntentId,
        amount := refundCents refundFortyFive.amount,
        reason := refundReason refundFortyFive.reason,
        bookingId := confirmedCut.id, refundedBy := adminUser.email } =
      some { id := "re_1", amount := 4500 } := by
    rw [refundCents_fortyFive]
    rfl
  obtain ⟨hreply2, hstore2, _⟩ :=
    refund_partial
      (storePaid.savePayment { succeededPayment with refunds := succeededPayment.refunds ++ [{ stripeRefundId := "re_1", amount := ((4000 : Int) : ℚ) / 100, reason := refundForty.reason, refundedAt := sampleNow, refundedBy := adminUser.id }] })
      (sampleNow + 60000) adminUser refundFortyFive sampleProvider
      { succeededPayment with refunds := succeededPayment.refunds ++ [{ stripeRefundId := "re_1", amount := ((4000 : Int) : ℚ) / 100, reason := refundForty.reason, refundedAt := sampleNow, refundedBy := adminUser.id }] }
      confirmedCut { id := "re_1", amount := 4500 } (Or.inl rfl) rfl rfl rfl hr2
      (by norm_num [succeededPayment, pendingPayment])
  rw [hreply2, hstore2]
  refine ⟨?_, by norm_num, by decide, rfl⟩
  simp only [Store.findPayment, Store.savePayment, storePaid, List.map_cons, List.map_nil,
    beq_self_eq_true, if_true, List.find?_cons, succeededPayment, pendingPayment]
  norm_num


/-! ## The effect of each operation on the booking store -/

theorem createBooking_db (tz : Int) (db : Db) (now : Int) (newId : Nat)
    (req : CreateBookingRequest) :
    (createBooking tz db now newId req).2 = db ∨
    ∃ nb : Booking, (createBooking tz db now newId req).2 =
        { db with bookings := db.bookings ++ [nb] } ∧ nb.id = newId ∧ nb.status = "pending" := by
  by_cases hv : (¬ req.validationErrors.isEmpty = true ∨ timePattern req.time = false)
  · exact Or.inl (by simp only [createBooking, hv, if_true])
  · cases hsv : db.findService req.serviceId with
    | none => exact Or.inl (by simp only [createBooking, hv, hsv, if_false])
    | some service =>
      simp only [createBooking, hv, hsv, if_false]
      split_ifs <;> first
        | exact Or.inl rfl
        | (split <;> first
            | exact Or.inl rfl
            | exact Or.inr ⟨_, rfl, by simp [preSave], by simp [preSave]⟩)

theorem updateStatus_db (db : Db) (now : Int) (user : User) (bookingId : Nat)
    (status : String) :
    (updateStatus db now user bookingId status).2 = db ∨
    ∃ booking : Booking, db.findBooking bookingId = some booking ∧
      (user.role = "admin" ∨ user.role = "stylist") ∧ status ∈ validStatuses ∧
      (updateStatus db now user bookingId status).2 =
        db.saveBooking { booking with status := status, updatedAt := now } := by
  by_cases h1 : user.role ≠ "admin" ∧ user.role ≠ "stylist"
  · left
    rw [updateStatus, if_pos h1]
  · have hrole : user.role = "admin" ∨ user.role = "stylist" := by
      by_contra hcon
      push_neg at hcon
      exact h1 hcon
    by_cases h2 : ¬ validStatuses.contains status = true
    · left
      rw [updateStatus, if_neg h1, if_pos h2]
    · cases hb : db.findBooking bookingId with
      | none =>
        left
        rw [updateStatus, if_neg h1, if_neg h2, hb]
      | some booking =>
        refine Or.inr ⟨booking, rfl, hrole, by simpa using h2, ?_⟩
        rw [updateStatus, if_neg h1, if_neg h2, hb]


theorem cancelBooking_db (tz : Int) (db : Db) (now : Int) (bookingId : Nat)
    (reason : Option String) :
    (cancelBooking tz db now bookingId reason).2 = db ∨
    ∃ booking : Booking, db.findBooking bookingId = some booking ∧
      booking.status ≠ "cancelled" ∧
      (cancelBooking tz db now bookingId reason).2 =
        db.saveBooking { booking with status := "cancelled", cancellationReason := some (reason.getD "Customer cancellation"), cancelledAt := some now, updatedAt := now } := by
  unfold cancelBooking
  cases hb : db.findBooking bookingId with
  | none => exact Or.inl rfl
  | some booking =>
    simp only []
    split_ifs with h1 h2 <;> first
      | exact Or.inl rfl
      | exact Or.inr ⟨booking, rfl, h1, rfl⟩

theorem createPaymentIntent_db (s : Store) (now : Int) (newId : Nat)
    (req : CreatePaymentRequest) (created : Option PaymentIntent) :
    (createPaymentIntent s now newId req created).2.db = s.db ∨
    ∃ booking : Booking, s.db.findBooking req.bookingId = some booking ∧
      (createPaymentIntent s now newId req created).2.db =
        s.db.saveBooking { booking with payment := some newId, paymentStatus := "pending", updatedAt := now } := by
  by_cases hv : ¬ req.validationErrors.isEmpty = true
  · left
    rw [createPaymentIntent, if_pos hv]
  · cases hb : s.db.findBooking req.bookingId with
    | none =>
      left
      rw [createPaymentIntent, if_neg hv]
      simp only [hb]
    | some booking =>
      rw [createPaymentIntent, if_neg hv]
      simp only [hb]
      split_ifs <;> first
        | exact Or.inl rfl
        | (cases created with
            | none => exact Or.inl rfl
            | some paymentIntent => exact Or.inr ⟨booking, rfl, rfl⟩)

theorem confirmPayment_db (s : Store) (now : Int) (paymentIntentId : Option String)
    (retrieved : Option PaymentIntent) :
    (confirmPayment s now paymentIntentId retrieved).2.db = s.db ∨
    ∃ (intentId : String) (intent : PaymentIntent) (p : Payment) (booking : Booking),
      paymentIntentId = some intentId ∧ retrieved = some intent ∧
      intent.status = "succeeded" ∧ s.findPaymentByIntent intentId = some p ∧
      s.db.findBooking p.booking = some booking ∧
      (confirmPayment s now paymentIntentId retrieved).2.db =
        s.db.saveBooking { booking with paymentStatus := "paid", status := "confirmed", updatedAt := now } := by
  cases paymentIntentId with
  | none => exact Or.inl rfl
  | some intentId =>
    cases retrieved with
    | none =>
      left
      simp only [confirmPayment]
      split_ifs <;> rfl
    | some intent =>
      cases hp : s.findPaymentByIntent intentId with
      | none =>
        left
        simp only [confirmPayment, hp]
        split_ifs <;> rfl
      | some p =>
        cases hb : s.db.findBooking p.booking with
        | none =>
          left
          simp only [confirmPayment, hp, hb]
          split_ifs <;> rfl
        | some booking =>
          simp only [confirmPayment, hp, hb]
          split_ifs with hid hs hv <;> first
            | exact Or.inl rfl
            | exact Or.inr ⟨intentId, intent, p, booking, rfl, rfl, hs, hp, hb, rfl⟩

theorem refund_db (s : Store) (now : Int) (user : User) (body : RefundBody)
    (refundsCreate : RefundParams → Option ProviderRefund) :
    (refund s now user body refundsCreate).store.db = s.db ∨
    ∃ (p : Payment) (booking : Booking) (paymentStatus : String),
      (user.role = "admin" ∨ user.role = "stylist") ∧
      s.findPayment body.paymentId = some p ∧ p.status = "succeeded" ∧
      s.db.findBooking p.booking = some booking ∧
      (refund s now user body refundsCreate).store.db =
        s.db.saveBooking { booking with status := "cancelled", paymentStatus := paymentStatus, updatedAt := now } := by
  by_cases h1 : user.role ≠ "admin" ∧ user.role ≠ "stylist"
  · left
    rw [refund, if_pos h1]
  · have hrole : user.role = "admin" ∨ user.role = "stylist" := by
      by_contra hcon
      push_neg at hcon
      exact h1 hcon
    cases hp : s.findPayment body.paymentId with
    | none =>
      left
      rw [refund, if_neg h1]
      simp only [hp]
    | some p =>
      by_cases hst : p.status ≠ "succeeded"
      · left
        rw [refund, if_neg h1]
        simp only [hp, if_pos hst]
      · cases hb : s.db.findBooking p.booking with
        | none =>
          left
          rw [refund, if_neg h1]
          simp only [hp, if_neg hst, hb]
        | some booking =>
          rw [refund, if_neg h1]
          simp only [hp, if_neg hst, hb]
          split
          · exact Or.inl rfl
          · split_ifs <;> first
              | exact Or.inl rfl
              | exact Or.inr ⟨p, booking, _, hrole, rfl, not_not.1 hst, hb, rfl⟩

theorem findBooking_after_save (db : Db) (k : Nat) (booking c : Booking)
    (hk : db.findBooking k = some booking) (hc : c.id = booking.id) (bookingId : Nat)
    (b' : Booking) (h : (db.saveBooking c).findBooking bookingId = some b') :
    (bookingId = k ∧ b' = c) ∨ (bookingId ≠ k ∧ db.findBooking bookingId = some b') := by
  have hbk : booking.id = k := findBooking_id hk
  rw [findBooking_saveBooking_eq] at h
  by_cases hid : c.id = bookingId
  · have hidk : bookingId = k := by rw [← hid, hc, hbk]
    left
    refine ⟨hidk, ?_⟩
    rw [if_pos hid, hidk, hk] at h
    simpa using h.symm
  · right
    rw [if_neg hid] at h
    refine ⟨?_, h⟩
    intro hidk
    exact hid (by rw [hc, hbk, hidk])

theorem findBooking_after_append (db : Db) (nb : Booking) (bookingId : Nat) (b' : Booking)
    (h : Db.findBooking { db with bookings := db.bookings ++ [nb] } bookingId = some b') :
    db.findBooking bookingId = some b' ∨
      (db.findBooking bookingId = none ∧ b' = nb ∧ nb.id = bookingId) := by
  unfold Db.findBooking at h ⊢
  simp only [List.find?_append] at h
  cases hfind : db.bookings.find? (fun b => b.id == bookingId) with
  | some b =>
    left
    rw [hfind] at h
    simpa using h
  | none =>
    right
    rw [hfind] at h
    by_cases hnb : nb.id = bookingId
    · simp [List.find?_cons, hnb] at h
      exact ⟨rfl, h.symm, hnb⟩
    · simp [List.find?_cons, hnb] at h


/-- The ways in which one operation can leave a booking with status `b'.status`
under the identifier `bookingId`. -/
theorem step_status_cases (tz : Int) (s : Store) (now : Int) (op : Op) (bookingId : Nat)
    (b' : Booking)
    (hafter : (step tz s now op).db.findBooking bookingId = some b') :
    (s.db.findBooking bookingId).map (fun b => b.status) = some b'.status ∨
    (s.db.findBooking bookingId = none ∧ b'.status = "pending" ∧
      ∃ req, op = .create bookingId req) ∨
    (∃ user, op = .patchStatus user bookingId b'.status ∧
      (user.role = "admin" ∨ user.role = "stylist") ∧ b'.status ∈ validStatuses) ∨
    (∃ intentId intent p, op = .confirm (some intentId) (some intent) ∧
      intent.status = "succeeded" ∧ s.findPaymentByIntent intentId = some p ∧
      p.booking = bookingId ∧ b'.status = "confirmed") ∨
    (∃ reason b, op = .cancel bookingId reason ∧ s.db.findBooking bookingId = some b ∧
      b.status ≠ "cancelled" ∧ b'.status = "cancelled") ∨
    (∃ user body refundsCreate p, op = .refund user body refundsCreate ∧
      (user.role = "admin" ∨ user.role = "stylist") ∧
      s.findPayment body.paymentId = some p ∧ p.status = "succeeded" ∧
      p.booking = bookingId ∧ b'.status = "cancelled") := by
  cases op with
  | create newId req =>
    simp only [step] at hafter
    rcases createBooking_db tz s.db now newId req with h | ⟨nb, h, hid, hst⟩
    · rw [h] at hafter
      exact Or.inl (by rw [hafter]; rfl)
    · rw [h] at hafter
      rcases findBooking_after_append s.db nb bookingId b' hafter with h1 | ⟨h1, h2, h3⟩
      · exact Or.inl (by rw [h1]; rfl)
      · refine Or.inr (Or.inl ⟨h1, by rw [h2, hst], req, ?_⟩)
        rw [← h3, hid]
  | patchStatus user k status =>
    simp only [step] at hafter
    rcases updateStatus_db s.db now user k status with h | ⟨booking, hk, hrole, hvalid, h⟩
    · rw [h] at hafter
      exact Or.inl (by rw [hafter]; rfl)
    · rw [h] at hafter
      rcases findBooking_after_save s.db k booking _ hk (by rfl) bookingId b' hafter with
        ⟨h1, h2⟩ | ⟨_, h2⟩
      · refine Or.inr (Or.inr (Or.inl ⟨user, ?_, hrole, ?_⟩))
        · rw [h1, h2]
        · rw [h2]; exact hvalid
      · exact Or.inl (by rw [h2]; rfl)
  | cancel k reason =>
    simp only [step] at hafter
    rcases cancelBooking_db tz s.db now k reason with h | ⟨booking, hk, hne, h⟩
    · rw [h] at hafter
      exact Or.inl (by rw [hafter]; rfl)
    · rw [h] at hafter
      rcases findBooking_after_save s.db k booking _ hk (by rfl) bookingId b' hafter with
        ⟨h1, h2⟩ | ⟨_, h2⟩
      · refine Or.inr (Or.inr (Or.inr (Or.inr (Or.inl ⟨reason, booking, ?_, ?_, hne, ?_⟩))))
        · rw [h1]
        · rw [h1]; exact hk
        · rw [h2]
      · exact Or.inl (by rw [h2]; rfl)
  | createIntent newId req created =>
    simp only [step] at hafter
    rcases createPaymentIntent_db s now newId req created with h | ⟨booking, hk, h⟩
    · rw [h] at hafter
      exact Or.inl (by rw [hafter]; rfl)
    · rw [h] at hafter
      rcases findBooking_after_save s.db req.bookingId booking _ hk (by rfl) bookingId b' hafter with
        ⟨h1, h2⟩ | ⟨_, h2⟩
      · exact Or.inl (by rw [h1, hk, h2]; rfl)
      · exact Or.inl (by rw [h2]; rfl)
  | confirm paymentIntentId retrieved =>
    simp only [step] at hafter
    rcases confirmPayment_db s now paymentIntentId retrieved with
      h | ⟨intentId, intent, p, booking, hpid, hret, hs, hp, hk, h⟩
    · rw [h] at hafter
      exact Or.inl (by rw [hafter]; rfl)
    · rw [h] at hafter
      rcases findBooking_after_save s.db p.booking booking _ hk (by rfl) bookingId b' hafter with
        ⟨h1, h2⟩ | ⟨_, h2⟩
      · refine Or.inr (Or.inr (Or.inr (Or.inl ⟨intentId, intent, p, ?_, hs, hp, h1.symm, ?_⟩)))
        · rw [hpid, hret]
        · rw [h2]
      · exact Or.inl (by rw [h2]; rfl)
  | refund user body refundsCreate =>
    simp only [step] at hafter
    rcases refund_db s now user body refundsCreate with
      h | ⟨p, booking, ps, hrole, hp, hst, hk, h⟩
    · rw [h] at hafter
      exact Or.inl (by rw [hafter]; rfl)
    · rw [h] at hafter
      rcases findBooking_after_save s.db p.booking booking _ hk (by rfl) bookingId b' hafter with
        ⟨h1, h2⟩ | ⟨_, h2⟩
      · refine Or.inr (Or.inr (Or.inr (Or.inr (Or.inr
          ⟨user, body, refundsCreate, p, rfl, hrole, hp, hst, h1.symm, ?_⟩))))
        rw [h2]
      · exact Or.inl (by rw [h2]; rfl)

/-! ## Which operations change a status -/

/-- C12 (as stated, refuted): it is not the case that a status becomes confirmed
only in a confirm-payment step with provider status succeeded. The status route,
called by an administrator with the status confirmed, confirms the pending
booking of a state that holds no payment at all. -/
theorem confirmed_without_payment :
    ¬ (∀ (tz : Int) (s : Store) (now : Int) (op : Op) (bookingId : Nat) (b b' : Booking),
        s.db.findBooking bookingId = some b →
        (step tz s now op).db.findBooking bookingId = some b' →
        b.status ≠ "confirmed" → b'.status = "confirmed" →
        ∃ intentId intent, op = .confirm intentId (some intent) ∧
          intent.status = "succeeded") := by
  intro h
  obtain ⟨intentId, intent, hop, _⟩ :=
    h utc { db := dbPendingCut } sampleNow (.patchStatus adminUser 1 "confirmed") 1 pendingCut
      { pendingCut with status := "confirmed", updatedAt := sampleNow }
      rfl rfl (by decide) rfl
  cases hop

/-- C12 (amended): a stored booking's status becomes confirmed only in a
confirm-payment step whose provider status is succeeded and whose payment is
linked to that booking, or in a status-route step by an admin or stylist that
asks for the status confirmed. This covers creation, the status route, the cancel
route, payment-intent creation, payment confirmation and refund, in every
zone. -/
theorem confirmed_only_by_payment_or_status_route (tz : Int) (s : Store) (now : Int) (op : Op)
    (bookingId : Nat) (b' : Booking)
    (hprev : (s.db.findBooking bookingId).map (fun b => b.status) ≠ some "confirmed")
    (hafter : (step tz s now op).db.findBooking bookingId = some b')
    (hc : b'.status = "confirmed") :
    (∃ intentId intent p, op = .confirm (some intentId) (some intent) ∧
      intent.status = "succeeded" ∧ s.findPaymentByIntent intentId = some p ∧
      p.booking = bookingId) ∨
    (∃ user, op = .patchStatus user bookingId "confirmed" ∧
      (user.role = "admin" ∨ user.role = "stylist")) := by
  rcases step_status_cases tz s now op bookingId b' hafter with
    h | ⟨_, h, _⟩ | ⟨user, hop, hrole, _⟩ | ⟨intentId, intent, p, hop, hs, hp, hb, _⟩ |
    ⟨_, _, _, _, _, h⟩ | ⟨_, _, _, _, _, _, _, _, _, h⟩
  · rw [hc] at h
    exact absurd h hprev
  · rw [hc] at h
    exact absurd h (by decide)
  · right
    exact ⟨user, by rw [hop, hc], hrole⟩
  · left
    exact ⟨intentId, intent, p, hop, hs, hp, hb⟩
  · rw [hc] at h
    exact absurd h (by decide)
  · rw [hc] at h
    exact absurd h (by decide)

/-- Witness for C12 (amended): confirming the succeeded intent `pi_1` turns the
pending booking 1 into a confirmed one, through the confirm-payment case. -/
theorem confirmed_only_by_payment_or_status_route_witness :
    (∃ intentId intent p,
      Op.confirm (some "pi_1") (some succeededIntent) = .confirm (some intentId) (some intent) ∧
      intent.status = "succeeded" ∧ storePending.findPaymentByIntent intentId = some p ∧
      p.booking = 1) ∨
    (∃ user, Op.confirm (some "pi_1") (some succeededIntent) = .patchStatus user 1 "confirmed" ∧
      (user.role = "admin" ∨ user.role = "stylist")) :=
  confirmed_only_by_payment_or_status_route utc storePending sampleNow
    (.confirm (some "pi_1") (some succeededIntent)) 1
    { pendingCut with paymentStatus := "paid", status := "confirmed", updatedAt := sampleNow }
    (by decide) rfl rfl

/-- C13 (as stated, refuted): not every status change is one of the listed legal
transitions. The status route, called by an administrator, turns the completed
booking back into a pending one. -/
theorem illegal_transition_by_status_route :
    ¬ (∀ (tz : Int) (s : Store) (now : Int) (op : Op) (bookingId : Nat) (b b' : Booking),
        s.db.findBooking bookingId = some b →
        (step tz s now op).db.findBooking bookingId = some b' →
        b.status ≠ b'.status → legalTransition b.status b'.status = true) := by
  intro h
  have h' := h utc { db := dbCompletedCut } sampleNow (.patchStatus adminUser 1 "pending") 1
    completedCut { completedCut with status := "pending", updatedAt := sampleNow }
    rfl rfl (by decide)
  revert h'
  decide

/-- C13 (amended): every change of the status of a stored booking that is pending
or confirmed, made by an operation other than the privileged status update
(cancel, payment confirmation, refund), is one of the legal transitions pending
to confirmed, confirmed to completed, pending or confirmed to cancelled, pending
or confirmed to no-show. A change made by the status update is made for an admin
or stylist and writes the requested status, which is one of pending, confirmed,
completed, cancelled, no-show, over any previous status. Booking creation and
payment-intent creation change the status of no stored booking, and the cancel
route changes no cancelled booking. What the cancel route does to a completed or
no-show booking, and what payment confirmation and refund do to a booking that
is completed, cancelled or no-show, is not part of this statement. -/
theorem status_change_legal_outside_status_route (tz : Int) (s : Store) (now : Int) (op : Op)
    (bookingId : Nat) (b b' : Booking)
    (hbefore : s.db.findBooking bookingId = some b)
    (hafter : (step tz s now op).db.findBooking bookingId = some b')
    (hchange : b.status ≠ b'.status) :
    ((∀ user k status, op ≠ .patchStatus user k status) →
      (b.status = "pending" ∨ b.status = "confirmed") →
      legalTransition b.status b'.status = true) ∧
    (∀ user k status, op = .patchStatus user k status →
      k = bookingId ∧ status = b'.status ∧ (user.role = "admin" ∨ user.role = "stylist") ∧
      b'.status ∈ validStatuses) ∧
    (∀ newId req, op ≠ .create newId req) ∧
    (∀ newId req created, op ≠ .createIntent newId req created) ∧
    (b.status = "cancelled" → ∀ k reason, op ≠ .cancel k reason) := by
  have hactive : ∀ target : String, (target = "confirmed" ∨ target = "cancelled") →
      b'.status = target → (b.status = "pending" ∨ b.status = "confirmed") →
      legalTransition b.status b'.status = true := by
    intro target htarget hst hact
    rcases htarget with ht | ht <;> rcases hact with ha | ha
    · rw [hst, ht, ha]; decide
    · exact absurd (by rw [hst, ht, ha]) hchange
    · rw [hst, ht, ha]; decide
    · rw [hst, ht, ha]; decide
  rcases step_status_cases tz s now op bookingId b' hafter with
    h | ⟨h, _, _⟩ | ⟨user, hop, hrole, hvalid⟩ | ⟨intentId, intent, p, hop, hs, hp, hb, hst⟩ |
    ⟨reason, b0, hop, hb0, hne, hst⟩ | ⟨user, body, refundsCreate, p, hop, hrole, hp, hps, hb, hst⟩
  · rw [hbefore] at h
    exact absurd (by simpa using h) hchange
  · rw [hbefore] at h
    exact absurd h (by simp)
  · refine ⟨fun hno => absurd hop (hno _ _ _), ?_, ?_, ?_, ?_⟩
    · intro user' k status hop'
      rw [hop] at hop'
      cases hop'
      exact ⟨rfl, rfl, hrole, hvalid⟩
    · intro newId req hop'
      rw [hop] at hop'
      cases hop'
    · intro newId req created hop'
      rw [hop] at hop'
      cases hop'
    · intro _ k reason hop'
      rw [hop] at hop'
      cases hop'
  · refine ⟨fun _ hact => hactive "confirmed" (Or.inl rfl) hst hact, ?_, ?_, ?_, ?_⟩
    · intro user k status hop'
      rw [hop] at hop'
      cases hop'
    · intro newId req hop'
      rw [hop] at hop'
      cases hop'
    · intro newId req created hop'
      rw [hop] at hop'
      cases hop'
    · intro _ k reason hop'
      rw [hop] at hop'
      cases hop'
  · rw [hbefore] at hb0
    have hbb : b = b0 := by simpa using hb0
    refine ⟨fun _ hact => hactive "cancelled" (Or.inr rfl) hst hact, ?_, ?_, ?_, ?_⟩
    · intro user k status hop'
      rw [hop] at hop'
      cases hop'
    · intro newId req hop'
      rw [hop] at hop'
      cases hop'
    · intro newId req created hop'
      rw [hop] at hop'
      cases hop'
    · intro hcan
      exact absurd (hbb ▸ hcan) hne
  · refine ⟨fun _ hact => hactive "cancelled" (Or.inr rfl) hst hact, ?_, ?_, ?_, ?_⟩
    · intro user k status hop'
      rw [hop] at hop'
      cases hop'
    · intro newId req hop'
      rw [hop] at hop'
      cases hop'
    · intro newId req created hop'
      rw [hop] at hop'
      cases hop'
    · intro _ k reason hop'
      rw [hop] at hop'
      cases hop'

/-- Witness for C13 (amended): the cancel route, four days before the
appointment, changes the pending booking 1 to cancelled, a legal transition, and
the step is not a status update. -/
theorem status_change_legal_outside_status_route_witness :
    ((∀ user k status, Op.cancel 1 none ≠ .patchStatus user k status) →
      (pendingCut.status = "pending" ∨ pendingCut.status = "confirmed") →
      legalTransition pendingCut.status "cancelled" = true) ∧
    (∀ user k status, Op.cancel 1 none = .patchStatus user k status →
      k = 1 ∧ status = "cancelled" ∧ (user.role = "admin" ∨ user.role = "stylist") ∧
      "cancelled" ∈ validStatuses) ∧
    (∀ newId req, Op.cancel 1 none ≠ .create newId req) ∧
    (∀ newId req created, Op.cancel 1 none ≠ .createIntent newId req created) ∧
    (pendingCut.status = "cancelled" → ∀ k reason, Op.cancel 1 none ≠ .cancel k reason) :=
  status_change_legal_outside_status_route utc storePending sampleNow (.cancel 1 none) 1
    pendingCut
    { pendingCut with status := "cancelled", cancellationReason := some "Customer cancellation",
                      cancelledAt := some sampleNow, updatedAt := sampleNow }
    rfl
    (by
      have h := (cancel_respects_24h_window utc dbPendingCut sampleNow 1 none pendingCut
        (localDateTime utc tuesday ⟨10, 0⟩) rfl (by decide) (by decide)).2 (by decide)
      exact h.2)
    (by decide)


/-! ## Monotonicity of availability -/

theorem availableSlots_append_sublist (tz day d : Int) (existing : List Booking) (b : Booking)
    (slots : List TimeOfDay) :
    (availableSlots tz day d (existing ++ [b]) slots).Sublist
      (availableSlots tz day d existing slots) := by
  unfold availableSlots
  apply List.monotone_filter_right
  intro slot h
  simp only [List.any_append, Bool.not_eq_true', Bool.or_eq_false_iff] at h
  simpa using h.1

theorem existingBookings_append (tz : Int) (db : Db) (b : Booking) (day : Int) :
    existingBookings tz { db with bookings := db.bookings ++ [b] } day =
      existingBookings tz db day ∨
    existingBookings tz { db with bookings := db.bookings ++ [b] } day =
      existingBookings tz db day ++ [b] := by
  unfold existingBookings
  by_cases h : (onDate tz day b && isActiveStatus b.status) = true
  · right
    simp [List.filter_append, List.filter_cons, h]
  · left
    simp [List.filter_append, List.filter_cons, h]

/-- C30: availability is monotone in the stored bookings. The available slots are
an order-preserving sublist of the candidate slots, they are all the candidate
slots when there is no active booking, and one more booking in the store never
adds a slot, for the filter and for the reply of the route, in every zone. -/
theorem availability_monotone :
    (∀ (tz day d : Int) (existing : List Booking) (slots : List TimeOfDay),
      (availableSlots tz day d existing slots).Sublist slots) ∧
    (∀ (tz day d : Int) (slots : List TimeOfDay), availableSlots tz day d [] slots = slots) ∧
    (∀ (tz day d : Int) (existing : List Booking) (b : Booking) (slots : List TimeOfDay),
      (availableSlots tz day d (existing ++ [b]) slots).Sublist
        (availableSlots tz day d existing slots)) ∧
    (∀ (tz : Int) (db : Db) (now : Int) (date : Option Int) (serviceId : Option Nat),
      (getAvailability tz db now date serviceId).slots.Sublist
        ((timeSlots (availabilityDuration db serviceId)).map TimeOfDay.render)) ∧
    (∀ (tz : Int) (db : Db) (now day : Int) (serviceId : Option Nat) (slots : List String),
      existingBookings tz db day = [] →
      getAvailability tz db now (some day) serviceId = .ok slots →
      slots = (timeSlots (availabilityDuration db serviceId)).map TimeOfDay.render) ∧
    (∀ (tz : Int) (db : Db) (now : Int) (date : Option Int) (serviceId : Option Nat)
        (b : Booking),
      (getAvailability tz { db with bookings := db.bookings ++ [b] } now date
          serviceId).slots.Sublist
        (getAvailability tz db now date serviceId).slots) := by
  refine ⟨?_, ?_, ?_, ?_, ?_, ?_⟩
  · intro tz day d existing slots
    exact List.filter_sublist _
  · intro tz day d slots
    simp [availableSlots]
  · exact availableSlots_append_sublist
  · intro tz db now date serviceId
    cases date with
    | none => simp [getAvailability, AvailabilityReply.slots]
    | some day =>
      simp only [getAvailability]
      split_ifs
      · simp [AvailabilityReply.slots]
      · simp [AvailabilityReply.slots]
      · simp only [AvailabilityReply.slots]
        exact (List.filter_sublist _).map _
  · intro tz db now day serviceId slots hnone hok
    simp only [getAvailability, hnone] at hok
    split_ifs at hok
    simp only [AvailabilityReply.ok.injEq] at hok
    rw [← hok]
    simp [availableSlots]
  · intro tz db now date serviceId b
    cases date with
    | none => simp [getAvailability, AvailabilityReply.slots]
    | some day =>
      have hdur : availabilityDuration { db with bookings := db.bookings ++ [b] } serviceId =
          availabilityDuration db serviceId := rfl
      simp only [getAvailability, hdur]
      split_ifs
      · simp [AvailabilityReply.slots]
      · simp [AvailabilityReply.slots]
      · simp only [AvailabilityReply.slots]
        apply List.Sublist.map
        rcases existingBookings_append tz db b day with h | h
        · rw [h]
        · rw [h]
          exact availableSlots_append_sublist _ _ _ _ _ _

/-- Witness for C30: on the sample Tuesday the store without bookings offers every
candidate slot of the 60-minute service. -/
theorem availability_monotone_witness :
    ["09:00", "09:30", "10:00", "10:30", "11:00", "11:30", "12:00", "12:30", "13:00",
      "13:30", "14:00", "14:30", "15:00", "15:30", "16:00", "16:30", "17:00"] =
      (timeSlots (availabilityDuration dbNoBookings (some 1))).map TimeOfDay.render :=
  availability_monotone.2.2.2.2.1 utc dbNoBookings sampleNow tuesday (some 1) _ rfl
    (by simp only [getAvailability, timeSlots_eq_filter]; decide)

/-! ## Business days and hours -/

theorem getDay_dateOnly (tz day : Int) (h0 : 0 ≤ tz) (h1 : tz < 24 * 60) :
    getDay tz (dateOnly day) = (day + 4) % 7 := by
  unfold getDay dateOnly msPerDay msPerMinute
  omega

theorem getDay_dateOnly_west (tz day : Int) (h0 : -24 * 60 ≤ tz) (h1 : tz < 0) :
    getDay tz (dateOnly day) = (day + 3) % 7 := by
  unfold getDay dateOnly msPerDay msPerMinute
  omega

theorem getDay_localDateTime (tz day : Int) (t : TimeOfDay) (hh : t.hour < 24)
    (hm : t.minute < 60) : getDay tz (localDateTime tz day t) = (day + 4) % 7 := by
  unfold getDay localDateTime TimeOfDay.minutes msPerDay msPerMinute
  omega

theorem getHours_localDateTime (tz day : Int) (t : TimeOfDay) (hh : t.hour < 24)
    (hm : t.minute < 60) : getHours tz (localDateTime tz day t) = t.hour := by
  unfold getHours localDateTime TimeOfDay.minutes msPerDay msPerMinute msPerHour
  omega

/-- The business-day check of the availability route in terms of the weekday
that `getDay` returns for the requested date: for a date that is not in the past
the route answers with an empty slot list and the message `Closed on Sundays and
Mondays` when that weekday is 0 or 1, whatever the service and the stored
bookings; otherwise the reply carries no closure message, and is a slot list when
the date is not in the past. On a server at or east of UTC that weekday is the
weekday of the requested date; on a server west of UTC it is the weekday of the
day before. -/
theorem closed_on_sunday_and_monday (tz : Int) (db : Db) (now day : Int)
    (serviceId : Option Nat) :
    (0 ≤ tz → tz < 24 * 60 → getDay tz (dateOnly day) = (day + 4) % 7) ∧
    (-24 * 60 ≤ tz → tz < 0 → getDay tz (dateOnly day) = (day + 3) % 7) ∧
    (¬ dateOnly day < setHoursZero tz now →
      (getDay tz (dateOnly day) = 0 ∨ getDay tz (dateOnly day) = 1) →
      getAvailability tz db now (some day) serviceId =
        .closed [] "Closed on Sundays and Mondays") ∧
    (¬ (getDay tz (dateOnly day) = 0 ∨ getDay tz (dateOnly day) = 1) →
      ∀ slots message,
        getAvailability tz db now (some day) serviceId ≠ .closed slots message) ∧
    (¬ dateOnly day < setHoursZero tz now →
      ¬ (getDay tz (dateOnly day) = 0 ∨ getDay tz (dateOnly day) = 1) →
      ∃ slots, getAvailability tz db now (some day) serviceId = .ok slots) := by
  refine ⟨getDay_dateOnly tz day, getDay_dateOnly_west tz day, ?_, ?_, ?_⟩
  · intro hpast hday
    simp only [getAvailability, hpast, hday, if_true, if_false]
  · intro hday slots message
    simp only [getAvailability, hday, if_false]
    split_ifs <;> simp
  · intro hpast hday
    simp only [getAvailability, hpast, hday, if_false]
    exact ⟨_, rfl⟩

/-- C25 (defect): on a server five hours west of UTC the availability route
answers `Closed on Sundays and Mondays` for Tuesday 2026-11-10 and returns the
slot list for Sunday 2026-11-08. The requested date is read as UTC midnight and
`getDay` gives the weekday on the local clock, which is still the day before.
The creation route on the same server accepts a booking on that Tuesday, and on
a server that runs on UTC the Tuesday gets its slot list and the Sunday is
closed. -/
theorem availability_weekday_shifts_west_of_utc :
    (tuesday + 4) % 7 = 2 ∧ (sunday + 4) % 7 = 0 ∧
    getDay newYork (dateOnly tuesday) = 1 ∧ getDay newYork (dateOnly sunday) = 6 ∧
    getAvailability newYork dbNoBookings sampleNow (some tuesday) (some 1) =
      .closed [] "Closed on Sundays and Mondays" ∧
    getAvailability newYork dbNoBookings sampleNow (some sunday) (some 1) =
      .ok ["09:00", "09:30", "10:00", "10:30", "11:00", "11:30", "12:00", "12:30", "13:00",
           "13:30", "14:00", "14:30", "15:00", "15:30", "16:00", "16:30", "17:00"] ∧
    (createBooking newYork dbNoBookings sampleNow 2 requestTuesdayCut).1 = ⟨201, ""⟩ ∧
    getAvailability utc dbNoBookings sampleNow (some tuesday) (some 1) =
      .ok ["09:00", "09:30", "10:00", "10:30", "11:00", "11:30", "12:00", "12:30", "13:00",
           "13:30", "14:00", "14:30", "15:00", "15:30", "16:00", "16:30", "17:00"] ∧
    getAvailability utc dbNoBookings sampleNow (some sunday) (some 1) =
      .closed [] "Closed on Sundays and Mondays" := by
  refine ⟨by decide, by decide, by decide, by decide, ?_, ?_, ?_, ?_, ?_⟩
  · simp only [getAvailability, timeSlots_eq_filter]
    decide
  · simp only [getAvailability, timeSlots_eq_filter]
    decide
  · simp only [createBooking, conflictingBooking, ge_iff_le, String.le_iff_toList_le,
      String.lt_iff_toList_lt]
    decide
  · simp only [getAvailability, timeSlots_eq_filter]
    decide
  · simp only [getAvailability, timeSlots_eq_filter]
    decide

/-- C26 (as stated, refuted): the availability route does not answer with an error
for a service duration of 0. For the store whose service has duration 0 it
returns all eighteen grid slots of the sample Tuesday. -/
theorem zero_duration_is_not_rejected :
    ¬ (∀ (tz : Int) (db : Db) (now : Int) (date : Option Int) (serviceId : Option Nat),
        availabilityDuration db serviceId = 0 →
        ∃ code message, getAvailability tz db now date serviceId = .error code message) ∧
    availabilityDuration dbZeroDuration (some 9) = 0 ∧
    getAvailability utc dbZeroDuration sampleNow (some tuesday) (some 9) =
      .ok ["09:00", "09:30", "10:00", "10:30", "11:00", "11:30", "12:00", "12:30", "13:00",
           "13:30", "14:00", "14:30", "15:00", "15:30", "16:00", "16:30", "17:00", "17:30"] := by
  have hev : getAvailability utc dbZeroDuration sampleNow (some tuesday) (some 9) =
      .ok ["09:00", "09:30", "10:00", "10:30", "11:00", "11:30", "12:00", "12:30", "13:00",
           "13:30", "14:00", "14:30", "15:00", "15:30", "16:00", "16:30", "17:00", "17:30"] := by
    simp only [getAvailability, timeSlots_eq_filter]
    decide
  refine ⟨?_, by decide, hev⟩
  intro h
  obtain ⟨code, message, hc⟩ :=
    h utc dbZeroDuration sampleNow (some tuesday) (some 9) (by decide)
  rw [hev] at hc
  cases hc

/-- C26 (amended): the availability route has no check of the service duration.
On a day that is not in the past and that the route does not take for a Sunday or
Monday it returns a slot list for every duration, and for a duration of 0 or less
the candidates are all the grid slots from 09:00 to 17:30, filtered only by the
existing bookings. -/
theorem availability_never_rejects_duration (tz : Int) (db : Db) (now day : Int)
    (serviceId : Option Nat)
    (hpast : ¬ dateOnly day < setHoursZero tz now)
    (hopen : ¬ (getDay tz (dateOnly day) = 0 ∨ getDay tz (dateOnly day) = 1)) :
    getAvailability tz db now (some day) serviceId =
      .ok ((availableSlots tz day (availabilityDuration db serviceId)
        (existingBookings tz db day)
        (timeSlots (availabilityDuration db serviceId))).map TimeOfDay.render) ∧
    (availabilityDuration db serviceId ≤ 0 →
      timeSlots (availabilityDuration db serviceId) = slotGrid) := by
  constructor
  · simp only [getAvailability, hpast, hopen, if_false]
  · intro hd
    rw [timeSlots_eq_filter]
    apply List.filter_eq_self.2
    intro t ht
    have hle : t.minutes ≤ 17 * 60 + 30 := by
      revert t
      decide
    simp only [decide_eq_true_eq]
    omega

/-- Witness for C26 (amended): on the sample Tuesday the store whose service has
duration 0 gets a slot list built from the whole grid. -/
theorem availability_never_rejects_duration_witness :
    getAvailability utc dbZeroDuration sampleNow (some tuesday) (some 9) =
      .ok ((availableSlots utc tuesday (availabilityDuration dbZeroDuration (some 9))
        (existingBookings utc dbZeroDuration tuesday)
        (timeSlots (availabilityDuration dbZeroDuration (some 9)))).map TimeOfDay.render) ∧
    timeSlots (availabilityDuration dbZeroDuration (some 9)) = slotGrid :=
  ⟨(availability_never_rejects_duration utc dbZeroDuration sampleNow tuesday (some 9)
      (by decide) (by decide)).1,
    (availability_never_rejects_duration utc dbZeroDuration sampleNow tuesday (some 9)
      (by decide) (by decide)).2 (by decide)⟩


/-! ## Checks of the creation route -/

/-- For a request that passed validation, names an existing service and whose
time string is read by the `Date` constructor, the start being the instant `t`:
the creation route answers 400 and stores nothing when `t` is not strictly after
now, or else falls on a Sunday or Monday, or else has an hour before 9 or at or
after 18; the checks are made in this order and before the conflict check, so the
answer does not depend on the stored bookings. The weekday and the hour are
those of the request, in every zone. -/
theorem create_rejects_outside_business_time (tz : Int) (db : Db) (now : Int) (newId : Nat)
    (req : CreateBookingRequest) (service : Service) (t : Int)
    (hv : req.validationErrors = []) (hpat : timePattern req.time = true)
    (hs : db.findService req.serviceId = some service)
    (ht : dateTime tz req.date req.time = some t) :
    (t ≤ now →
      createBooking tz db now newId req = (⟨400, "Booking must be in the future"⟩, db)) ∧
    (now < t → (getDay tz t = 0 ∨ getDay tz t = 1) →
      createBooking tz db now newId req =
        (⟨400, "Bookings are only available Tuesday through Saturday"⟩, db)) ∧
    (now < t → ¬ (getDay tz t = 0 ∨ getDay tz t = 1) →
      (getHours tz t < 9 ∨ getHours tz t ≥ 18) →
      createBooking tz db now newId req =
        (⟨400, "Bookings are only available between 9 AM and 6 PM"⟩, db)) ∧
    (∀ tod : TimeOfDay, parseTime req.time = some tod → tod.hour < 24 → tod.minute < 60 →
      getDay tz t = (req.date + 4) % 7 ∧ getHours tz t = tod.hour) := by
  have hval : ¬ (¬ req.validationErrors.isEmpty = true ∨ timePattern req.time = false) := by
    simp [hv, hpat]
  refine ⟨?_, ?_, ?_, ?_⟩
  · intro h
    simp only [createBooking, hval, hs, ht, jsLe_some, h, if_true, if_false]
  · intro h hday
    have h' : ¬ t ≤ now := not_le.2 h
    simp only [createBooking, hval, hs, ht, jsLe_some, h', Option.map_some', Option.some.injEq,
      hday, if_true, if_false]
  · intro h hday hhour
    have h' : ¬ t ≤ now := not_le.2 h
    have hhour' : getHours tz t < 9 ∨ 18 ≤ getHours tz t := hhour
    simp only [createBooking, hval, hs, ht, jsLe_some, jsLt_some, h', Option.map_some',
      Option.some.injEq, hday, hhour', if_true, if_false]
  · intro tod hp hh hm
    have hte : t = localDateTime tz req.date tod := by
      simp only [dateTime, hp, Option.map_some', Option.some.injEq] at ht
      exact ht.symm
    rw [hte]
    exact ⟨getDay_localDateTime _ _ _ hh hm, getHours_localDateTime _ _ _ hh hm⟩

/-- C24 (defect): a request that passes validation for the existing 60-minute
service on Monday 2026-11-09 with the time `"9:30"` is accepted with 201 and
stored. The `Date` built from the date and the time is invalid, so the test for
the past, the test for Sunday or Monday and the test of the hour all compare
with `NaN` and find nothing to reject. With the time written `"09:30"` the same
request is refused because of the weekday. -/
theorem create_accepts_monday_with_one_digit_hour :
    requestMondayEarly.validationErrors = [] ∧ timePattern requestMondayEarly.time = true ∧
    dbNoBookings.findService requestMondayEarly.serviceId = some precisionCut ∧
    (monday + 4) % 7 = 1 ∧
    dateTime utc monday requestMondayEarly.time = none ∧
    (createBooking utc dbNoBookings sampleNow 2 requestMondayEarly).1 = ⟨201, ""⟩ ∧
    (createBooking utc dbNoBookings sampleNow 2 requestMondayEarly).2.bookings.map
        (fun b => (b.id, b.date, b.time, b.status)) =
      [(2, dateOnly monday, "9:30", "pending")] ∧
    createBooking utc dbNoBookings sampleNow 2 { requestMondayEarly with time := "09:30" } =
      (⟨400, "Bookings are only available Tuesday through Saturday"⟩, dbNoBookings) := by
  refine ⟨rfl, by decide, rfl, by decide, by decide, ?_, ?_, ?_⟩
  · simp only [createBooking, conflictingBooking, ge_iff_le, String.le_iff_toList_le,
      String.lt_iff_toList_lt]
    decide
  · simp only [createBooking, conflictingBooking, ge_iff_le, String.le_iff_toList_le,
      String.lt_iff_toList_lt]
    decide
  · exact (create_rejects_outside_business_time utc dbNoBookings sampleNow 2
      { requestMondayEarly with time := "09:30" } precisionCut (localDateTime utc monday ⟨9, 30⟩)
      rfl (by decide) rfl (by decide)).2.1 (by decide) (by decide)

/-- C27: every booking that the creation route stores (the reply is 201) is
appended with the new identifier, status pending and payment status pending,
and its total amount is the price of the service the request names, in every
zone. -/
theorem created_booking_initial_fields (tz : Int) (db : Db) (now : Int) (newId : Nat)
    (req : CreateBookingRequest)
    (h : (createBooking tz db now newId req).1.code = 201) :
    ∃ (service : Service) (nb : Booking),
      db.findService req.serviceId = some service ∧
      (createBooking tz db now newId req).2.bookings = db.bookings ++ [nb] ∧
      (createBooking tz db now newId req).2.services = db.services ∧
      nb.id = newId ∧ nb.status = "pending" ∧ nb.paymentStatus = "pending" ∧
      nb.totalAmount = service.price := by
  by_cases hv : (¬ req.validationErrors.isEmpty = true ∨ timePattern req.time = false)
  · simp only [createBooking, hv, if_true] at h
    exact absurd h (by decide)
  · cases hsv : db.findService req.serviceId with
    | none =>
      simp only [createBooking, hv, hsv, if_false] at h
      exact absurd h (by decide)
    | some service =>
      simp only [createBooking, hv, hsv, if_false] at h ⊢
      split_ifs at h ⊢ <;> first
        | (simp at h; done)
        | (split at h <;> first
            | (simp at h; done)
            | exact ⟨service, _, rfl, rfl, rfl, by simp [preSave], by simp [preSave],
                by simp [preSave], by simp [preSave]⟩)

/-- Witness for C27: the 11:00 consultation request on the store with the colour
appointment is accepted, and the stored booking is pending with the price 35 of
the consultation. -/
theorem created_booking_initial_fields_witness :
    ∃ (service : Service) (nb : Booking),
      dbLongBooking.findService requestAtEleven.serviceId = some service ∧
      (createBooking utc dbLongBooking sampleNow 2 requestAtEleven).2.bookings =
        dbLongBooking.bookings ++ [nb] ∧
      (createBooking utc dbLongBooking sampleNow 2 requestAtEleven).2.services =
        dbLongBooking.services ∧
      nb.id = 2 ∧ nb.status = "pending" ∧ nb.paymentStatus = "pending" ∧
      nb.totalAmount = service.price :=
  created_booking_initial_fields utc dbLongBooking sampleNow 2 requestAtEleven
    (by
      simp only [createBooking, conflictingBooking, ge_iff_le, String.le_iff_toList_le,
        String.lt_iff_toList_lt]
      decide)

/-- C23 (defect): a booking created for the 120-minute colour service is stored
with duration 60, not 120. The schema default 60 is already set when the pre-save
hook runs, so its test for a missing duration is false and the service's duration
is never copied. -/
theorem created_booking_duration_is_default :
    (createBooking utc dbNoBookings sampleNow 2 requestColor).1 = ⟨201, ""⟩ ∧
    (createBooking utc dbNoBookings sampleNow 2 requestColor).2.bookings.map
        (fun b => (b.id, b.service.name, b.service.duration, b.duration)) =
      [(2, "Color Services", 120, 60)] := by
  constructor
  · simp only [createBooking, conflictingBooking, ge_iff_le, String.le_iff_toList_le,
      String.lt_iff_toList_lt]
    decide
  · simp only [createBooking, conflictingBooking, ge_iff_le, String.le_iff_toList_le,
      String.lt_iff_toList_lt]
    decide

/-- C29 (defect): the creation route accepts a 60-minute cut starting at 17:30,
which ends at 18:30, after closing; the slot generator does not produce 17:30 for
a 60-minute service and the availability route does not offer it. The creation
route tests only that the hour of the start is from 9 to 17. -/
theorem create_accepts_start_past_closing :
    (createBooking utc dbNoBookings sampleNow 2 requestLateCut).1 = ⟨201, ""⟩ ∧
    (createBooking utc dbNoBookings sampleNow 2 requestLateCut).2.bookings.map
        (fun b => (b.id, b.time, b.service.duration, b.status)) =
      [(2, "17:30", 60, "pending")] ∧
    localDateTime utc tuesday ⟨18, 0⟩ < localDateTime utc tuesday ⟨17, 30⟩ + 60 * 60 * 1000 ∧
    (⟨17, 30⟩ : TimeOfDay) ∉ timeSlots 60 ∧
    getAvailability utc dbNoBookings sampleNow (some tuesday) (some 1) =
      .ok ["09:00", "09:30", "10:00", "10:30", "11:00", "11:30", "12:00", "12:30", "13:00",
           "13:30", "14:00", "14:30", "15:00", "15:30", "16:00", "16:30", "17:00"] := by
  refine ⟨?_, ?_, by decide, ?_, ?_⟩
  · simp only [createBooking, conflictingBooking, ge_iff_le, String.le_iff_toList_le,
      String.lt_iff_toList_lt]
    decide
  · simp only [createBooking, conflictingBooking, ge_iff_le, String.le_iff_toList_le,
      String.lt_iff_toList_lt]
    decide
  · rw [timeSlots_eq_filter]
    decide
  · simp only [getAvailability, timeSlots_eq_filter]
    decide

/-! ## Creation of a payment intent -/

theorem mathRound_eightyFive : mathRound ((85 : ℚ) * 100) = 8500 := by
  have h : (85 : ℚ) * 100 = ((8500 : Int) : ℚ) := by norm_num
  rw [h, mathRound_intCast]

theorem intentRequest_matches :
    ¬ (pendingCut.paymentStatus = "paid" ∨
      intentRequest.amount ≠ (mathRound (pendingCut.totalAmount * 100) : ℚ)) := by
  have h85 : pendingCut.totalAmount = 85 := rfl
  intro hx
  rcases hx with hx | hx
  · exact absurd hx (by decide)
  · apply hx
    rw [h85, mathRound_eightyFive]
    norm_num [intentRequest]

/-- C22 (as stated, refuted): a validated request on an existing, unpaid booking
with the matching amount does not always store a payment. When the provider's
call to create the intent throws, the route answers 500 and stores nothing. -/
theorem create_intent_may_store_nothing :
    ¬ (∀ (s : Store) (now : Int) (newId : Nat) (req : CreatePaymentRequest)
        (created : Option PaymentIntent) (b : Booking),
        req.validationErrors = [] → s.db.findBooking req.bookingId = some b →
        ¬ (b.paymentStatus = "paid" ∨ req.amount ≠ (mathRound (b.totalAmount * 100) : ℚ)) →
        ∃ p ∈ (createPaymentIntent s now newId req created).2.payments,
          p.id = newId ∧ p.status = "pending") := by
  intro h
  have hamount := intentRequest_matches
  obtain ⟨p, hp, _⟩ := h storeUnpaid sampleNow 11 intentRequest none pendingCut rfl rfl hamount
  have hstore : (createPaymentIntent storeUnpaid sampleNow 11 intentRequest none).2 =
      storeUnpaid := by
    have hb : storeUnpaid.db.findBooking intentRequest.bookingId = some pendingCut := rfl
    have hne : ¬ pendingCut.paymentStatus = "paid" := by decide
    have heq : ¬ intentRequest.amount ≠ (mathRound (pendingCut.totalAmount * 100) : ℚ) :=
      fun hx => hamount (Or.inr hx)
    have hv : intentRequest.validationErrors = [] := rfl
    simp only [createPaymentIntent, hv, hb, hne, heq, List.isEmpty_nil,
      not_true_eq_false, if_false]
  rw [hstore] at hp
  simp [storeUnpaid] at hp

/-- C22 (amended): for a validated request on an existing booking, the route
answers 400 exactly when the booking's payment status is already paid or the
submitted amount differs from `round(totalAmount * 100)`, and then the state is
unchanged. Otherwise, when the provider creates the intent, it answers 200,
stores a pending payment for `amount / 100` and links it to the booking with
payment status pending; when the provider's call throws, it answers 500 and the
state is unchanged. -/
theorem create_intent_outcomes (s : Store) (now : Int) (newId : Nat)
    (req : CreatePaymentRequest) (created : Option PaymentIntent) (b : Booking)
    (hv : req.validationErrors = []) (hb : s.db.findBooking req.bookingId = some b) :
    ((createPaymentIntent s now newId req created).1.code = 400 ↔
      (b.paymentStatus = "paid" ∨ req.amount ≠ (mathRound (b.totalAmount * 100) : ℚ))) ∧
    ((b.paymentStatus = "paid" ∨ req.amount ≠ (mathRound (b.totalAmount * 100) : ℚ)) →
      (createPaymentIntent s now newId req created).2 = s) ∧
    (¬ (b.paymentStatus = "paid" ∨ req.amount ≠ (mathRound (b.totalAmount * 100) : ℚ)) →
      ∀ intent, created = some intent →
        (createPaymentIntent s now newId req created).1 = ⟨200, ""⟩ ∧
        (createPaymentIntent s now newId req created).2.payments =
          s.payments ++ [{ id := newId, stripePaymentIntentId := intent.id, booking := req.bookingId, amount := req.amount / 100, currency := req.currency.getD "usd", status := "pending", customerEmail := req.customerEmail, customerName := req.customerName }] ∧
        (createPaymentIntent s now newId req created).2.db.findBooking req.bookingId =
          some { b with payment := some newId, paymentStatus := "pending", updatedAt := now }) ∧
    (¬ (b.paymentStatus = "paid" ∨ req.amount ≠ (mathRound (b.totalAmount * 100) : ℚ)) →
      created = none →
      createPaymentIntent s now newId req created =
        (⟨500, "Failed to create payment intent"⟩, s)) := by
  by_cases hpaid : b.paymentStatus = "paid"
  · have hr : createPaymentIntent s now newId req created =
        (⟨400, "Booking is already paid"⟩, s) := by
      simp [createPaymentIntent, hv, hb, hpaid]
    rw [hr]
    exact ⟨⟨fun _ => Or.inl hpaid, fun _ => rfl⟩, fun _ => rfl,
      fun h => absurd (Or.inl hpaid) h, fun h => absurd (Or.inl hpaid) h⟩
  · by_cases hamt : req.amount ≠ (mathRound (b.totalAmount * 100) : ℚ)
    · have hr : createPaymentIntent s now newId req created =
          (⟨400, "Payment amount does not match booking total"⟩, s) := by
        simp only [createPaymentIntent, hv, hb, hpaid, hamt, List.isEmpty_nil,
          not_true_eq_false, if_false, if_true, ne_eq, not_false_eq_true]
      rw [hr]
      exact ⟨⟨fun _ => Or.inr hamt, fun _ => rfl⟩, fun _ => rfl,
        fun h => absurd (Or.inr hamt) h, fun h => absurd (Or.inr hamt) h⟩
    · have hno : ¬ (b.paymentStatus = "paid" ∨
          req.amount ≠ (mathRound (b.totalAmount * 100) : ℚ)) := fun h => h.elim hpaid hamt
      cases created with
      | none =>
        have hr : createPaymentIntent s now newId req none =
            (⟨500, "Failed to create payment intent"⟩, s) := by
          simp only [createPaymentIntent, hv, hb, hpaid, hamt, List.isEmpty_nil,
            not_true_eq_false, if_false]
        rw [hr]
        refine ⟨⟨fun h => absurd h (by simp), fun h => absurd h hno⟩,
          fun h => absurd h hno, fun _ intent hi => (by cases hi), fun _ _ => rfl⟩
      | some intent =>
        have hr : createPaymentIntent s now newId req (some intent) =
            (⟨200, ""⟩, { payments := s.payments ++ [{ id := newId, stripePaymentIntentId := intent.id, booking := req.bookingId, amount := req.amount / 100, currency := req.currency.getD "usd", status := "pending", customerEmail := req.customerEmail, customerName := req.customerName }], db := s.db.saveBooking { b with payment := some newId, paymentStatus := "pending", updatedAt := now } }) := by
          simp only [createPaymentIntent, hv, hb, hpaid, hamt, List.isEmpty_nil,
            not_true_eq_false, if_false]
        rw [hr]
        refine ⟨⟨fun h => absurd h (by simp), fun h => absurd h hno⟩,
          fun h => absurd h hno, ?_, fun _ hc => (by cases hc)⟩
        intro _ intent' hi
        cases hi
        refine ⟨rfl, rfl, ?_⟩
        exact findBooking_saveBooking s.db req.bookingId b _ hb (findBooking_id (b := b) hb)

/-- Witness for C22 (amended): for the pending booking of 85 dollars and a request
of 8500 cents, the route stores a pending payment of 85 dollars and links it when
the provider creates the intent `pi_2`, and answers 500 without storing anything
when the provider's call throws. -/
theorem create_intent_outcomes_witness :
    ((createPaymentIntent storeUnpaid sampleNow 11 intentRequest
        (some { id := "pi_2", client_secret := "cs_2" })).1 = ⟨200, ""⟩ ∧
      (createPaymentIntent storeUnpaid sampleNow 11 intentRequest
        (some { id := "pi_2", client_secret := "cs_2" })).2.payments =
        storeUnpaid.payments ++ [{ id := 11, stripePaymentIntentId := (PaymentIntent.mk "pi_2" "requires_payment_method" none "cs_2").id, booking := intentRequest.bookingId, amount := intentRequest.amount / 100, currency := intentRequest.currency.getD "usd", status := "pending", customerEmail := intentRequest.customerEmail, customerName := intentRequest.customerName }] ∧
      (createPaymentIntent storeUnpaid sampleNow 11 intentRequest
        (some { id := "pi_2", client_secret := "cs_2" })).2.db.findBooking
          intentRequest.bookingId =
        some { pendingCut with payment := some 11, paymentStatus := "pending", updatedAt := sampleNow }) ∧
    createPaymentIntent storeUnpaid sampleNow 11 intentRequest none =
      (⟨500, "Failed to create payment intent"⟩, storeUnpaid) :=
  ⟨(create_intent_outcomes storeUnpaid sampleNow 11 intentRequest
      (some { id := "pi_2", client_secret := "cs_2" }) pendingCut rfl rfl).2.2.1
      intentRequest_matches _ rfl,
    (create_intent_outcomes storeUnpaid sampleNow 11 intentRequest none pendingCut
      rfl rfl).2.2.2 intentRequest_matches rfl⟩


/-! ## Rounding of stored amounts -/

theorem roundHalfEven_eq (x : ℚ) (m : Int) (h1 : (m : ℚ) - 1 / 2 < x) (h2 : x < m + 1 / 2) :
    roundHalfEven x = m := by
  have hf1 : ((⌊x⌋ : Int) : ℚ) ≤ x := Int.floor_le x
  have hf2 : x < (⌊x⌋ : Int) + 1 := Int.lt_floor_add_one x
  unfold roundHalfEven
  simp only []
  split_ifs with ha hb hc
  · have h3 : (m : ℚ) < (⌊x⌋ : Int) + 1 := by linarith
    have h4 : ((⌊x⌋ : Int) : ℚ) < m + 1 := by linarith
    have h3' : m < ⌊x⌋ + 1 := by exact_mod_cast h3
    have h4' : ⌊x⌋ < m + 1 := by exact_mod_cast h4
    omega
  · have h3 : ((⌊x⌋ : Int) : ℚ) < m := by linarith
    have h4 : (m : ℚ) < (⌊x⌋ : Int) + 2 := by linarith
    have h3' : ⌊x⌋ < m := by exact_mod_cast h3
    have h4' : m < ⌊x⌋ + 2 := by exact_mod_cast h4
    omega
  · have he : x - (⌊x⌋ : Int) = 1 / 2 := le_antisymm (not_lt.1 hb) (not_lt.1 ha)
    have h3 : ((⌊x⌋ : Int) : ℚ) < m := by linarith
    have h4 : (m : ℚ) < (⌊x⌋ : Int) + 1 := by linarith
    have h3' : ⌊x⌋ < m := by exact_mod_cast h3
    have h4' : m < ⌊x⌋ + 1 := by exact_mod_cast h4
    omega
  · have he : x - (⌊x⌋ : Int) = 1 / 2 := le_antisymm (not_lt.1 hb) (not_lt.1 ha)
    have h3 : ((⌊x⌋ : Int) : ℚ) < m := by linarith
    have h4 : (m : ℚ) < (⌊x⌋ : Int) + 1 := by linarith
    have h3' : ⌊x⌋ < m := by exact_mod_cast h3
    have h4' : m < ⌊x⌋ + 1 := by exact_mod_cast h4
    omega

theorem roundHalfEven_error (x : ℚ) : |(roundHalfEven x : ℚ) - x| ≤ 1 / 2 := by
  have hf1 : ((⌊x⌋ : Int) : ℚ) ≤ x := Int.floor_le x
  have hf2 : x < (⌊x⌋ : Int) + 1 := Int.lt_floor_add_one x
  unfold roundHalfEven
  simp only []
  rw [abs_le]
  split_ifs with ha hb hc
  · constructor <;> linarith
  · push_cast
    constructor <;> linarith
  · have he : x - (⌊x⌋ : Int) = 1 / 2 := le_antisymm (not_lt.1 hb) (not_lt.1 ha)
    constructor <;> linarith
  · have he : x - (⌊x⌋ : Int) = 1 / 2 := le_antisymm (not_lt.1 hb) (not_lt.1 ha)
    push_cast
    constructor <;> linarith

theorem log_two_eq (x : ℚ) (e : Int) (hx : 0 < x) (hlo : (2 : ℚ) ^ e ≤ x)
    (hhi : x < (2 : ℚ) ^ (e + 1)) : Int.log 2 x = e := by
  have h1 : e ≤ Int.log 2 x :=
    (Int.zpow_le_iff_le_log (by norm_num : 1 < 2) hx).1 (by exact_mod_cast hlo)
  have h2 : Int.log 2 x < e + 1 :=
    (Int.lt_zpow_iff_log_lt (by norm_num : 1 < 2) hx).1 (by exact_mod_cast hhi)
  omega

theorem toDouble_eq (x : ℚ) (e m : Int) (hx : 0 < x) (hlo : (2 : ℚ) ^ e ≤ x)
    (hhi : x < (2 : ℚ) ^ (e + 1)) (h1 : (m : ℚ) - 1 / 2 < x / 2 ^ (e - 52))
    (h2 : x / 2 ^ (e - 52) < m + 1 / 2) : toDouble x = m * 2 ^ (e - 52) := by
  unfold toDouble
  simp only [ne_of_gt hx, if_false, abs_of_pos hx, log_two_eq x e hx hlo hhi]
  rw [roundHalfEven_eq _ m h1 h2]

theorem toDouble_error (x : ℚ) (hx : 0 < x) : |toDouble x - x| ≤ x / 2 ^ 53 := by
  unfold toDouble
  simp only [ne_of_gt hx, if_false, abs_of_pos hx]
  have hlog : (2 : ℚ) ^ Int.log 2 x ≤ x := by
    have := Int.zpow_log_le_self (R := ℚ) (b := 2) (r := x) (by norm_num) hx
    exact_mod_cast this
  have hu : (0 : ℚ) < 2 ^ (Int.log 2 x - 52) := zpow_pos (by norm_num) _
  have hr := roundHalfEven_error (x / 2 ^ (Int.log 2 x - 52))
  have hsplit : (roundHalfEven (x / 2 ^ (Int.log 2 x - 52)) : ℚ) * 2 ^ (Int.log 2 x - 52) - x =
      ((roundHalfEven (x / 2 ^ (Int.log 2 x - 52)) : ℚ) - x / 2 ^ (Int.log 2 x - 52)) *
        2 ^ (Int.log 2 x - 52) := by
    field_simp
  rw [hsplit, abs_mul, abs_of_pos hu]
  have hpow : (2 : ℚ) ^ (Int.log 2 x - 52) = 2 ^ Int.log 2 x / 2 ^ 52 := by
    rw [zpow_sub₀ (by norm_num : (2 : ℚ) ≠ 0)]
    norm_num
  calc |(roundHalfEven (x / 2 ^ (Int.log 2 x - 52)) : ℚ) - x / 2 ^ (Int.log 2 x - 52)| *
        2 ^ (Int.log 2 x - 52)
      ≤ 1 / 2 * 2 ^ (Int.log 2 x - 52) := mul_le_mul_of_nonneg_right hr (le_of_lt hu)
    _ = 2 ^ Int.log 2 x / 2 ^ 53 := by rw [hpow]; ring
    _ ≤ x / 2 ^ 53 := by
      apply div_le_div_of_nonneg_right hlog
      positivity

theorem toDouble_zero : toDouble 0 = 0 := by simp [toDouble]

theorem toCents_cents (c : Int) (h0 : 0 ≤ c) (h1 : c < 2 ^ 50) : toCents ((c : ℚ) / 100) = c := by
  rcases eq_or_lt_of_le h0 with h | h
  · subst h
    simp [toCents, toDouble_zero, mathRound]
    norm_num
  · have hc : (0 : ℚ) < c := by exact_mod_cast h
    have hc1 : (1 : ℚ) ≤ c := by exact_mod_cast h
    have hcb : (c : ℚ) < 2 ^ 50 := by exact_mod_cast h1
    have hx : (0 : ℚ) < (c : ℚ) / 100 := by positivity
    have e1 := toDouble_error ((c : ℚ) / 100) hx
    rw [abs_le] at e1
    have hy : (0 : ℚ) < toDouble ((c : ℚ) / 100) * 100 := by
      have : (c : ℚ) / 100 / 2 ^ 53 < (c : ℚ) / 100 := by
        apply div_lt_self hx
        norm_num
      nlinarith [e1.1, e1.2]
    have e2 := toDouble_error (toDouble ((c : ℚ) / 100) * 100) hy
    rw [abs_le] at e2
    unfold toCents mathRound
    rw [Int.floor_eq_iff]
    have k1 : (c : ℚ) / 100 / 2 ^ 53 * 100 = c / 2 ^ 53 := by ring
    have k2 : (c : ℚ) / 2 ^ 53 < 1 / 8 := by
      rw [div_lt_iff₀ (by positivity)]
      calc (c : ℚ) < 2 ^ 50 := hcb
        _ = 1 / 8 * 2 ^ 53 := by norm_num
    have k3 : toDouble ((c : ℚ) / 100) * 100 ≤ c + c / 2 ^ 53 := by nlinarith [e1.2]
    have k4 : (c : ℚ) - c / 2 ^ 53 ≤ toDouble ((c : ℚ) / 100) * 100 := by nlinarith [e1.1]
    have k5 : (toDouble ((c : ℚ) / 100) * 100) / 2 ^ 53 ≤ (c + c / 2 ^ 53) / 2 ^ 53 := by
      apply div_le_div_of_nonneg_right k3
      positivity
    have k6 : ((c : ℚ) + c / 2 ^ 53) / 2 ^ 53 < 1 / 4 := by
      rw [div_lt_iff₀ (by positivity)]
      have : (c : ℚ) + c / 2 ^ 53 < 2 ^ 50 + 1 / 8 := by linarith
      calc (c : ℚ) + c / 2 ^ 53 < 2 ^ 50 + 1 / 8 := this
        _ ≤ 1 / 4 * 2 ^ 53 := by norm_num
    constructor <;> linarith [e2.1, e2.2]



theorem roundHalfEven_tie_odd (f : Int) (hodd : f % 2 = 1) :
    roundHalfEven ((f : ℚ) + 1 / 2) = f + 1 := by
  have hfl : ⌊(f : ℚ) + 1 / 2⌋ = f := by
    rw [Int.floor_eq_iff]
    constructor <;> linarith
  unfold roundHalfEven
  simp only [hfl]
  have h1 : ¬ ((f : ℚ) + 1 / 2 - f < 1 / 2) := by
    intro h
    linarith
  have h2 : ¬ ((1 : ℚ) / 2 < (f : ℚ) + 1 / 2 - f) := by
    intro h
    linarith
  have h3 : ¬ (f % 2 = 0) := by omega
  rw [if_neg h1, if_neg h2, if_neg h3]

theorem toDouble_eq_tie (x : ℚ) (e f : Int) (hx : 0 < x) (hlo : (2 : ℚ) ^ e ≤ x)
    (hhi : x < (2 : ℚ) ^ (e + 1)) (ht : x / 2 ^ (e - 52) = (f : ℚ) + 1 / 2)
    (hodd : f % 2 = 1) : toDouble x = ((f + 1 : Int) : ℚ) * 2 ^ (e - 52) := by
  unfold toDouble
  simp only [ne_of_gt hx, if_false, abs_of_pos hx, log_two_eq x e hx hlo hhi]
  rw [ht, roundHalfEven_tie_odd f hodd]

theorem toDouble_double (e m : Int) (hlo : (2 : ℚ) ^ (52 : Int) ≤ m) (hhi : (m : ℚ) < 2 ^ (53 : Int)) :
    toDouble ((m : ℚ) * 2 ^ (e - 52)) = (m : ℚ) * 2 ^ (e - 52) := by
  have hu : (0 : ℚ) < 2 ^ (e - 52) := zpow_pos (by norm_num) _
  have hm : (0 : ℚ) < m := lt_of_lt_of_le (zpow_pos (by norm_num) _) hlo
  have he : (2 : ℚ) ^ e = 2 ^ (52 : Int) * 2 ^ (e - 52) := by
    rw [← zpow_add₀ (by norm_num : (2 : ℚ) ≠ 0)]
    congr 1
    ring
  have he1 : (2 : ℚ) ^ (e + 1) = 2 ^ (53 : Int) * 2 ^ (e - 52) := by
    rw [← zpow_add₀ (by norm_num : (2 : ℚ) ≠ 0)]
    congr 1
    ring
  have hq : (m : ℚ) * 2 ^ (e - 52) / 2 ^ (e - 52) = m := by field_simp
  apply toDouble_eq _ e m (by positivity)
  · rw [he]
    exact mul_le_mul_of_nonneg_right hlo (le_of_lt hu)
  · rw [he1]
    exact mul_lt_mul_of_pos_right hhi hu
  · rw [hq]; linarith
  · rw [hq]; linarith

theorem toDouble_sixteen_ten :
    toDouble (1610 / 100) = 4531747125041562 * 2 ^ (4 - 52 : Int) :=
  toDouble_eq (1610 / 100) 4 4531747125041562 (by norm_num) (by norm_num) (by norm_num)
    (by norm_num) (by norm_num)

theorem toDouble_forty_eight_twenty :
    toDouble (4820 / 100) = 6783546938726810 * 2 ^ (5 - 52 : Int) :=
  toDouble_eq (4820 / 100) 5 6783546938726810 (by norm_num) (by norm_num) (by norm_num)
    (by norm_num) (by norm_num)

theorem toDouble_twenty_seventy :
    toDouble (2070 / 100) = 5826532017910579 * 2 ^ (4 - 52 : Int) :=
  toDouble_eq (2070 / 100) 4 5826532017910579 (by norm_num) (by norm_num) (by norm_num)
    (by norm_num) (by norm_num)

theorem toDouble_eighty_five : toDouble 85 = 85 := by
  have h := toDouble_eq 85 6 5981343255101440 (by norm_num) (by norm_num) (by norm_num)
    (by norm_num) (by norm_num)
  rw [h]
  norm_num

theorem sumDoubles_rounding :
    sumDoubles [toDouble (1610 / 100), toDouble (4820 / 100), toDouble (2070 / 100)] =
      5981343255101441 * 2 ^ (6 - 52 : Int) := by
  have h1 : toDouble (0 + toDouble (1610 / 100)) = 4531747125041562 * 2 ^ (4 - 52 : Int) := by
    rw [zero_add, toDouble_sixteen_ten]
    exact_mod_cast toDouble_double 4 4531747125041562 (by norm_num) (by norm_num)
  have h2 : toDouble (4531747125041562 * 2 ^ (4 - 52 : Int) + toDouble (4820 / 100)) =
      4524710250623796 * 2 ^ (6 - 52 : Int) := by
    rw [toDouble_forty_eight_twenty]
    have h := toDouble_eq_tie
      (4531747125041562 * 2 ^ (4 - 52 : Int) + 6783546938726810 * 2 ^ (5 - 52 : Int)) 6
      4524710250623795 (by norm_num) (by norm_num) (by norm_num) (by norm_num) (by decide)
    rw [h]
    norm_num
  have h3 : toDouble (4524710250623796 * 2 ^ (6 - 52 : Int) + toDouble (2070 / 100)) =
      5981343255101441 * 2 ^ (6 - 52 : Int) := by
    rw [toDouble_twenty_seventy]
    exact toDouble_eq _ 6 5981343255101441 (by norm_num) (by norm_num) (by norm_num)
      (by norm_num) (by norm_num)
  simp only [sumDoubles, List.foldl_cons, List.foldl_nil, h1, h2, h3]


/-! ## The amount invariant of refunds -/

theorem refundCents_cents (c : Int) (hc : c ≠ 0) :
    refundCents (some ((c : ℚ) / 100)) = some c := by
  have h0 : ¬ ((c : ℚ) / 100 = 0) := by
    have : (c : ℚ) ≠ 0 := by exact_mod_cast hc
    intro h
    apply this
    linarith
  have h : (c : ℚ) / 100 * 100 = (c : ℚ) := by ring
  simp only [refundCents, h0, if_false, h, mathRound_intCast]

theorem ledgerAfter_nil (ledger : String → Int)
    (refundsCreate : RefundParams → Option ProviderRefund) :
    ledgerAfter ledger refundsCreate [] = ledger := rfl

theorem ledgerAfter_refused (ledger : String → Int)
    (refundsCreate : RefundParams → Option ProviderRefund) (q : RefundParams)
    (h : refundsCreate q = none) : ledgerAfter ledger refundsCreate [q] = ledger := by
  simp [ledgerAfter, h]

theorem ledgerAfter_granted (ledger : String → Int)
    (refundsCreate : RefundParams → Option ProviderRefund) (q : RefundParams)
    (r : ProviderRefund) (h : refundsCreate q = some r) :
    ledgerAfter ledger refundsCreate [q] =
      fun i => if i = q.payment_intent then ledger i + r.amount else ledger i := by
  simp [ledgerAfter, h]

/-- The two outcomes of the refund route on the payments and on the provider's
books: nothing is recorded and the provider has refunded nothing, or the provider
has refunded `r` on the intent of the payment `p` and exactly one record of
`r.amount / 100` dollars is appended to `p`. -/
theorem refund_outcome (s : Store) (now : Int) (user : User) (body : RefundBody)
    (refundsCreate : RefundParams → Option ProviderRefund) :
    ((refund s now user body refundsCreate).store.payments = s.payments ∧
      ∀ ledger : String → Int,
        ledgerAfter ledger refundsCreate (refund s now user body refundsCreate).requested =
          ledger) ∨
    ∃ (p : Payment) (q : RefundParams) (r : ProviderRefund) (status : String),
      s.findPayment body.paymentId = some p ∧
      q.payment_intent = p.stripePaymentIntentId ∧
      refundsCreate q = some r ∧
      (refund s now user body refundsCreate).requested = [q] ∧
      (refund s now user body refundsCreate).store.payments =
        (s.savePayment { p with refunds := p.refunds ++ [{ stripeRefundId := r.id, amount := (r.amount : ℚ) / 100, reason := body.reason, refundedAt := now, refundedBy := user.id }], status := status }).payments := by
  by_cases h1 : user.role ≠ "admin" ∧ user.role ≠ "stylist"
  · left
    have hrun : refund s now user body refundsCreate = ⟨⟨403, "Access denied"⟩, s, []⟩ := by
      rw [refund, if_pos h1]
    rw [hrun]
    exact ⟨rfl, fun _ => rfl⟩
  · cases hp : s.findPayment body.paymentId with
    | none =>
      left
      have hrun : refund s now user body refundsCreate =
          ⟨⟨404, "Payment not found"⟩, s, []⟩ := by
        rw [refund, if_neg h1]
        simp only [hp]
      rw [hrun]
      exact ⟨rfl, fun _ => rfl⟩
    | some p =>
      by_cases hst : p.status ≠ "succeeded"
      · left
        have hrun : refund s now user body refundsCreate =
            ⟨⟨400, "Cannot refund unsuccessful payment"⟩, s, []⟩ := by
          rw [refund, if_neg h1]
          simp only [hp, if_pos hst]
        rw [hrun]
        exact ⟨rfl, fun _ => rfl⟩
      · cases hb : s.db.findBooking p.booking with
        | none =>
          left
          have hrun : refund s now user body refundsCreate =
              ⟨⟨500, "Failed to process refund"⟩, s, []⟩ := by
            rw [refund, if_neg h1]
            simp only [hp, if_neg hst, hb]
          rw [hrun]
          exact ⟨rfl, fun _ => rfl⟩
        | some b =>
          cases hr : refundsCreate
              { payment_intent := p.stripePaymentIntentId, amount := refundCents body.amount,
                reason := refundReason body.reason, bookingId := b.id,
                refundedBy := user.email } with
          | none =>
            left
            have hrun : refund s now user body refundsCreate =
                ⟨⟨500, "Failed to process refund"⟩, s,
                  [{ payment_intent := p.stripePaymentIntentId,
                     amount := refundCents body.amount, reason := refundReason body.reason,
                     bookingId := b.id, refundedBy := user.email }]⟩ := by
              rw [refund, if_neg h1]
              simp only [hp, if_neg hst, hb, hr]
            rw [hrun]
            exact ⟨rfl, fun ledger => ledgerAfter_refused ledger refundsCreate _ hr⟩
          | some r =>
            right
            rw [refund, if_neg h1]
            simp only [hp, if_neg hst, hb, hr]
            by_cases hfull : (r.amount : ℚ) = p.amount * 100
            · refine ⟨p, _, r, "refunded", rfl, rfl, hr, ?_, ?_⟩
              · simp only [hfull, if_true]
                split_ifs <;> rfl
              · simp only [hfull, if_true]
                split_ifs <;> rfl
            · refine ⟨p, _, r, p.status, rfl, rfl, hr, ?_, ?_⟩
              · simp only [hfull, if_false]
                split_ifs <;> rfl
              · simp only [hfull, if_false]
                split_ifs <;> rfl

theorem findPayment_mem {s : Store} {paymentId : Nat} {p : Payment}
    (h : s.findPayment paymentId = some p) : p ∈ s.payments :=
  List.mem_of_find?_eq_some h

theorem booksAgree_of_fresh (charged : String → Int) (s : Store)
    (h : freshPayments charged s) : booksAgree charged (fun _ => 0) s := by
  intro p hp
  obtain ⟨hr, ha, h0, h1⟩ := h p hp
  exact ⟨ha, h0, h1, h0, [], by simp [hr], by simp, by simp⟩

theorem refund_keeps_books (charged ledger : String → Int) (s : Store) (now : Int)
    (user : User) (body : RefundBody) (refundsCreate : RefundParams → Option ProviderRefund)
    (hagree : booksAgree charged ledger s)
    (hprov : ∀ q r, refundsCreate q = some r →
      0 ≤ r.amount ∧ ledger q.payment_intent + r.amount ≤ charged q.payment_intent) :
    booksAgree charged
      (ledgerAfter ledger refundsCreate (refund s now user body refundsCreate).requested)
      (refund s now user body refundsCreate).store := by
  rcases refund_outcome s now user body refundsCreate with
    ⟨hpay, hled⟩ | ⟨p, q, r, status, hp, hq, hr, hreq, hpay⟩
  · intro x hx
    rw [hpay] at hx
    rw [hled ledger]
    exact hagree x hx
  · obtain ⟨hr0, hrl⟩ := hprov q r hr
    have hpmem := findPayment_mem hp
    intro x hx
    rw [hpay] at hx
    rw [hreq, ledgerAfter_granted ledger refundsCreate q r hr]
    simp only [Store.savePayment, List.mem_map] at hx
    obtain ⟨y, hy, hyx⟩ := hx
    split_ifs at hyx with hid
    · obtain ⟨ha, h0, h1, _, cents, hc, hnn, hsum⟩ := hagree p hpmem
      rw [← hyx]
      refine ⟨ha, h0, h1, ?_, cents ++ [r.amount], ?_, ?_, ?_⟩
      · simp only [hq, if_true]
        rw [← hq]
        exact hrl
      · rw [List.map_append, hc]
        simp
      · intro c hcm
        rcases List.mem_append.1 hcm with h | h
        · exact hnn c h
        · simp only [List.mem_singleton] at h
          rw [h]
          exact hr0
      · simp only [hq, if_true, List.sum_append, List.sum_cons, List.sum_nil, add_zero]
        linarith
    · obtain ⟨ha, h0, h1, hl, cents, hc, hnn, hsum⟩ := hagree y hy
      rw [← hyx]
      refine ⟨ha, h0, h1, ?_, cents, hc, hnn, ?_⟩
      · by_cases hi : y.stripePaymentIntentId = q.payment_intent
        · simp only [hi, if_true]
          exact hrl
        · simp only [hi, if_false]
          exact hl
      · by_cases hi : y.stripePaymentIntentId = q.payment_intent
        · simp only [hi, if_true]
          rw [hi] at hsum
          linarith
        · simp only [hi, if_false]
          exact hsum

theorem refundAll_keeps_books (charged : String → Int) (calls : List RefundCall) :
    ∀ (ledger : String → Int) (s : Store), booksAgree charged ledger s →
      providerKeepsBooks charged s ledger calls →
      ∃ ledger', booksAgree charged ledger' (refundAll s calls) := by
  induction calls with
  | nil =>
    intro ledger s hagree _
    exact ⟨ledger, hagree⟩
  | cons c rest ih =>
    intro ledger s hagree hprov
    simp only [providerKeepsBooks] at hprov
    simp only [refundAll]
    exact ih _ _ (refund_keeps_books charged ledger s c.now c.user c.body c.refundsCreate
      hagree hprov.1) hprov.2

theorem refundedCents_of_booksAgree (charged ledger : String → Int) (s : Store)
    (hagree : booksAgree charged ledger s) :
    ∀ p ∈ s.payments, refundedCents p ≤ toCents p.amount := by
  intro p hp
  obtain ⟨ha, h0, h1, hl, cents, hc, hnn, hsum⟩ := hagree p hp
  have hbound : ∀ c ∈ cents, c < 2 ^ 50 := by
    intro c hcm
    have := List.single_le_sum hnn c hcm
    omega
  have hrec : refundedCents p = cents.sum := by
    have hmap : p.refunds.map (fun r => toCents r.amount) =
        (p.refunds.map (fun r => r.amount)).map toCents := by
      rw [List.map_map]
      rfl
    have hid : List.map (toCents ∘ fun c : Int => (c : ℚ) / 100) cents = cents := by
      calc List.map (toCents ∘ fun c : Int => (c : ℚ) / 100) cents
          = List.map id cents :=
            List.map_congr_left (fun c hcm => toCents_cents c (hnn c hcm) (hbound c hcm))
        _ = cents := List.map_id cents
    rw [refundedCents, hmap, hc, List.map_map, hid]
  rw [hrec, ha, toCents_cents _ h0 h1]
  omega

theorem bookkeepingProvider_within (left : Int) (q : RefundParams) (r : ProviderRefund)
    (h : bookkeepingProvider left q = some r) : 0 ≤ r.amount ∧ r.amount ≤ left := by
  unfold bookkeepingProvider at h
  cases hq : q.amount with
  | none =>
    rw [hq] at h
    simp only [] at h
    split_ifs at h with h0
    cases h
    exact ⟨h0, le_refl _⟩
  | some cents =>
    rw [hq] at h
    simp only [] at h
    split_ifs at h with h0
    cases h
    exact h0

theorem refund_paidWithRefunds (records : List RefundRecord) (now cents left : Int)
    (h0 : 0 < cents) (hl : cents ≤ left) (hne : cents ≠ 8500) :
    (refund (paidWithRefunds records) now adminUser (refundBody cents)
        (bookkeepingProvider left)).store =
      paidWithRefunds (records ++ [refundRecord cents now]) ∧
    (refund (paidWithRefunds records) now adminUser (refundBody cents)
        (bookkeepingProvider left)).requested = [refundRequest cents] ∧
    bookkeepingProvider left (refundRequest cents) = some { id := "re_1", amount := cents } := by
  have hcents : refundCents (refundBody cents).amount = some cents :=
    refundCents_cents cents (ne_of_gt h0)
  have hprov : bookkeepingProvider left (refundRequest cents) =
      some { id := "re_1", amount := cents } := by
    simp [bookkeepingProvider, refundRequest, le_of_lt h0, hl]
  have hr : bookkeepingProvider left
      { payment_intent := Payment.stripePaymentIntentId { succeededPayment with refunds := records },
        amount := refundCents (refundBody cents).amount,
        reason := refundReason (refundBody cents).reason,
        bookingId := confirmedCut.id, refundedBy := adminUser.email } =
      some { id := "re_1", amount := cents } := by
    rw [hcents]
    exact hprov
  have hne' : ((cents : Int) : ℚ) ≠
      Payment.amount { succeededPayment with refunds := records } * 100 := by
    have h85 : Payment.amount { succeededPayment with refunds := records } * 100 =
        ((8500 : Int) : ℚ) := by
      norm_num [succeededPayment, pendingPayment]
    rw [h85]
    exact_mod_cast hne
  obtain ⟨_, hstore, hreq⟩ :=
    refund_partial (paidWithRefunds records) now adminUser (refundBody cents)
      (bookkeepingProvider left) { succeededPayment with refunds := records } confirmedCut
      { id := "re_1", amount := cents } (Or.inl rfl) rfl rfl rfl hr hne'
  refine ⟨?_, ?_, hprov⟩
  · rw [hstore]
    rfl
  · rw [hreq, hcents]
    rfl

theorem freshPayments_storePaid : freshPayments chargedEightyFive storePaid := by
  intro p hp
  simp only [storePaid, List.mem_singleton] at hp
  rw [hp]
  refine ⟨rfl, ?_, by decide, by decide⟩
  norm_num [succeededPayment, pendingPayment, chargedEightyFive]

theorem roundingCalls_keep_books :
    providerKeepsBooks chargedEightyFive storePaid emptyLedger roundingCalls := by
  have hs0 : storePaid = paidWithRefunds [] := rfl
  obtain ⟨hst1, hrq1, hp1⟩ := refund_paidWithRefunds [] sampleNow 1610 8500
    (by decide) (by decide) (by decide)
  obtain ⟨hst2, hrq2, hp2⟩ := refund_paidWithRefunds ([] ++ [refundRecord 1610 sampleNow])
    (sampleNow + 60000) 4820 6890 (by decide) (by decide) (by decide)
  simp only [roundingCalls, providerKeepsBooks, hs0, hst1, hrq1, hst2, hrq2,
    ledgerAfter_granted _ _ _ _ hp1, ledgerAfter_granted _ _ _ _ hp2, and_true]
  refine ⟨?_, ?_, ?_⟩
  · intro q r h
    have hb := bookkeepingProvider_within 8500 q r h
    simp only [emptyLedger, chargedEightyFive]
    omega
  · intro q r h
    have hb := bookkeepingProvider_within 6890 q r h
    simp only [emptyLedger, chargedEightyFive]
    split_ifs <;> omega
  · intro q r h
    have hb := bookkeepingProvider_within 2070 q r h
    simp only [emptyLedger, chargedEightyFive]
    split_ifs <;> omega

theorem refundAll_roundingCalls :
    refundAll storePaid roundingCalls =
      paidWithRefunds [refundRecord 1610 sampleNow, refundRecord 4820 (sampleNow + 60000),
        refundRecord 2070 (sampleNow + 120000)] := by
  have hs0 : storePaid = paidWithRefunds [] := rfl
  obtain ⟨hst1, _, _⟩ := refund_paidWithRefunds [] sampleNow 1610 8500
    (by decide) (by decide) (by decide)
  obtain ⟨hst2, _, _⟩ := refund_paidWithRefunds ([] ++ [refundRecord 1610 sampleNow])
    (sampleNow + 60000) 4820 6890 (by decide) (by decide) (by decide)
  obtain ⟨hst3, _, _⟩ := refund_paidWithRefunds
    ([] ++ [refundRecord 1610 sampleNow] ++ [refundRecord 4820 (sampleNow + 60000)])
    (sampleNow + 120000) 2070 2070 (by decide) (by decide) (by decide)
  simp only [roundingCalls, refundAll, hs0, hst1, hst2, hst3]
  rfl

/-- C21 (as stated, refuted): the sum of the stored amounts of a payment's refund
records can exceed the stored amount of the payment, with a provider that never
refunds more than it charged. On the payment of 85 dollars the refunds of 16.10,
48.20 and 20.70 dollars, 8500 cents in all, are each carried out and recorded;
the three stored doubles sum to more than 85, both exactly and as JavaScript adds
them (85.00000000000001). -/
theorem refund_sum_can_exceed_amount :
    freshPayments chargedEightyFive storePaid ∧
    providerKeepsBooks chargedEightyFive storePaid emptyLedger roundingCalls ∧
    ((refundAll storePaid roundingCalls).findPayment 10).map
        (fun p => (p.amount, p.refunds.map (fun r => r.amount))) =
      some (85, [1610 / 100, 4820 / 100, 2070 / 100]) ∧
    (1610 : Int) + 4820 + 2070 = 8500 ∧
    (∃ p ∈ (refundAll storePaid roundingCalls).payments, toDouble p.amount < refundedTotal p) ∧
    toDouble 85 <
      sumDoubles [toDouble (1610 / 100), toDouble (4820 / 100), toDouble (2070 / 100)] := by
  refine ⟨freshPayments_storePaid, roundingCalls_keep_books, ?_, by decide, ?_, ?_⟩
  · rw [refundAll_roundingCalls]
    simp only [paidWithRefunds, Store.findPayment, List.find?_cons, succeededPayment,
      pendingPayment, refundRecord, beq_self_eq_true, Option.map_some', List.map_cons,
      List.map_nil]
    norm_num
  · rw [refundAll_roundingCalls]
    refine ⟨_, List.mem_singleton.2 rfl, ?_⟩
    have h85 : Payment.amount { succeededPayment with refunds := [refundRecord 1610 sampleNow, refundRecord 4820 (sampleNow + 60000), refundRecord 2070 (sampleNow + 120000)] } = 85 := rfl
    have h1 : (((1610 : Int) : ℚ)) / 100 = 1610 / 100 := by norm_num
    have h2 : (((4820 : Int) : ℚ)) / 100 = 4820 / 100 := by norm_num
    have h3 : (((2070 : Int) : ℚ)) / 100 = 2070 / 100 := by norm_num
    have ha : succeededPayment.amount = 85 := rfl
    simp only [h85, ha, refundedTotal, refundRecord, List.map_cons, List.map_nil, List.sum_cons,
      List.sum_nil, h1, h2, h3, toDouble_eighty_five, toDouble_sixteen_ten,
      toDouble_forty_eight_twenty, toDouble_twenty_seventy]
    norm_num
  · rw [sumDoubles_rounding, toDouble_eighty_five]
    norm_num

/-- C21 (amended): for every run of refund requests that starts from a state with
no refund recorded and is answered by a provider that keeps its books (it never
refunds more than is left of a charge), the refund records of every payment,
counted in cents, sum to at most the payment's amount in cents. The route itself
never compares an amount with what is left: it records each refund that the
provider carries out once, with the provider's cents divided by 100, and the
bound is the provider's. -/
theorem refund_cents_within_amount (charged : String → Int) (s : Store)
    (calls : List RefundCall)
    (hfresh : freshPayments charged s)
    (hprov : providerKeepsBooks charged s (fun _ => 0) calls) :
    ∀ p ∈ (refundAll s calls).payments, refundedCents p ≤ toCents p.amount := by
  obtain ⟨ledger, hagree⟩ := refundAll_keeps_books charged calls (fun _ => 0) s
    (booksAgree_of_fresh charged s hfresh) hprov
  exact refundedCents_of_booksAgree charged ledger _ hagree

/-- Witness for C21 (amended): after the refunds of 16.10, 48.20 and 20.70
dollars on the payment of 85 dollars, the refund records counted in cents are
within the 8500 cents of the payment. -/
theorem refund_cents_within_amount_witness :
    (refundAll storePaid roundingCalls).payments.all
      (fun p => decide (refundedCents p ≤ toCents p.amount)) = true :=
  List.all_eq_true.2 (fun p hp => decide_eq_true
    (refund_cents_within_amount chargedEightyFive storePaid roundingCalls
      freshPayments_storePaid roundingCalls_keep_books p hp))


/-! ## The payment status copied by a refund -/

/-- C28 (defect): after the partial refund of 40 dollars the payment's status is
still `succeeded`, and that is the value the route copies into the booking's
payment status; it is not a member of the schema's enum, the booking does not
pass validation, the route answers 500 and the stored booking keeps the payment
status `paid`. -/
theorem refund_copies_status_outside_enum :
    ((refund storePaid sampleNow adminUser refundForty sampleProvider).store.findPayment 10).map
        (fun q => q.status) = some "succeeded" ∧
    "succeeded" ∉ paymentStatusEnum ∧
    bookingEnumsValid
      { confirmedCut with status := "cancelled", paymentStatus := "succeeded",
                          updatedAt := sampleNow } = false ∧
    (refund storePaid sampleNow adminUser refundForty sampleProvider).reply =
      ⟨500, "Failed to process refund"⟩ ∧
    ((refund storePaid sampleNow adminUser refundForty sampleProvider).store.db.findBooking 1).map
        (fun b => b.paymentStatus) = some "paid" := by
  have hr : sampleProvider
      { payment_intent := succeededPayment.stripePaymentIntentId,
        amount := refundCents refundForty.amount, reason := refundReason refundForty.reason,
        bookingId := confirmedCut.id, refundedBy := adminUser.email } =
      some { id := "re_1", amount := 4000 } := by
    rw [refundCents_forty]
    rfl
  obtain ⟨hreply, hstore, _⟩ :=
    refund_partial storePaid sampleNow adminUser refundForty sampleProvider succeededPayment
      confirmedCut { id := "re_1", amount := 4000 } (Or.inl rfl) rfl rfl rfl hr
      (by norm_num [succeededPayment, pendingPayment])
  rw [hreply, hstore]
  exact ⟨rfl, by decide, by decide, rfl, by decide⟩

end Meghair
